import Mathlib

/-!
# Occupancy projection and collation (hydra_ros `occupancy_publisher.cpp`)

A shallow embedding of `src/hydra_ros/src/utils/occupancy_publisher.cpp`.

Conventions of the embedding:

* `float` and `double` values are exact rationals (`ℚ`); rounding is not modelled, with one
  exception: the cell index `r * width + c` of the slice projector, which the source
  computes in `float`, is rounded to single precision (`roundFloat`), because the index
  decides which cell is written. `std::numeric_limits<float>::max()` is the rational
  `FLT_MAX`.
* `uint32_t` fields are naturals and `uint32_t` arithmetic is taken `% 2 ^ 32`.
* Undefined behaviour and aborts (an out-of-bounds element access, a float to unsigned
  conversion whose value is out of range, a failed `CHECK`) are the result `none`.
* A `voxblox::Layer` is its voxel size, its voxels per side and its block hash map, kept as
  an association list whose order is the enumeration order of `getAllAllocatedBlocks`.
  The members of `voxblox::Layer`, `voxblox::Block` and the grid-index helpers are library
  code outside this repository; they are transcribed from the voxblox headers.
-/

namespace Hydra

/-! ## Vectors, indices and rigid transforms (Eigen) -/

/-- Two-dimensional vector, `Eigen::Vector2f`. -/
structure Vec2 where
  x : ℚ
  y : ℚ
deriving DecidableEq

/-- Three-dimensional vector, `Eigen::Vector3f` and `voxblox::Point`. -/
structure Vec3 where
  x : ℚ
  y : ℚ
  z : ℚ
deriving DecidableEq

/-- Integer index triple, `voxblox::BlockIndex` and `voxblox::VoxelIndex`. -/
structure Index3 where
  x : Int
  y : Int
  z : Int
deriving DecidableEq

/-- Component-wise sum of two points. -/
def Vec3.add (a b : Vec3) : Vec3 := ⟨a.x + b.x, a.y + b.y, a.z + b.z⟩

/-- Component-wise difference of two points. -/
def Vec3.sub (a b : Vec3) : Vec3 := ⟨a.x - b.x, a.y - b.y, a.z - b.z⟩

/-- Component-wise negation of a point. -/
def Vec3.neg (a : Vec3) : Vec3 := ⟨-a.x, -a.y, -a.z⟩

/-- Dot product of two vectors. -/
def Vec3.dot (a b : Vec3) : ℚ := a.x * b.x + a.y * b.y + a.z * b.z

/-- Horizontal part of a point, `head<2>()`. -/
def Vec3.head2 (a : Vec3) : Vec2 := ⟨a.x, a.y⟩

/-- Vector with all three entries equal, `Eigen::Vector3f::Constant`. -/
def Vec3.Constant (c : ℚ) : Vec3 := ⟨c, c, c⟩

/-- The 3x3 linear part of a rigid transform, stored by rows. -/
structure Mat3 where
  r0 : Vec3
  r1 : Vec3
  r2 : Vec3
deriving DecidableEq

/-- Transposed matrix. -/
def Mat3.transpose (m : Mat3) : Mat3 :=
  ⟨⟨m.r0.x, m.r1.x, m.r2.x⟩, ⟨m.r0.y, m.r1.y, m.r2.y⟩, ⟨m.r0.z, m.r1.z, m.r2.z⟩⟩

/-- Matrix times vector. -/
def Mat3.mulVec (m : Mat3) (p : Vec3) : Vec3 := ⟨m.r0.dot p, m.r1.dot p, m.r2.dot p⟩

/-- The identity matrix. -/
def Mat3.identity : Mat3 := ⟨⟨1, 0, 0⟩, ⟨0, 1, 0⟩, ⟨0, 0, 1⟩⟩

/-- Rigid transform, `Eigen::Isometry3d` / `Eigen::Isometry3f`. -/
structure Isometry3 where
  linear : Mat3
  translation : Vec3
deriving DecidableEq

/-- The identity transform. -/
def Isometry3.identity : Isometry3 := ⟨Mat3.identity, ⟨0, 0, 0⟩⟩

/-- Inverse of a transform in Eigen's `Isometry` mode: the linear part is transposed and
the translation becomes `-(Rᵀ t)`. -/
def Isometry3.inverse (t : Isometry3) : Isometry3 :=
  ⟨t.linear.transpose, (t.linear.transpose.mulVec t.translation).neg⟩

/-- Action of a transform on a point, `T * p`. -/
def Isometry3.apply (t : Isometry3) (p : Vec3) : Vec3 := (t.linear.mulVec p).add t.translation

/-! ## Voxel kinds -/

/-- The two template functions `getDistance<T>` and `isObserved<T>` that the file
specialises per voxel type, together with the value of a default-constructed voxel. -/
class VoxelKind (T : Type) where
  /-- Specialisation of `getDistance<T>`. -/
  getDistance : T → ℚ
  /-- Specialisation of `isObserved<T>`. -/
  isObserved : T → ℚ → Bool
  /-- Value of a default-constructed voxel (the content of a newly allocated block). -/
  zero : T

/-- The fields of `voxblox::TsdfVoxel` (its colour is four channel values). -/
structure TsdfVoxel where
  distance : ℚ
  weight : ℚ
  color : Nat × Nat × Nat × Nat
deriving DecidableEq

/-- The fields of `places::GvdVoxel` that the file reads; the remaining bookkeeping fields
of the voxel are carried in `extra`. -/
structure GvdVoxel where
  distance : ℚ
  observed : Bool
  extra : List Int
deriving DecidableEq

instance : VoxelKind TsdfVoxel where
  getDistance voxel := voxel.distance
  isObserved voxel min_weight := decide (voxel.weight ≥ min_weight)
  zero := ⟨0, 0, (0, 0, 0, 0)⟩

instance : VoxelKind GvdVoxel where
  getDistance voxel := voxel.distance
  isObserved voxel _ := voxel.observed
  zero := ⟨0, false, []⟩

/-! ## The voxblox layer -/

/-- Offset added before flooring in `voxblox::getGridIndexFromPoint`. -/
def kCoordinateEpsilon : ℚ := 1 / 1000000

/-- Index of the grid cell of size `1 / grid_size_inv` holding a point,
`voxblox::getGridIndexFromPoint`. -/
def getGridIndexFromPoint (point : Vec3) (grid_size_inv : ℚ) : Index3 :=
  ⟨⌊point.x * grid_size_inv + kCoordinateEpsilon⌋,
   ⌊point.y * grid_size_inv + kCoordinateEpsilon⌋,
   ⌊point.z * grid_size_inv + kCoordinateEpsilon⌋⟩

/-- Lower corner of a grid cell, `voxblox::getOriginPointFromGridIndex`. -/
def getOriginPointFromGridIndex (idx : Index3) (grid_size : ℚ) : Vec3 :=
  ⟨(idx.x : ℚ) * grid_size, (idx.y : ℚ) * grid_size, (idx.z : ℚ) * grid_size⟩

/-- Centre of a grid cell, `voxblox::getCenterPointFromGridIndex`. -/
def getCenterPointFromGridIndex (idx : Index3) (grid_size : ℚ) : Vec3 :=
  ⟨((idx.x : ℚ) + 1 / 2) * grid_size, ((idx.y : ℚ) + 1 / 2) * grid_size,
   ((idx.z : ℚ) + 1 / 2) * grid_size⟩

/-- A block, `voxblox::Block<T>`: a cube of `voxels_per_side ^ 3` voxels. -/
structure Block (T : Type) where
  voxels_per_side : Nat
  voxel_size : ℚ
  origin : Vec3
  has_data : Bool
  updated : Bool
  voxels : List T
deriving DecidableEq

namespace Block

variable {T : Type}

/-- Side length of the block, `voxels_per_side * voxel_size`. -/
def block_size (b : Block T) : ℚ := (b.voxels_per_side : ℚ) * b.voxel_size

/-- Number of voxels of the block. -/
def num_voxels (b : Block T) : Nat := b.voxels_per_side * b.voxels_per_side * b.voxels_per_side

/-- Linear position of a voxel index, before the conversion to `size_t`. -/
def computeLinearIndexFromVoxelIndex (b : Block T) (index : Index3) : Int :=
  index.x + (b.voxels_per_side : Int) * (index.y + index.z * (b.voxels_per_side : Int))

/-- Voxel at a linear index; an index outside the voxel array (`num_voxels` entries) has no
result. -/
def getVoxelByLinearIndex (b : Block T) (i : Nat) : Option T :=
  if i < b.num_voxels then b.voxels[i]? else none

/-- Voxel at a voxel index; an index outside the voxel array has no result. -/
def getVoxelByVoxelIndex (b : Block T) (index : Index3) : Option T :=
  if b.computeLinearIndexFromVoxelIndex index < 0 then none
  else b.getVoxelByLinearIndex (b.computeLinearIndexFromVoxelIndex index).toNat

/-- World position of the centre of a voxel. -/
def computeCoordinatesFromVoxelIndex (b : Block T) (index : Index3) : Vec3 :=
  b.origin.add (getCenterPointFromGridIndex index b.voxel_size)

/-- Assignment through `getVoxelByLinearIndex(i) = voxel`; an index outside the voxel
array has no result. -/
def setVoxelByLinearIndex (b : Block T) (i : Nat) (voxel : T) : Option (Block T) :=
  if i < b.num_voxels ∧ i < b.voxels.length then some { b with voxels := b.voxels.set i voxel }
  else none

end Block

/-- A layer, `voxblox::Layer<T>`. -/
structure Layer (T : Type) where
  voxel_size : ℚ
  voxels_per_side : Nat
  blocks : List (Index3 × Block T)
deriving DecidableEq

namespace Layer

variable {T : Type}

/-- Side length of the blocks of the layer. -/
def block_size (l : Layer T) : ℚ := l.voxel_size * (l.voxels_per_side : ℚ)

/-- Inverse of the voxel size. -/
def voxel_size_inv (l : Layer T) : ℚ := 1 / l.voxel_size

/-- Inverse of the block size. -/
def block_size_inv (l : Layer T) : ℚ := 1 / l.block_size

/-- Index of the block holding a point. -/
def computeBlockIndexFromCoordinates (l : Layer T) (coords : Vec3) : Index3 :=
  getGridIndexFromPoint coords l.block_size_inv

/-- Indices of the allocated blocks, in enumeration order. -/
def getAllAllocatedBlocks (l : Layer T) : List Index3 := l.blocks.map Prod.fst

/-- Block stored under an index, if any. -/
def getBlockPtrByIndex (l : Layer T) (idx : Index3) : Option (Block T) :=
  (l.blocks.find? (fun kv => decide (kv.1 = idx))).map Prod.snd

/-- Block stored under an index; the library aborts when there is none. -/
def getBlockByIndex (l : Layer T) (idx : Index3) : Option (Block T) := l.getBlockPtrByIndex idx

/-- A block as `allocateNewBlock` constructs it: all voxels default-constructed, both
flags cleared. -/
def newBlock [VoxelKind T] (l : Layer T) (idx : Index3) : Block T :=
  { voxels_per_side := l.voxels_per_side
    voxel_size := l.voxel_size
    origin := getOriginPointFromGridIndex idx l.block_size
    has_data := false
    updated := false
    voxels := List.replicate (l.voxels_per_side * l.voxels_per_side * l.voxels_per_side)
      (VoxelKind.zero : T) }

/-- Find-or-create of a block: returns the layer (with a new block appended when the index
was free) and the block now stored under the index. -/
def allocateBlockPtrByIndex [VoxelKind T] (l : Layer T) (idx : Index3) : Layer T × Block T :=
  match l.getBlockPtrByIndex idx with
  | some b => (l, b)
  | none => ({ l with blocks := l.blocks ++ [(idx, l.newBlock idx)] }, l.newBlock idx)

/-- Replaces the block stored under an index in an association list. -/
def storeIn (idx : Index3) (b : Block T) : List (Index3 × Block T) → List (Index3 × Block T)
  | [] => []
  | kv :: rest => if kv.1 = idx then (kv.1, b) :: rest else kv :: storeIn idx b rest

/-- Writes made through a block pointer: the block stored under the index is replaced. -/
def storeBlock (l : Layer T) (idx : Index3) (b : Block T) : Layer T :=
  { l with blocks := storeIn idx b l.blocks }

/-- A layer as the constructor `Layer(voxel_size, voxels_per_side)` leaves it. -/
def empty (voxel_size : ℚ) (voxels_per_side : Nat) : Layer T := ⟨voxel_size, voxels_per_side, []⟩

end Layer

/-! ## Configuration, footprint box and the grid message -/

/-- The fields of `OccupancyPublisher::Config`, as `declare_config` lists them. -/
structure OccupancyPublisher.Config where
  use_relative_height : Bool
  slice_height : ℚ
  num_slices : Nat
  min_observation_weight : ℚ
  min_distance : ℚ
  add_robot_footprint : Bool
  footprint_min : Vec3
  footprint_max : Vec3
deriving DecidableEq

/-- Axis-aligned box; `valid = false` is the default-constructed (invalid) box. -/
structure BoundingBox where
  valid : Bool
  lo : Vec3
  hi : Vec3
deriving DecidableEq

/-- The default-constructed box `BoundingBox()`. -/
def BoundingBox.invalid : BoundingBox := ⟨false, ⟨0, 0, 0⟩, ⟨0, 0, 0⟩⟩

/-- The box `BoundingBox(min, max)`. -/
def BoundingBox.ofCorners (lo hi : Vec3) : BoundingBox := ⟨true, lo, hi⟩

/-- Membership of a point in the box (closed on every side); nothing is inside the invalid
box. -/
def BoundingBox.isInside (b : BoundingBox) (p : Vec3) : Bool :=
  b.valid && decide (b.lo.x ≤ p.x ∧ p.x ≤ b.hi.x ∧ b.lo.y ≤ p.y ∧ p.y ≤ b.hi.y ∧
    b.lo.z ≤ p.z ∧ p.z ≤ b.hi.z)

/-- Orientation quaternion of `geometry_msgs::Pose`. -/
structure Quaternion where
  x : ℚ
  y : ℚ
  z : ℚ
  w : ℚ
deriving DecidableEq

/-- Pose of the grid origin, `geometry_msgs::Pose`. -/
structure Pose where
  position : Vec3
  orientation : Quaternion
deriving DecidableEq

/-- Grid metadata, `nav_msgs::MapMetaData`. -/
structure MapMetaData where
  map_load_time : Nat
  resolution : ℚ
  width : Nat
  height : Nat
  origin : Pose
deriving DecidableEq

/-- Message header, `std_msgs::Header`. -/
structure Header where
  stamp : Nat
  frame_id : String
deriving DecidableEq

/-- The grid message, `nav_msgs::OccupancyGrid`; `data` is row-major. -/
structure OccupancyGrid where
  header : Header
  info : MapMetaData
  data : List Int
deriving DecidableEq

/-- A default-constructed grid message: every number zero, no cells. -/
def OccupancyGrid.fresh : OccupancyGrid :=
  ⟨⟨0, ""⟩, ⟨0, 0, 0, 0, ⟨⟨0, 0, 0⟩, ⟨0, 0, 0, 0⟩⟩⟩, []⟩

/-- Effect of `std::vector::resize(n, value)`. -/
def resize (data : List Int) (n : Nat) (value : Int) : List Int :=
  data.take n ++ List.replicate (n - data.length) value

/-- Conversion of an integral floating-point value to `uint32_t`; a value outside the range
of the type has no result. -/
def toUInt32 (z : Int) : Option Nat := if 0 ≤ z ∧ z < 2 ^ 32 then some z.toNat else none

/-- Conversion of an integral floating-point value to `size_t`; a negative value has no
result. -/
def toSizeT (z : Int) : Option Nat := if 0 ≤ z then some z.toNat else none

/-- Largest finite `float`, `std::numeric_limits<float>::max()`. -/
def FLT_MAX : ℚ := 340282346638528859811704183484516925440

/-! ## Bounds and grid set-up -/

/-- Horizontal bounds of a layer, `struct Bounds`. -/
structure Bounds where
  x_min : Vec2
  x_max : Vec2
  dims : Vec2
deriving DecidableEq

/-- The default member values of `struct Bounds`. -/
def Bounds.init : Bounds := ⟨⟨FLT_MAX, FLT_MAX⟩, ⟨-FLT_MAX, -FLT_MAX⟩, ⟨0, 0⟩⟩

/-- One iteration of the loop of `getLayerBounds`. -/
def getLayerBounds.step {T : Type} (layer : Layer T) (bounds : Bounds) (idx : Index3) :
    Option Bounds :=
  (layer.getBlockByIndex idx).map fun block =>
    let lower := block.origin
    let upper := lower.add (Vec3.Constant block.block_size)
    { bounds with
      x_min := ⟨min bounds.x_min.x lower.head2.x, min bounds.x_min.y lower.head2.y⟩
      x_max := ⟨max bounds.x_max.x upper.head2.x, max bounds.x_max.y upper.head2.y⟩ }

/-- Embedding of `getLayerBounds`. -/
def getLayerBounds {T : Type} (layer : Layer T) : Option Bounds :=
  (layer.getAllAllocatedBlocks.foldlM (getLayerBounds.step layer) Bounds.init).map fun bounds =>
    { bounds with
      dims := ⟨(bounds.x_max.x - bounds.x_min.x) / layer.voxel_size,
               (bounds.x_max.y - bounds.x_min.y) / layer.voxel_size⟩ }

/-- Embedding of `initGrid`. -/
def initGrid {T : Type} (layer : Layer T) (bounds : Bounds) (height : ℚ)
    (msg : OccupancyGrid) : Option OccupancyGrid :=
  (toUInt32 ⌈bounds.dims.x⌉).bind fun width =>
  (toUInt32 ⌈bounds.dims.y⌉).bind fun h =>
    some { msg with
      info := { msg.info with
        resolution := layer.voxel_size
        width := width
        height := h
        origin := ⟨⟨bounds.x_min.x, bounds.x_min.y, height⟩,
                   { msg.info.origin.orientation with w := 1 }⟩ }
      data := resize msg.data ((width * h) % 2 ^ 32) (-1) }

/-! ## Slice projection -/

/-- Spacing of the `float` values around a natural number `n`: the least power of two `q`
with `n < 2 ^ 24 * q`, searched upwards from `q` in at most `fuel` doublings. -/
def floatSpacing : Nat → Nat → Nat → Nat
  | 0, _, q => q
  | fuel + 1, n, q => if n < 2 ^ 24 * q then q else floatSpacing fuel n (2 * q)

/-- A natural number rounded to a `float`: 24 significant bits, round to nearest, ties to
the even significand. The finite range of `float` is not modelled. -/
def roundFloatNat (n : Nat) : Nat :=
  let q := floatSpacing n n 1
  let lo := n / q * q
  if 2 * (n % q) < q then lo
  else if q < 2 * (n % q) then lo + q
  else if (n / q) % 2 = 0 then lo
  else lo + q

/-- An integer rounded to a `float`. -/
def roundFloat (z : Int) : Int :=
  if 0 ≤ z then (roundFloatNat z.toNat : Int) else -(roundFloatNat (-z).toNat : Int)

/-- Cell index `r * msg.info.width + c` of a voxel, before the conversion to `size_t`. The
row `r` and the column `c` are of type `float`, so the width is converted to `float` and
the product and the sum are `float` operations, each rounded. -/
def cellIndex {T : Type} (layer : Layer T) (bounds : Bounds) (msg : OccupancyGrid)
    (block : Block T) (voxel_index : Index3) : Int :=
  let pos := block.computeCoordinatesFromVoxelIndex voxel_index
  let rel_pos : Vec2 := ⟨pos.head2.x - bounds.x_min.x, pos.head2.y - bounds.x_min.y⟩
  let r := ⌊rel_pos.y / layer.voxel_size⌋
  let c := ⌊rel_pos.x / layer.voxel_size⌋
  roundFloat (roundFloat (r * roundFloat (msg.info.width : Int)) + c)

/-- The grid with one cell replaced. -/
def OccupancyGrid.withCell (msg : OccupancyGrid) (index : Nat) (value : Int) : OccupancyGrid :=
  { msg with data := msg.data.set index value }

/-- Assignment `msg.data[index] = value`; an index outside the cell array has no result. -/
def setCell (msg : OccupancyGrid) (index : Nat) (value : Int) : Option OccupancyGrid :=
  if index < msg.data.length then some (msg.withCell index value) else none

/-- The footprint box that `fillOccupancySlice` builds from the configuration. -/
def footprintBox (config : OccupancyPublisher.Config) : BoundingBox :=
  if config.add_robot_footprint then
    BoundingBox.ofCorners config.footprint_min config.footprint_max
  else BoundingBox.invalid

/-- Body of the innermost loop of `fillOccupancySlice`, for one voxel of a block. -/
def fillOccupancySlice.visit {T : Type} [VoxelKind T] (config : OccupancyPublisher.Config)
    (layer : Layer T) (sensor_T_world : Isometry3) (bounds : Bounds) (block : Block T)
    (voxel_index : Index3) (msg : OccupancyGrid) : Option OccupancyGrid :=
  (block.getVoxelByVoxelIndex voxel_index).bind fun voxel =>
  let pos := block.computeCoordinatesFromVoxelIndex voxel_index
  (toSizeT (cellIndex layer bounds msg block voxel_index)).bind fun index =>
  if config.add_robot_footprint && (footprintBox config).isInside (sensor_T_world.apply pos) then
    setCell msg index 0
  else if !VoxelKind.isObserved voxel config.min_observation_weight then
    setCell msg index (-2)
  else if VoxelKind.getDistance voxel < config.min_distance then
    setCell msg index 100
  else
    (msg.data[index]?).bind fun old =>
      if old = -1 then setCell msg index 0 else some msg

/-- Embedding of `fillOccupancySlice`. -/
def fillOccupancySlice {T : Type} [VoxelKind T] (config : OccupancyPublisher.Config)
    (layer : Layer T) (world_T_sensor : Isometry3) (bounds : Bounds) (height : ℚ)
    (msg : OccupancyGrid) : Option OccupancyGrid :=
  let slice_pos : Vec3 := ⟨0, 0, height⟩
  let slice_index := layer.computeBlockIndexFromCoordinates slice_pos
  let origin := getOriginPointFromGridIndex slice_index layer.block_size
  let grid_index := getGridIndexFromPoint (slice_pos.sub origin) layer.voxel_size_inv
  let blocks := layer.getAllAllocatedBlocks
  let matching_blocks := blocks.filter fun idx => decide (idx.z = slice_index.z)
  let sensor_T_world := world_T_sensor.inverse
  matching_blocks.foldlM (fun msg idx =>
    (layer.getBlockByIndex idx).bind fun block =>
      (List.range block.voxels_per_side).foldlM (fun msg (x : Nat) =>
        (List.range block.voxels_per_side).foldlM (fun msg (y : Nat) =>
          fillOccupancySlice.visit config layer sensor_T_world bounds block
            ⟨Int.ofNat x, Int.ofNat y, grid_index.z⟩ msg) msg) msg) msg

/-- Base height of a pass: the configured slice height, plus the sensor altitude in
relative-height mode. -/
def baseHeight (config : OccupancyPublisher.Config) (world_T_sensor : Isometry3) : ℚ :=
  if config.use_relative_height then config.slice_height + world_T_sensor.translation.z
  else config.slice_height

/-- The final loop of `fillOccupancy`: every cell holding `-2` becomes `-1`. -/
def cleanup (msg : OccupancyGrid) : OccupancyGrid :=
  { msg with data := msg.data.map fun c => if c = -2 then -1 else c }

/-- Embedding of `fillOccupancy`. -/
def fillOccupancy {T : Type} [VoxelKind T] (config : OccupancyPublisher.Config)
    (layer : Layer T) (world_T_sensor : Isometry3) (msg : OccupancyGrid) :
    Option OccupancyGrid :=
  (getLayerBounds layer).bind fun bounds =>
  let height := baseHeight config world_T_sensor
  (initGrid layer bounds height msg).bind fun msg =>
  ((List.range config.num_slices).foldlM (fun msg (i : Nat) =>
      fillOccupancySlice config layer world_T_sensor bounds
        (height + (i : ℚ) * layer.voxel_size) msg) msg).map cleanup

/-! ## Collation -/

/-- The scanning loop of `collate` over the linear indices still to be read: the result is
`true` when no voxel passes the observation test, and the scan stops at the first voxel
that does. -/
def collate.scan {T : Type} [VoxelKind T] (block : Block T) (min_observation_weight : ℚ) :
    List Nat → Option Bool
  | [] => some true
  | i :: rest =>
    (block.getVoxelByLinearIndex i).bind fun voxel =>
      if VoxelKind.isObserved voxel min_observation_weight then some false
      else collate.scan block min_observation_weight rest

/-- Body of the copying loop of `collate`: voxel `i` of the source block overwrites voxel `i`
of the collated block when it passes the observation test. -/
def collate.copy {T : Type} [VoxelKind T] (block : Block T) (min_observation_weight : ℚ)
    (new_block : Block T) (i : Nat) : Option (Block T) :=
  (block.getVoxelByLinearIndex i).bind fun voxel =>
    if VoxelKind.isObserved voxel min_observation_weight then
      new_block.setVoxelByLinearIndex i voxel
    else some new_block

/-- Body of the outer loop of `collate`, for one allocated block index of the incoming
layer. -/
def collate.block {T : Type} [VoxelKind T] (layer_in : Layer T)
    (min_observation_weight : ℚ) (layer_out : Layer T) (idx : Index3) : Option (Layer T) :=
  (layer_in.getBlockPtrByIndex idx).bind fun block =>
  (collate.scan block min_observation_weight (List.range block.num_voxels)).bind
    fun unobserved =>
  if unobserved then some layer_out
  else
    let allocated := layer_out.allocateBlockPtrByIndex idx
    let new_block : Block T :=
      { allocated.2 with has_data := block.has_data, updated := block.updated }
    ((List.range block.num_voxels).foldlM (collate.copy block min_observation_weight)
      new_block).map fun new_block => allocated.1.storeBlock idx new_block

/-- Embedding of `collate`. -/
def collate {T : Type} [VoxelKind T] (layer_in : Layer T) (layer_out : Layer T)
    (min_observation_weight : ℚ) : Option (Layer T) :=
  layer_in.getAllAllocatedBlocks.foldlM (collate.block layer_in min_observation_weight)
    layer_out

/-! ## Publishers -/

/-- The publishing sink, `ros::Publisher`: the messages handed to it so far. The number of
active consumers is owned by the middleware and is an input of every call. -/
structure RosPublisher where
  published : List OccupancyGrid
deriving DecidableEq

/-- Effect of `pub_.publish(msg)`. -/
def RosPublisher.publish (p : RosPublisher) (msg : OccupancyGrid) : RosPublisher :=
  ⟨p.published ++ [msg]⟩

/-- Effect of `ros::Time::fromNSec`: the stamp in nanoseconds; the library throws when the
seconds do not fit 32 bits. -/
def fromNSec (timestamp_ns : Nat) : Option Nat :=
  if timestamp_ns / 1000000000 < 2 ^ 32 then some timestamp_ns else none

/-- The state of an `OccupancyPublisher`. -/
structure OccupancyPublisher where
  config : OccupancyPublisher.Config
  pub_ : RosPublisher
deriving DecidableEq

/-- State left by the constructor of `OccupancyPublisher` (`declare_config` registers no
validity check, so `checkValid` returns the configuration). -/
def OccupancyPublisher.create (config : OccupancyPublisher.Config) : OccupancyPublisher :=
  ⟨config, ⟨[]⟩⟩

/-- Common body of `publishTsdf` and `publishGvd`. `numSubscribers` is what
`getNumSubscribers` returns during the call and `map_frame` the frame name held by
`GlobalInfo`. -/
def OccupancyPublisher.publishLayer {T : Type} [VoxelKind T] (self : OccupancyPublisher)
    (numSubscribers : Nat) (map_frame : String) (timestamp_ns : Nat)
    (world_T_sensor : Isometry3) (layer : Layer T) : Option OccupancyPublisher :=
  if numSubscribers = 0 then some self
  else
    (fromNSec timestamp_ns).bind fun stamp =>
    let msg : OccupancyGrid :=
      { OccupancyGrid.fresh with
        header := ⟨stamp, map_frame⟩
        info := { OccupancyGrid.fresh.info with map_load_time := stamp } }
    (fillOccupancy self.config layer world_T_sensor msg).map fun msg =>
      { self with pub_ := self.pub_.publish msg }

/-- Embedding of `OccupancyPublisher::publishTsdf`. -/
def OccupancyPublisher.publishTsdf (self : OccupancyPublisher) (numSubscribers : Nat)
    (map_frame : String) (timestamp_ns : Nat) (world_T_sensor : Isometry3)
    (tsdf : Layer TsdfVoxel) : Option OccupancyPublisher :=
  self.publishLayer numSubscribers map_frame timestamp_ns world_T_sensor tsdf

/-- Embedding of `OccupancyPublisher::publishGvd`. -/
def OccupancyPublisher.publishGvd (self : OccupancyPublisher) (numSubscribers : Nat)
    (map_frame : String) (timestamp_ns : Nat) (world_T_sensor : Isometry3)
    (gvd : Layer GvdVoxel) : Option OccupancyPublisher :=
  self.publishLayer numSubscribers map_frame timestamp_ns world_T_sensor gvd

/-- The constructor `Layer(voxel_size, voxels_per_side)` with its three `CHECK`s. -/
def Layer.create {T : Type} (voxel_size : ℚ) (voxels_per_side : Nat) : Option (Layer T) :=
  if 0 < voxel_size ∧ 0 < voxel_size * (voxels_per_side : ℚ) ∧ 0 < voxels_per_side then
    some (Layer.empty voxel_size voxels_per_side)
  else none

/-- The fields of `TsdfOccupancyPublisher::Config`, as `declare_config` lists them. -/
structure TsdfOccupancyPublisher.Config where
  ns : String
  extraction : OccupancyPublisher.Config
  collate : Bool
deriving DecidableEq

/-- The fields of `GvdOccupancyPublisher::Config`, as `declare_config` lists them. -/
structure GvdOccupancyPublisher.Config where
  ns : String
  extraction : OccupancyPublisher.Config
  collate : Bool
deriving DecidableEq

/-- The state of a `TsdfOccupancyPublisher`; `tsdf_` is the collated layer, absent until
the first collating call. -/
structure TsdfOccupancyPublisher where
  config : TsdfOccupancyPublisher.Config
  pub_ : OccupancyPublisher
  tsdf_ : Option (Layer TsdfVoxel)
deriving DecidableEq

/-- The state of a `GvdOccupancyPublisher`; `gvd_` is the collated layer, absent until the
first collating call. -/
structure GvdOccupancyPublisher where
  config : GvdOccupancyPublisher.Config
  pub_ : OccupancyPublisher
  gvd_ : Option (Layer GvdVoxel)
deriving DecidableEq

/-- State left by the constructor of `TsdfOccupancyPublisher`: the member `config` is
copied from the argument. -/
def TsdfOccupancyPublisher.create (config : TsdfOccupancyPublisher.Config) :
    TsdfOccupancyPublisher :=
  ⟨config, OccupancyPublisher.create config.extraction, none⟩

/-- State left by the constructor of `GvdOccupancyPublisher`: its initialiser list names
only `pub_`, so the member `config` keeps the value `default_config` of a
default-constructed configuration. -/
def GvdOccupancyPublisher.create (default_config config : GvdOccupancyPublisher.Config) :
    GvdOccupancyPublisher :=
  ⟨default_config, OccupancyPublisher.create config.extraction, none⟩

/-- The collated layer a call works on: the existing one, or a new empty layer with the
geometry of the incoming layer. -/
def collatedOrNew {T : Type} (store : Option (Layer T)) (layer : Layer T) : Option (Layer T) :=
  match store with
  | some s => some s
  | none => Layer.create layer.voxel_size layer.voxels_per_side

/-- Embedding of `TsdfOccupancyPublisher::call`. -/
def TsdfOccupancyPublisher.call (self : TsdfOccupancyPublisher) (numSubscribers : Nat)
    (map_frame : String) (timestamp_ns : Nat) (world_T_sensor : Isometry3)
    (tsdf : Layer TsdfVoxel) : Option TsdfOccupancyPublisher :=
  if !self.config.collate then
    (self.pub_.publishTsdf numSubscribers map_frame timestamp_ns world_T_sensor tsdf).map
      fun p => { self with pub_ := p }
  else
    (collatedOrNew self.tsdf_ tsdf).bind fun store =>
    (collate tsdf store self.config.extraction.min_observation_weight).bind fun store =>
    (self.pub_.publishTsdf numSubscribers map_frame timestamp_ns world_T_sensor store).map
      fun p => { self with pub_ := p, tsdf_ := some store }

/-- Embedding of `GvdOccupancyPublisher::call`. -/
def GvdOccupancyPublisher.call (self : GvdOccupancyPublisher) (numSubscribers : Nat)
    (map_frame : String) (timestamp_ns : Nat) (world_T_body : Isometry3)
    (gvd : Layer GvdVoxel) : Option GvdOccupancyPublisher :=
  if !self.config.collate then
    (self.pub_.publishGvd numSubscribers map_frame timestamp_ns world_T_body gvd).map
      fun p => { self with pub_ := p }
  else
    (collatedOrNew self.gvd_ gvd).bind fun store =>
    (collate gvd store self.config.extraction.min_observation_weight).bind fun store =>
    (self.pub_.publishGvd numSubscribers map_frame timestamp_ns world_T_body store).map
      fun p => { self with pub_ := p, gvd_ := some store }

/-! ## Vocabulary of the properties -/

/-- The cell-state rules (a) to (d) in the words of the specification: inside the footprint
gives free; otherwise unobserved gives the transient code; otherwise a distance below the
threshold gives occupied; otherwise the cell becomes free only when it still holds the
unknown code. -/
def cellRule (in_footprint observed occupied : Bool) (old : Int) : Int :=
  if in_footprint then 0
  else if !observed then -2
  else if occupied then 100
  else if old = -1 then 0
  else old

/-- Footprint condition of rule (a): masking is enabled and the position of the voxel,
transformed into the sensor frame, lies inside the configured box. -/
def inFootprint {T : Type} (config : OccupancyPublisher.Config) (sensor_T_world : Isometry3)
    (block : Block T) (voxel_index : Index3) : Bool :=
  config.add_robot_footprint &&
    (BoundingBox.ofCorners config.footprint_min config.footprint_max).isInside
      (sensor_T_world.apply (block.computeCoordinatesFromVoxelIndex voxel_index))

/-- The voxels that one call of `fillOccupancySlice` visits, in the order of its three
nested loops. -/
def sliceVisits {T : Type} (layer : Layer T) (height : ℚ) : List (Block T × Index3) :=
  let slice_pos : Vec3 := ⟨0, 0, height⟩
  let slice_index := layer.computeBlockIndexFromCoordinates slice_pos
  let origin := getOriginPointFromGridIndex slice_index layer.block_size
  let grid_index := getGridIndexFromPoint (slice_pos.sub origin) layer.voxel_size_inv
  (layer.getAllAllocatedBlocks.filter fun idx => decide (idx.z = slice_index.z)).flatMap
    fun idx =>
      match layer.getBlockByIndex idx with
      | none => []
      | some block =>
        (List.range block.voxels_per_side).flatMap fun (x : Nat) =>
          (List.range block.voxels_per_side).map fun (y : Nat) =>
            (block, (⟨Int.ofNat x, Int.ofNat y, grid_index.z⟩ : Index3))

/-- Height of slice `i` of a pass. -/
def sliceHeight {T : Type} (config : OccupancyPublisher.Config) (layer : Layer T)
    (world_T_sensor : Isometry3) (i : Nat) : ℚ :=
  baseHeight config world_T_sensor + (i : ℚ) * layer.voxel_size

/-- The voxels visited by the slices `lo, lo + 1, ..., lo + n - 1` of a pass, in order. -/
def slicesVisits {T : Type} (config : OccupancyPublisher.Config) (layer : Layer T)
    (world_T_sensor : Isometry3) (lo n : Nat) : List (Block T × Index3) :=
  (List.range' lo n).flatMap fun (i : Nat) =>
    sliceVisits layer (sliceHeight config layer world_T_sensor i)

/-- The grid after the first `n` slices of a pass, before the cleanup loop. -/
def runSlices {T : Type} [VoxelKind T] (config : OccupancyPublisher.Config) (layer : Layer T)
    (world_T_sensor : Isometry3) (bounds : Bounds) (n : Nat) (msg : OccupancyGrid) :
    Option OccupancyGrid :=
  (List.range n).foldlM (fun msg (i : Nat) =>
    fillOccupancySlice config layer world_T_sensor bounds
      (sliceHeight config layer world_T_sensor i) msg) msg

/-- Voxel of a layer at a block index and a linear voxel index, if allocated. -/
def Layer.voxelAt {T : Type} (l : Layer T) (idx : Index3) (i : Nat) : Option T :=
  (l.getBlockPtrByIndex idx).bind fun block => block.getVoxelByLinearIndex i

/-- The sample a block offers at a linear index: the voxel there when it passes the
observation test, nothing otherwise. -/
def Block.sample {T : Type} [VoxelKind T] (b : Block T) (min_observation_weight : ℚ)
    (i : Nat) : Option T :=
  (b.getVoxelByLinearIndex i).filter fun voxel => VoxelKind.isObserved voxel min_observation_weight

/-- The sample a layer offers at a block index and a linear voxel index. -/
def Layer.sample {T : Type} [VoxelKind T] (l : Layer T) (min_observation_weight : ℚ)
    (idx : Index3) (i : Nat) : Option T :=
  (l.getBlockPtrByIndex idx).bind fun block => block.sample min_observation_weight i

/-- The most recent sample that a sequence of incoming layers (oldest first) offers at a
voxel address. -/
def lastObserved {T : Type} [VoxelKind T] (min_observation_weight : ℚ) (idx : Index3)
    (i : Nat) : List (Layer T) → Option T
  | [] => none
  | l :: rest =>
    match lastObserved min_observation_weight idx i rest with
    | some v => some v
    | none => l.sample min_observation_weight idx i

/-- A sequence of `collate` calls on one store, oldest incoming layer first. -/
def collateAll {T : Type} [VoxelKind T] (min_observation_weight : ℚ) (store : Layer T)
    (layers : List (Layer T)) : Option (Layer T) :=
  layers.foldlM (fun s l => collate l s min_observation_weight) store

/-- Cells hold one of the four codes used during a pass. -/
def PassCodes (msg : OccupancyGrid) : Prop :=
  ∀ c ∈ msg.data, c = -1 ∨ c = -2 ∨ c = 0 ∨ c = 100

/-! ## Scenarios and further vocabulary -/

/-- A voxel observed with weight 2 at distance 0 (below the threshold of the scenarios). -/
def occupiedVoxel : TsdfVoxel := ⟨0, 2, (0, 0, 0, 0)⟩

/-- A voxel observed with weight 2 at distance 5 (not below the threshold). -/
def freeVoxel : TsdfVoxel := ⟨5, 2, (0, 0, 0, 0)⟩

/-- A voxel of weight 0 at distance 5: unobserved under the threshold weight 1. -/
def unobservedVoxel : TsdfVoxel := ⟨5, 0, (0, 0, 0, 0)⟩

/-- Configuration of the end-to-end scenario: one slice at height 0, weight threshold 1,
distance threshold 1/2, no footprint. -/
def scenarioConfig : OccupancyPublisher.Config :=
  { use_relative_height := false
    slice_height := 0
    num_slices := 1
    min_observation_weight := 1
    min_distance := 1 / 2
    add_robot_footprint := false
    footprint_min := ⟨0, 0, 0⟩
    footprint_max := ⟨0, 0, 0⟩ }

/-- One block of 2x2x2 voxels at the origin, voxel size 1; only the voxel with local index
`(0, 0, 0)` is observed, and it is below the distance threshold. -/
def scenarioBlock : Block TsdfVoxel :=
  { voxels_per_side := 2
    voxel_size := 1
    origin := ⟨0, 0, 0⟩
    has_data := true
    updated := true
    voxels := [occupiedVoxel, unobservedVoxel, unobservedVoxel, unobservedVoxel,
      unobservedVoxel, unobservedVoxel, unobservedVoxel, unobservedVoxel] }

/-- The layer of the end-to-end scenario. -/
def scenarioLayer : Layer TsdfVoxel := ⟨1, 2, [(⟨0, 0, 0⟩, scenarioBlock)]⟩

/-- The grid that the end-to-end scenario produces from a fresh message. -/
def scenarioGrid : OccupancyGrid :=
  { header := ⟨0, ""⟩
    info := ⟨0, 1, 2, 2, ⟨⟨0, 0, 0⟩, ⟨0, 0, 0, 1⟩⟩⟩
    data := [100, -1, -1, -1] }

/-- No voxel of the block passes the observation test (the block is skipped by
`collate`). -/
def Block.unobserved {T : Type} [VoxelKind T] (b : Block T) (min_observation_weight : ℚ) :
    Bool :=
  (List.range b.num_voxels).all fun i => (b.sample min_observation_weight i).isNone

/-- The per-voxel merge in the words of the specification: the collated block takes the
two flags of the source block, every voxel for which the source offers a sample is
overwritten by that sample, and every other voxel is left as it was. -/
def mergeBlock {T : Type} [VoxelKind T] (min_observation_weight : ℚ) (block prior : Block T) :
    Block T :=
  { prior with
    has_data := block.has_data
    updated := block.updated
    voxels := prior.voxels.mapIdx fun i old => (block.sample min_observation_weight i).getD old }

/-- The block that find-or-create returns for an index: the stored block, or a new block of
default voxels when the index is free. -/
def Layer.priorBlock {T : Type} [VoxelKind T] (l : Layer T) (idx : Index3) : Block T :=
  (l.getBlockPtrByIndex idx).getD (l.newBlock idx)

/-- The writes of a merge fit the collated block: every linear index at which the source
offers a sample lies inside the voxel array of the collated block. -/
def WritesFit {T : Type} [VoxelKind T] (min_observation_weight : ℚ) (block prior : Block T) :
    Prop :=
  ∀ i v, block.sample min_observation_weight i = some v →
    i < prior.num_voxels ∧ i < prior.voxels.length

/-- The block stored under an index after one merge, in the words of the specification: a
source block that is absent or entirely unobserved leaves the store as it was at that
index; any other source block is merged voxel by voxel into the block that find-or-create
returns. -/
def collatedBlock {T : Type} [VoxelKind T] (min_observation_weight : ℚ)
    (layer_in layer_out : Layer T) (idx : Index3) : Option (Block T) :=
  match layer_in.getBlockPtrByIndex idx with
  | none => layer_out.getBlockPtrByIndex idx
  | some block =>
    if block.unobserved min_observation_weight then layer_out.getBlockPtrByIndex idx
    else some (mergeBlock min_observation_weight block (layer_out.priorBlock idx))

/-- A second incoming layer for the collation scenarios: the same block, where now only
the voxel with linear index 1 is observed (and free). -/
def scenarioLayerB : Layer TsdfVoxel :=
  ⟨1, 2, [(⟨0, 0, 0⟩,
    { scenarioBlock with
      voxels := [unobservedVoxel, freeVoxel, unobservedVoxel, unobservedVoxel,
        unobservedVoxel, unobservedVoxel, unobservedVoxel, unobservedVoxel] })]⟩

/-- The block of the scenario with every voxel unobserved. -/
def scenarioBlockUnobserved : Block TsdfVoxel :=
  { scenarioBlock with
    has_data := false
    voxels := [unobservedVoxel, unobservedVoxel, unobservedVoxel, unobservedVoxel,
      unobservedVoxel, unobservedVoxel, unobservedVoxel, unobservedVoxel] }

/-- An incoming layer whose only block is entirely unobserved. -/
def scenarioLayerUnobserved : Layer TsdfVoxel := ⟨1, 2, [(⟨0, 0, 0⟩, scenarioBlockUnobserved)]⟩

/-- A collated store that already holds the block of the scenario, every voxel observed and
free. -/
def scenarioStore : Layer TsdfVoxel :=
  ⟨1, 2, [(⟨0, 0, 0⟩,
    { scenarioBlock with
      has_data := false
      updated := false
      voxels := [freeVoxel, freeVoxel, freeVoxel, freeVoxel, freeVoxel, freeVoxel, freeVoxel,
        freeVoxel] })]⟩

/-- The store `scenarioStore` after merging `scenarioLayer`. -/
def scenarioStoreMerged : Layer TsdfVoxel :=
  ⟨1, 2, [(⟨0, 0, 0⟩,
    { scenarioBlock with
      voxels := [occupiedVoxel, freeVoxel, freeVoxel, freeVoxel, freeVoxel, freeVoxel,
        freeVoxel, freeVoxel] })]⟩

/-- The default-constructed voxel of the TSDF kind. -/
def zeroVoxel : TsdfVoxel := VoxelKind.zero

/-- An empty store after merging `scenarioLayer` and then `scenarioLayerB`. -/
def scenarioCollated : Layer TsdfVoxel :=
  ⟨1, 2, [(⟨0, 0, 0⟩,
    { scenarioBlock with
      voxels := [occupiedVoxel, freeVoxel, zeroVoxel, zeroVoxel, zeroVoxel, zeroVoxel,
        zeroVoxel, zeroVoxel] })]⟩

/-- The blocks that `getLayerBounds` reads: for every enumerated index, the block stored
under it. -/
def Layer.allocatedBlockList {T : Type} (l : Layer T) : List (Block T) :=
  l.getAllAllocatedBlocks.filterMap l.getBlockByIndex

/-- A rational that a finite `float` can hold: between `-FLT_MAX` and `FLT_MAX`. -/
def inFloatRange (q : ℚ) : Prop := -FLT_MAX ≤ q ∧ q ≤ FLT_MAX

instance (q : ℚ) : Decidable (inFloatRange q) := by
  unfold inFloatRange
  infer_instance

/-- Update of the running bounds by one block, the body of the loop of `getLayerBounds`. -/
def Bounds.extend {T : Type} (bounds : Bounds) (block : Block T) : Bounds :=
  { bounds with
    x_min := ⟨min bounds.x_min.x block.origin.x, min bounds.x_min.y block.origin.y⟩
    x_max := ⟨max bounds.x_max.x (block.origin.x + block.block_size),
              max bounds.x_max.y (block.origin.y + block.block_size)⟩ }

/-- Bounds of 65536 by 65536 cells (for a voxel size of 1). -/
def wideBounds : Bounds := ⟨⟨0, 0⟩, ⟨65536, 65536⟩, ⟨65536, 65536⟩⟩

/-- A layer of two 2x2x2 blocks of voxel size 1, at block indices `(0, 0, 0)` and
`(32767, 32767, 0)`; its bounds are `wideBounds`. -/
def wideLayer : Layer TsdfVoxel :=
  ⟨1, 2, [(⟨0, 0, 0⟩, scenarioBlock),
          (⟨32767, 32767, 0⟩, { scenarioBlock with origin := ⟨65534, 65534, 0⟩ })]⟩

/-- The loop body of the slice projector as a step on the grid, for a visited voxel given
as a pair of its block and its voxel index. -/
def passStep {T : Type} [VoxelKind T] (config : OccupancyPublisher.Config) (layer : Layer T)
    (world_T_sensor : Isometry3) (bounds : Bounds) (msg : OccupancyGrid)
    (v : Block T × Index3) : Option OccupancyGrid :=
  fillOccupancySlice.visit config layer world_T_sensor.inverse bounds v.1 v.2 msg

/-- A free candidate in the sense of rule (d): the voxel is readable, lies outside the
footprint (or masking is disabled), passes the observation test and its distance is not
below `min_distance`. -/
def freeCandidate {T : Type} [VoxelKind T] (config : OccupancyPublisher.Config)
    (sensor_T_world : Isometry3) (block : Block T) (voxel_index : Index3) : Bool :=
  !inFootprint config sensor_T_world block voxel_index &&
    match block.getVoxelByVoxelIndex voxel_index with
    | some voxel =>
      VoxelKind.isObserved voxel config.min_observation_weight &&
        !decide (VoxelKind.getDistance voxel < config.min_distance)
    | none => false

/-- The block of the scenarios with two occupied voxels stacked at `(0, 0, 0)` and
`(0, 0, 1)` (linear indices 0 and 4); every other voxel is unobserved. -/
def stackedBlock : Block TsdfVoxel :=
  { scenarioBlock with
    voxels := [occupiedVoxel, unobservedVoxel, unobservedVoxel, unobservedVoxel,
      occupiedVoxel, unobservedVoxel, unobservedVoxel, unobservedVoxel] }

/-- The layer holding `stackedBlock` at the origin. -/
def stackedLayer : Layer TsdfVoxel := ⟨1, 2, [(⟨0, 0, 0⟩, stackedBlock)]⟩

/-- The block of the scenarios with an occupied voxel at `(0, 0, 0)` below a free candidate
at `(0, 0, 1)`; every other voxel is unobserved. -/
def stackedFreeBlock : Block TsdfVoxel :=
  { scenarioBlock with
    voxels := [occupiedVoxel, unobservedVoxel, unobservedVoxel, unobservedVoxel,
      freeVoxel, unobservedVoxel, unobservedVoxel, unobservedVoxel] }

/-- The layer holding `stackedFreeBlock` at the origin. -/
def stackedFreeLayer : Layer TsdfVoxel := ⟨1, 2, [(⟨0, 0, 0⟩, stackedFreeBlock)]⟩

/-- Two slices at heights 0 and 1, no footprint. -/
def twoSliceConfig : OccupancyPublisher.Config := { scenarioConfig with num_slices := 2 }

/-- Two slices at heights 0 and 1, with a footprint box that holds the voxel centres of
the lower slice only (`0 ≤ z ≤ 1`). -/
def lowFootprintConfig : OccupancyPublisher.Config :=
  { scenarioConfig with
    num_slices := 2
    add_robot_footprint := true
    footprint_min := ⟨0, 0, 0⟩
    footprint_max := ⟨1, 1, 1⟩ }

/-- Two slices at heights 0 and 1, with a footprint box that holds the voxel centres of
the upper slice only (`1 ≤ z ≤ 2`). -/
def highFootprintConfig : OccupancyPublisher.Config :=
  { scenarioConfig with
    num_slices := 2
    add_robot_footprint := true
    footprint_min := ⟨0, 0, 1⟩
    footprint_max := ⟨1, 1, 2⟩ }

/-- The bounds of the one-block scenario layers. -/
def scenarioBounds : Bounds := ⟨⟨0, 0⟩, ⟨2, 2⟩, ⟨2, 2⟩⟩

/-- The 2x2 grid of the scenarios with the given cells. -/
def scenarioGridWith (data : List Int) : OccupancyGrid :=
  { scenarioGrid with data := data }

/-- An empty store after merging `scenarioLayer` once. -/
def scenarioCollatedOnce : Layer TsdfVoxel :=
  ⟨1, 2, [(⟨0, 0, 0⟩,
    { scenarioBlock with
      voxels := [occupiedVoxel, zeroVoxel, zeroVoxel, zeroVoxel, zeroVoxel, zeroVoxel,
        zeroVoxel, zeroVoxel] })]⟩

/-- A newly constructed TSDF publisher with collation on. -/
def collatingPublisher : TsdfOccupancyPublisher :=
  TsdfOccupancyPublisher.create ⟨"~", scenarioConfig, true⟩

/-- The representation invariant of a layer built through the library: every block has the
voxels per side of its layer and a voxel array of `num_voxels` entries. -/
def Layer.WellFormed {T : Type} (l : Layer T) : Prop :=
  ∀ kv ∈ l.blocks, kv.2.voxels_per_side = l.voxels_per_side ∧
    kv.2.voxels.length = kv.2.num_voxels

/-- The bounds that `getLayerBounds` returns for a layer of voxel size 1 without blocks: the
initial corners, and `dims = (-FLT_MAX - FLT_MAX) / 1` in x and y. -/
def degenerateBounds : Bounds :=
  ⟨⟨FLT_MAX, FLT_MAX⟩, ⟨-FLT_MAX, -FLT_MAX⟩, ⟨-FLT_MAX - FLT_MAX, -FLT_MAX - FLT_MAX⟩⟩

/-- An observed GVD voxel at distance 0. -/
def gvdOccupiedVoxel : GvdVoxel := ⟨0, true, []⟩

/-- An unobserved GVD voxel. -/
def gvdUnobservedVoxel : GvdVoxel := ⟨5, false, []⟩

/-- The block of the end-to-end scenario for the GVD voxel kind. -/
def gvdBlock : Block GvdVoxel :=
  { voxels_per_side := 2
    voxel_size := 1
    origin := ⟨0, 0, 0⟩
    has_data := true
    updated := true
    voxels := [gvdOccupiedVoxel, gvdUnobservedVoxel, gvdUnobservedVoxel, gvdUnobservedVoxel,
      gvdUnobservedVoxel, gvdUnobservedVoxel, gvdUnobservedVoxel, gvdUnobservedVoxel] }

/-- The layer of the end-to-end scenario for the GVD voxel kind. -/
def gvdLayer : Layer GvdVoxel := ⟨1, 2, [(⟨0, 0, 0⟩, gvdBlock)]⟩

/-- An empty GVD store after merging `gvdLayer`. -/
def gvdCollatedOnce : Layer GvdVoxel :=
  ⟨1, 2, [(⟨0, 0, 0⟩,
    { gvdBlock with
      voxels := [gvdOccupiedVoxel, VoxelKind.zero, VoxelKind.zero, VoxelKind.zero,
        VoxelKind.zero, VoxelKind.zero, VoxelKind.zero, VoxelKind.zero] })]⟩

/-- A GVD publisher configuration over `scenarioConfig` with the given collate option. -/
def gvdConfig (collate : Bool) : GvdOccupancyPublisher.Config := ⟨"~", scenarioConfig, collate⟩

/-- The grid of the end-to-end scenario as published at time 0 in the frame `map`. -/
def scenarioGridPublished : OccupancyGrid := { scenarioGrid with header := ⟨0, "map"⟩ }

/-- A block with an occupied voxel at `(0, 0, 0)` and a free candidate at `(1, 0, 0)`; every
other voxel, in particular the two above them, is unobserved. -/
def overwrittenBlock : Block TsdfVoxel :=
  { scenarioBlock with
    voxels := [occupiedVoxel, freeVoxel, unobservedVoxel, unobservedVoxel,
      unobservedVoxel, unobservedVoxel, unobservedVoxel, unobservedVoxel] }

/-- The layer holding `overwrittenBlock` at the origin. -/
def overwrittenLayer : Layer TsdfVoxel := ⟨1, 2, [(⟨0, 0, 0⟩, overwrittenBlock)]⟩

/-- The slice loop in the words of the specification: the slice projector is invoked once
per slice against the same grid, slice `i` (counted from 0) at height `base + i * step`. -/
def projectSlices {T : Type} [VoxelKind T] (config : OccupancyPublisher.Config)
    (layer : Layer T) (world_T_sensor : Isometry3) (bounds : Bounds) (base step : ℚ) :
    Nat → OccupancyGrid → Option OccupancyGrid
  | 0, msg => some msg
  | n + 1, msg =>
    (projectSlices config layer world_T_sensor bounds base step n msg).bind fun m =>
      fillOccupancySlice config layer world_T_sensor bounds (base + (n : ℚ) * step) m

/-- A sensor pose without rotation at altitude 1. -/
def raisedPose : Isometry3 := ⟨Mat3.identity, ⟨0, 0, 1⟩⟩

/-- No slices, relative-height mode. -/
def noSliceConfig : OccupancyPublisher.Config :=
  { scenarioConfig with num_slices := 0, use_relative_height := true }

/-- The grid of the scenarios with every cell unknown and the origin at height 1. -/
def raisedGrid : OccupancyGrid :=
  { header := ⟨0, ""⟩
    info := ⟨0, 1, 2, 2, ⟨⟨0, 0, 1⟩, ⟨0, 0, 0, 1⟩⟩⟩
    data := [-1, -1, -1, -1] }

/-- One slice at height 0 with a footprint box that holds the whole 2x2x2 block. -/
def fullFootprintConfig : OccupancyPublisher.Config :=
  { scenarioConfig with
    add_robot_footprint := true
    footprint_min := ⟨0, 0, 0⟩
    footprint_max := ⟨2, 2, 2⟩ }

/-- The voxels of a run of visits that map to cell `k` (for the width of the grid `g`), in
visiting order, each reduced to the pair of its observation test and of the test
`distance < min_distance`. A voxel is occupied when both hold. -/
def eventsAt {T : Type} [VoxelKind T] (config : OccupancyPublisher.Config) (layer : Layer T)
    (bounds : Bounds) (g : OccupancyGrid) (k : Nat) (visits : List (Block T × Index3)) :
    List (Bool × Bool) :=
  visits.filterMap fun v =>
    if toSizeT (cellIndex layer bounds g v.1 v.2) = some k then
      (v.1.getVoxelByVoxelIndex v.2).map fun voxel =>
        (VoxelKind.isObserved voxel config.min_observation_weight,
          decide (VoxelKind.getDistance voxel < config.min_distance))
    else none

/-- The last voxel, among those mapped to a cell in visiting order, that is unobserved or
occupied. -/
def lastDecisive (events : List (Bool × Bool)) : Option (Bool × Bool) :=
  events.reverse.find? fun e => !e.1 || e.2

/-- The finished value of a cell: `100` if the last voxel that is unobserved or occupied is
occupied, `-1` if it is unobserved or if no voxel touched the cell, and `0` if voxels
touched the cell and none of them was unobserved or occupied. -/
def cellOutcome (events : List (Bool × Bool)) : Int :=
  match lastDecisive events with
  | some e => if e.1 then 100 else -1
  | none => if events.isEmpty then -1 else 0

/-- The value of a cell before the cleanup: as `cellOutcome`, with the transient code in
place of `-1` when the last decisive voxel is unobserved. -/
def cellBeforeCleanup (events : List (Bool × Bool)) : Int :=
  match lastDecisive events with
  | some e => if e.1 then 100 else -2
  | none => if events.isEmpty then -1 else 0

/-- The geometry that the library gives to the blocks of a layer: the voxel size is
positive, and every block has the voxel size and the voxels per side of the layer and sits
at the position of its index (`allocateNewBlock`). -/
def Layer.OnGrid {T : Type} (l : Layer T) : Prop :=
  0 < l.voxel_size ∧
    ∀ kv ∈ l.blocks, kv.2.voxels_per_side = l.voxels_per_side ∧
      kv.2.voxel_size = l.voxel_size ∧
      kv.2.origin = getOriginPointFromGridIndex kv.1 l.block_size

instance {T : Type} [DecidableEq T] (l : Layer T) : Decidable l.OnGrid := by
  unfold Layer.OnGrid
  infer_instance

/-- Row `r` that `fillOccupancySlice` computes for a voxel. -/
def cellRow {T : Type} (layer : Layer T) (bounds : Bounds) (block : Block T)
    (voxel_index : Index3) : Int :=
  ⌊((block.computeCoordinatesFromVoxelIndex voxel_index).head2.y - bounds.x_min.y) /
    layer.voxel_size⌋

/-- Column `c` that `fillOccupancySlice` computes for a voxel. -/
def cellCol {T : Type} (layer : Layer T) (bounds : Bounds) (block : Block T)
    (voxel_index : Index3) : Int :=
  ⌊((block.computeCoordinatesFromVoxelIndex voxel_index).head2.x - bounds.x_min.x) /
    layer.voxel_size⌋

/-- The `float` computation of the cell index from a row, the width and a column. -/
def floatIndex (r : Int) (width : Nat) (c : Int) : Int :=
  roundFloat (roundFloat (r * roundFloat (width : Int)) + c)

/-- Exact index arithmetic on a grid: for every row and column of the grid the `float`
computation of the cell index gives `r * width + c` itself. -/
def IndexExact (width height : Nat) : Prop :=
  ∀ r < height, ∀ c < width, floatIndex (r : Int) width (c : Int) = (r : Int) * (width : Int) + c

instance (width height : Nat) : Decidable (IndexExact width height) := by
  unfold IndexExact
  infer_instance

/-- Index of the blocks that a slice at a height selects (its z is compared). -/
def sliceBlockIndex {T : Type} (layer : Layer T) (height : ℚ) : Index3 :=
  layer.computeBlockIndexFromCoordinates ⟨0, 0, height⟩

/-- Voxel index of the slice height within the selected blocks (its z is used). -/
def sliceVoxelIndex {T : Type} (layer : Layer T) (height : ℚ) : Index3 :=
  getGridIndexFromPoint
    ((⟨0, 0, height⟩ : Vec3).sub
      (getOriginPointFromGridIndex (sliceBlockIndex layer height) layer.block_size))
    layer.voxel_size_inv

/-- The layer with its blocks stored, and hence enumerated, in another order. -/
def Layer.reordered {T : Type} (l : Layer T) (blocks : List (Index3 × Block T)) : Layer T :=
  { l with blocks := blocks }

/-- A block of one voxel of size 1 at block index `(1, 0, 0)`, its voxel occupied. -/
def occupiedUnitBlock : Block TsdfVoxel :=
  { voxels_per_side := 1
    voxel_size := 1
    origin := ⟨1, 0, 0⟩
    has_data := true
    updated := true
    voxels := [occupiedVoxel] }

/-- A block of one voxel of size 1 at block index `(0, 1, 0)`, its voxel unobserved. -/
def unobservedUnitBlock : Block TsdfVoxel :=
  { voxels_per_side := 1
    voxel_size := 1
    origin := ⟨0, 1, 0⟩
    has_data := true
    updated := true
    voxels := [unobservedVoxel] }

/-- A layer of the two one-voxel blocks; its bounds are `scenarioBounds`. -/
def diagonalLayer : Layer TsdfVoxel :=
  ⟨1, 1, [(⟨1, 0, 0⟩, occupiedUnitBlock), (⟨0, 1, 0⟩, unobservedUnitBlock)]⟩

/-- The blocks of `diagonalLayer` in the other order. -/
def diagonalBlocksSwapped : List (Index3 × Block TsdfVoxel) :=
  [(⟨0, 1, 0⟩, unobservedUnitBlock), (⟨1, 0, 0⟩, occupiedUnitBlock)]

/-- A block of 2x2x2 voxels of size 1 at block index `(2049, 2048, 0)`; only the voxel with
local index `(1, 0, 0)` is observed, and it is below the distance threshold. -/
def largeBlock : Block TsdfVoxel :=
  { scenarioBlockUnobserved with
    origin := ⟨4098, 4096, 0⟩
    voxels := [unobservedVoxel, occupiedVoxel, unobservedVoxel, unobservedVoxel,
      unobservedVoxel, unobservedVoxel, unobservedVoxel, unobservedVoxel] }

/-- A layer of three 2x2x2 blocks of voxel size 1, at the block indices `(0, 0, 0)`,
`(2049, 2048, 0)` and `(0, 2049, 0)`; its bounds span 4100 by 4100 cells, more than
`2 ^ 24`. Only one voxel of the second block is observed. -/
def largeLayer : Layer TsdfVoxel :=
  ⟨1, 2, [(⟨0, 0, 0⟩, scenarioBlockUnobserved), (⟨2049, 2048, 0⟩, largeBlock),
          (⟨0, 2049, 0⟩, { scenarioBlockUnobserved with origin := ⟨0, 4098, 0⟩ })]⟩

/-- The bounds of `largeLayer`. -/
def largeBounds : Bounds := ⟨⟨0, 0⟩, ⟨4100, 4100⟩, ⟨4100, 4100⟩⟩

/-- A grid with the header and the map information that `fillOccupancy` gives the grid of
`largeLayer` at height 0, and the given cells. -/
def largeGrid (data : List Int) : OccupancyGrid :=
  ⟨⟨0, ""⟩, ⟨0, 1, 4100, 4100, ⟨⟨0, 0, 0⟩, ⟨0, 0, 0, 1⟩⟩⟩, data⟩

/-- Every voxel of a run of visits can be read and has a cell index (for the width of the
grid `g`) below `n`. -/
def VisitsFit {T : Type} (layer : Layer T) (bounds : Bounds) (g : OccupancyGrid) (n : Nat)
    (visits : List (Block T × Index3)) : Prop :=
  ∀ v ∈ visits, (v.1.getVoxelByVoxelIndex v.2).isSome = true ∧
    (toSizeT (cellIndex layer bounds g v.1 v.2)).any (fun k => decide (k < n)) = true

instance {T : Type} (layer : Layer T) (bounds : Bounds) (g : OccupancyGrid) (n : Nat)
    (visits : List (Block T × Index3)) : Decidable (VisitsFit layer bounds g n visits) := by
  unfold VisitsFit
  infer_instance

/-! ## General lemmas on loops -/

theorem foldlM_option_preserves {α β : Type} (P : β → Prop) (f : β → α → Option β)
    (l : List α) (hf : ∀ b a r, a ∈ l → P b → f b a = some r → P r) :
    ∀ b r, P b → l.foldlM f b = some r → P r := by
  induction l with
  | nil =>
    intro b r hb h
    simp only [List.foldlM, pure, Option.some.injEq] at h
    exact h ▸ hb
  | cons a t ih =>
    intro b r hb h
    rw [List.foldlM_cons] at h
    cases hfa : f b a with
    | none => rw [hfa] at h; simp at h
    | some b1 =>
      rw [hfa] at h
      refine ih (fun b a r ha => hf b a r (List.mem_cons_of_mem _ ha)) b1 r ?_ h
      exact hf b a b1 (List.mem_cons_self _ _) hb hfa

theorem foldlM_flatMap {α β γ : Type} (f : γ → β → Option γ) (g : α → List β) (l : List α)
    (c : γ) :
    (l.flatMap g).foldlM f c = l.foldlM (fun c a => (g a).foldlM f c) c := by
  induction l generalizing c with
  | nil => rfl
  | cons a t ih =>
    rw [List.flatMap_cons, List.foldlM_append, List.foldlM_cons]
    cases (g a).foldlM f c with
    | none => rfl
    | some c1 => exact ih c1

theorem foldlM_map {α β γ : Type} (f : γ → β → Option γ) (g : α → β) (l : List α) (c : γ) :
    (l.map g).foldlM f c = l.foldlM (fun c a => f c (g a)) c := by
  induction l generalizing c with
  | nil => rfl
  | cons a t ih =>
    rw [List.map_cons, List.foldlM_cons, List.foldlM_cons]
    cases f c (g a) with
    | none => rfl
    | some c1 => exact ih c1

theorem foldlM_congr_mem {α γ : Type} (f g : γ → α → Option γ) (l : List α)
    (h : ∀ c a, a ∈ l → f c a = g c a) (c : γ) : l.foldlM f c = l.foldlM g c := by
  induction l generalizing c with
  | nil => rfl
  | cons a t ih =>
    rw [List.foldlM_cons, List.foldlM_cons, h c a (List.mem_cons_self _ _)]
    cases g c a with
    | none => rfl
    | some c1 => exact ih (fun c a ha => h c a (List.mem_cons_of_mem _ ha)) c1

/-! ## Block lookup and the order of visits -/

section Lemmas

variable {T : Type}

/-- Every enumerated block index has a block stored under it. -/
theorem getBlockPtrByIndex_of_mem (layer : Layer T) (idx : Index3)
    (h : idx ∈ layer.getAllAllocatedBlocks) : ∃ b, layer.getBlockPtrByIndex idx = some b := by
  unfold Layer.getAllAllocatedBlocks at h
  unfold Layer.getBlockPtrByIndex
  obtain ⟨kv, hkv, rfl⟩ := List.mem_map.1 h
  cases hf : layer.blocks.find? (fun e => decide (e.1 = kv.1)) with
  | none =>
    have := List.find?_eq_none.1 hf kv hkv
    simp at this
  | some e => exact ⟨e.2, rfl⟩

theorem getBlockPtrByIndex_mem (layer : Layer T) (idx : Index3) (b : Block T)
    (h : layer.getBlockPtrByIndex idx = some b) : idx ∈ layer.getAllAllocatedBlocks := by
  unfold Layer.getBlockPtrByIndex at h
  unfold Layer.getAllAllocatedBlocks
  cases hf : layer.blocks.find? (fun e => decide (e.1 = idx)) with
  | none => rw [hf] at h; simp at h
  | some e =>
    have h1 := List.find?_some hf
    have h2 := List.mem_of_find?_eq_some hf
    simp only [decide_eq_true_eq] at h1
    exact List.mem_map.2 ⟨e, h2, h1⟩

/-- The loops of `fillOccupancySlice` apply the loop body to the visited voxels in order. -/
theorem fillOccupancySlice_eq_visits [VoxelKind T] (config : OccupancyPublisher.Config)
    (layer : Layer T) (world_T_sensor : Isometry3) (bounds : Bounds) (height : ℚ)
    (msg : OccupancyGrid) :
    fillOccupancySlice config layer world_T_sensor bounds height msg =
      (sliceVisits layer height).foldlM (fun m v =>
        fillOccupancySlice.visit config layer world_T_sensor.inverse bounds v.1 v.2 m) msg := by
  unfold fillOccupancySlice sliceVisits
  simp only []
  rw [foldlM_flatMap]
  apply foldlM_congr_mem
  intro c idx hidx
  have hmem : idx ∈ layer.getAllAllocatedBlocks := (List.mem_filter.1 hidx).1
  obtain ⟨b, hb⟩ := getBlockPtrByIndex_of_mem layer idx hmem
  simp only [Layer.getBlockByIndex, hb, Option.some_bind]
  rw [foldlM_flatMap]
  apply foldlM_congr_mem
  intro c x _
  rw [foldlM_map]

/-! ## The loop body of the slice projector -/

theorem footprint_test_eq (config : OccupancyPublisher.Config) (sensor_T_world : Isometry3)
    (block : Block T) (voxel_index : Index3) :
    (config.add_robot_footprint && (footprintBox config).isInside
      (sensor_T_world.apply (block.computeCoordinatesFromVoxelIndex voxel_index))) =
      inFootprint config sensor_T_world block voxel_index := by
  unfold inFootprint footprintBox
  cases config.add_robot_footprint <;> simp

theorem set_getElem?_self (data : List Int) (index : Nat) (old : Int)
    (h : data[index]? = some old) : data.set index old = data := by
  apply List.ext_getElem?
  intro j
  rw [List.getElem?_set]
  by_cases hj : index = j
  · subst hj
    have hlt : index < data.length := (List.getElem?_eq_some_iff.1 h).1
    simp [hlt, h]
  · simp [hj]

/-- The loop body writes the value that the rules (a) to (d) give, at the cell of the
voxel. -/
theorem visit_of_inputs [VoxelKind T] (config : OccupancyPublisher.Config) (layer : Layer T)
    (sensor_T_world : Isometry3) (bounds : Bounds) (block : Block T) (voxel_index : Index3)
    (msg : OccupancyGrid) (voxel : T) (index : Nat) (old : Int)
    (hv : block.getVoxelByVoxelIndex voxel_index = some voxel)
    (hi : toSizeT (cellIndex layer bounds msg block voxel_index) = some index)
    (ho : msg.data[index]? = some old) :
    fillOccupancySlice.visit config layer sensor_T_world bounds block voxel_index msg =
      some (msg.withCell index
        (cellRule (inFootprint config sensor_T_world block voxel_index)
          (VoxelKind.isObserved voxel config.min_observation_weight)
          (decide (VoxelKind.getDistance voxel < config.min_distance)) old)) := by
  have hlt : index < msg.data.length := (List.getElem?_eq_some_iff.1 ho).1
  unfold fillOccupancySlice.visit
  rw [hv, Option.some_bind, hi, Option.some_bind, footprint_test_eq]
  unfold cellRule setCell OccupancyGrid.withCell
  by_cases h1 : inFootprint config sensor_T_world block voxel_index = true
  · simp [h1, hlt]
  · by_cases h2 : VoxelKind.isObserved voxel config.min_observation_weight = true
    · by_cases h3 : VoxelKind.getDistance voxel < config.min_distance
      · simp [h1, h2, h3, hlt]
      · by_cases h4 : old = -1
        · simp [h1, h2, h3, hlt, ho, h4]
        · simp [h1, h2, h3, hlt, ho, h4, set_getElem?_self msg.data index old ho]
    · simp [h1, h2, hlt]

/-- A successful run of the loop body read a voxel and an in-range cell. -/
theorem visit_inputs_of_some [VoxelKind T] (config : OccupancyPublisher.Config)
    (layer : Layer T) (sensor_T_world : Isometry3) (bounds : Bounds) (block : Block T)
    (voxel_index : Index3) (msg r : OccupancyGrid)
    (h : fillOccupancySlice.visit config layer sensor_T_world bounds block voxel_index msg =
      some r) :
    ∃ voxel index old, block.getVoxelByVoxelIndex voxel_index = some voxel ∧
      toSizeT (cellIndex layer bounds msg block voxel_index) = some index ∧
      msg.data[index]? = some old := by
  unfold fillOccupancySlice.visit at h
  cases hv : block.getVoxelByVoxelIndex voxel_index with
  | none => rw [hv] at h; simp at h
  | some voxel =>
    cases hi : toSizeT (cellIndex layer bounds msg block voxel_index) with
    | none => rw [hv, hi] at h; simp at h
    | some index =>
      rw [hv, hi] at h
      simp only [Option.some_bind] at h
      refine ⟨voxel, index, ?_⟩
      by_cases hlt : index < msg.data.length
      · exact ⟨msg.data[index], rfl, rfl, List.getElem?_eq_getElem hlt⟩
      · exfalso
        have hn : msg.data[index]? = none := List.getElem?_eq_none (Nat.le_of_not_lt hlt)
        unfold setCell at h
        simp only [hlt, if_false, hn, Option.none_bind] at h
        split_ifs at h

/-! ## Cell codes during a pass -/

/-- The step of a pass on one visited voxel. -/
theorem visit_eq_withCell [VoxelKind T] (config : OccupancyPublisher.Config)
    (layer : Layer T) (sensor_T_world : Isometry3) (bounds : Bounds) (block : Block T)
    (voxel_index : Index3) (msg r : OccupancyGrid)
    (h : fillOccupancySlice.visit config layer sensor_T_world bounds block voxel_index msg =
      some r) :
    ∃ voxel index old, block.getVoxelByVoxelIndex voxel_index = some voxel ∧
      toSizeT (cellIndex layer bounds msg block voxel_index) = some index ∧
      msg.data[index]? = some old ∧
      r = msg.withCell index
        (cellRule (inFootprint config sensor_T_world block voxel_index)
          (VoxelKind.isObserved voxel config.min_observation_weight)
          (decide (VoxelKind.getDistance voxel < config.min_distance)) old) := by
  obtain ⟨voxel, index, old, hv, hi, ho⟩ :=
    visit_inputs_of_some config layer sensor_T_world bounds block voxel_index msg r h
  refine ⟨voxel, index, old, hv, hi, ho, ?_⟩
  rw [visit_of_inputs config layer sensor_T_world bounds block voxel_index msg voxel index old
    hv hi ho] at h
  exact (Option.some.inj h).symm

theorem cellRule_cases (a b c : Bool) (old : Int) :
    cellRule a b c old = 0 ∨ cellRule a b c old = -2 ∨ cellRule a b c old = 100 ∨
      cellRule a b c old = old := by
  unfold cellRule
  split_ifs <;> simp


theorem visit_preserves_codes [VoxelKind T] (config : OccupancyPublisher.Config)
    (layer : Layer T) (sensor_T_world : Isometry3) (bounds : Bounds) (block : Block T)
    (voxel_index : Index3) (msg r : OccupancyGrid) (hm : PassCodes msg)
    (h : fillOccupancySlice.visit config layer sensor_T_world bounds block voxel_index msg =
      some r) : PassCodes r := by
  obtain ⟨voxel, index, old, -, -, ho, rfl⟩ :=
    visit_eq_withCell config layer sensor_T_world bounds block voxel_index msg r h
  intro c hc
  have hold : old ∈ msg.data := by
    obtain ⟨hlt, he⟩ := List.getElem?_eq_some_iff.1 ho
    exact he ▸ List.getElem_mem hlt
  rcases List.mem_or_eq_of_mem_set hc with hc | hc
  · exact hm c hc
  · rcases cellRule_cases (inFootprint config sensor_T_world block voxel_index)
      (VoxelKind.isObserved voxel config.min_observation_weight)
      (decide (VoxelKind.getDistance voxel < config.min_distance)) old with h0 | h0 | h0 | h0
    · rw [hc, h0]; simp
    · rw [hc, h0]; simp
    · rw [hc, h0]; simp
    · rw [hc, h0]; exact hm old hold

theorem slice_preserves_codes [VoxelKind T] (config : OccupancyPublisher.Config)
    (layer : Layer T) (world_T_sensor : Isometry3) (bounds : Bounds) (height : ℚ)
    (msg r : OccupancyGrid) (hm : PassCodes msg)
    (h : fillOccupancySlice config layer world_T_sensor bounds height msg = some r) :
    PassCodes r := by
  rw [fillOccupancySlice_eq_visits] at h
  exact foldlM_option_preserves PassCodes _ _
    (fun b a r _ hb hr => visit_preserves_codes config layer _ bounds a.1 a.2 b r hb hr)
    msg r hm h

theorem runSlices_preserves_codes [VoxelKind T] (config : OccupancyPublisher.Config)
    (layer : Layer T) (world_T_sensor : Isometry3) (bounds : Bounds) (n : Nat)
    (msg r : OccupancyGrid) (hm : PassCodes msg)
    (h : runSlices config layer world_T_sensor bounds n msg = some r) : PassCodes r := by
  unfold runSlices at h
  exact foldlM_option_preserves PassCodes _ _
    (fun b a r _ hb hr => slice_preserves_codes config layer _ bounds _ b r hb hr)
    msg r hm h

/-- The three stages of `fillOccupancy`: bounds, grid set-up, slices and cleanup. -/
theorem fillOccupancy_eq [VoxelKind T] (config : OccupancyPublisher.Config) (layer : Layer T)
    (world_T_sensor : Isometry3) (msg : OccupancyGrid) :
    fillOccupancy config layer world_T_sensor msg =
      (getLayerBounds layer).bind fun bounds =>
        (initGrid layer bounds (baseHeight config world_T_sensor) msg).bind fun m =>
          (runSlices config layer world_T_sensor bounds config.num_slices m).map cleanup :=
  rfl

theorem fillOccupancy_stages [VoxelKind T] (config : OccupancyPublisher.Config)
    (layer : Layer T) (world_T_sensor : Isometry3) (msg g : OccupancyGrid)
    (h : fillOccupancy config layer world_T_sensor msg = some g) :
    ∃ bounds m0 m1, getLayerBounds layer = some bounds ∧
      initGrid layer bounds (baseHeight config world_T_sensor) msg = some m0 ∧
      runSlices config layer world_T_sensor bounds config.num_slices m0 = some m1 ∧
      g = cleanup m1 := by
  rw [fillOccupancy_eq] at h
  cases hb : getLayerBounds layer with
  | none => rw [hb] at h; simp at h
  | some bounds =>
    rw [hb, Option.some_bind] at h
    cases hi : initGrid layer bounds (baseHeight config world_T_sensor) msg with
    | none => rw [hi] at h; simp at h
    | some m0 =>
      rw [hi, Option.some_bind] at h
      cases hr : runSlices config layer world_T_sensor bounds config.num_slices m0 with
      | none => rw [hr] at h; simp at h
      | some m1 =>
        rw [hr] at h
        exact ⟨bounds, m0, m1, rfl, hi, hr, (Option.some.inj h).symm⟩

theorem initGrid_data (layer : Layer T) (bounds : Bounds) (height : ℚ) (msg m0 : OccupancyGrid)
    (h : initGrid layer bounds height msg = some m0) :
    ∃ width h0, toUInt32 ⌈bounds.dims.x⌉ = some width ∧ toUInt32 ⌈bounds.dims.y⌉ = some h0 ∧
      m0.info.width = width ∧ m0.info.height = h0 ∧
      m0.data = resize msg.data ((width * h0) % 2 ^ 32) (-1) := by
  unfold initGrid at h
  cases hw : toUInt32 ⌈bounds.dims.x⌉ with
  | none => rw [hw] at h; simp at h
  | some width =>
    cases hh : toUInt32 ⌈bounds.dims.y⌉ with
    | none => rw [hw, hh] at h; simp at h
    | some h0 =>
      rw [hw, hh] at h
      simp only [Option.some_bind, Option.some.injEq] at h
      subst h
      exact ⟨width, h0, rfl, rfl, rfl, rfl, rfl⟩

theorem fillOccupancy_codes [VoxelKind T] (config : OccupancyPublisher.Config)
    (layer : Layer T) (world_T_sensor : Isometry3) (msg g : OccupancyGrid)
    (hfresh : msg.data = [])
    (h : fillOccupancy config layer world_T_sensor msg = some g) :
    ∀ c ∈ g.data, c = -1 ∨ c = 0 ∨ c = 100 := by
  obtain ⟨bounds, m0, m1, -, hi, hr, rfl⟩ :=
    fillOccupancy_stages config layer world_T_sensor msg g h
  obtain ⟨width, h0, -, -, -, -, hd⟩ := initGrid_data layer bounds _ msg m0 hi
  have hm0 : PassCodes m0 := by
    intro c hc
    rw [hd, hfresh] at hc
    simp only [resize, List.take_nil, List.nil_append, List.length_nil, Nat.sub_zero] at hc
    exact Or.inl (List.eq_of_mem_replicate hc)
  have hm1 := runSlices_preserves_codes config layer world_T_sensor bounds _ m0 m1 hm0 hr
  intro c hc
  simp only [cleanup, List.mem_map] at hc
  obtain ⟨d, hd, rfl⟩ := hc
  rcases hm1 d hd with h | h | h | h <;> simp [h]

/-! ## Claims on the finished grid and the rules -/

/-- Claim C1. Starting from a grid message without cells (a freshly constructed one), every
cell of the grid that `fillOccupancy` leaves is `-1`, `0` or `100`; in particular no cell
holds the transient code `-2`. -/
theorem C1_finished_grid_has_no_transient_code [VoxelKind T]
    (config : OccupancyPublisher.Config) (layer : Layer T) (world_T_sensor : Isometry3)
    (msg g : OccupancyGrid) (hfresh : msg.data = [])
    (h : fillOccupancy config layer world_T_sensor msg = some g) :
    (∀ c ∈ g.data, c = -1 ∨ c = 0 ∨ c = 100) ∧ (-2 : Int) ∉ g.data := by
  have hall := fillOccupancy_codes config layer world_T_sensor msg g hfresh h
  refine ⟨hall, fun hmem => ?_⟩
  rcases hall (-2) hmem with h | h | h <;> simp at h

/-- Witness of C1 on the end-to-end scenario. -/
theorem C1_finished_grid_has_no_transient_code_witness :
    OccupancyGrid.fresh.data = [] ∧
    fillOccupancy scenarioConfig scenarioLayer Isometry3.identity OccupancyGrid.fresh =
      some scenarioGrid ∧
    ((∀ c ∈ scenarioGrid.data, c = -1 ∨ c = 0 ∨ c = 100) ∧ (-2 : Int) ∉ scenarioGrid.data) :=
  ⟨rfl, by decide!,
    C1_finished_grid_has_no_transient_code scenarioConfig scenarioLayer Isometry3.identity
      OccupancyGrid.fresh scenarioGrid rfl (by decide!)⟩

/-- Claim C2. `fillOccupancySlice` applies its loop body to the visited voxels in order, and the
loop body succeeds exactly when the voxel and its cell can be read, in which case the new
grid is the old one with the cell of the voxel set by the first matching rule of
`cellRule`: (a) inside the footprint with masking enabled gives `0`; (b) otherwise a voxel
failing the observation test gives `-2`; (c) otherwise a distance below `min_distance`
gives `100`; (d) otherwise `0` if the cell held `-1`, and the old value if not. -/
theorem C2_cell_rules_in_priority_order [VoxelKind T] (config : OccupancyPublisher.Config)
    (layer : Layer T) (world_T_sensor : Isometry3) (bounds : Bounds) (height : ℚ) :
    (∀ msg, fillOccupancySlice config layer world_T_sensor bounds height msg =
      (sliceVisits layer height).foldlM (fun m v =>
        fillOccupancySlice.visit config layer world_T_sensor.inverse bounds v.1 v.2 m) msg) ∧
    ∀ (block : Block T) (voxel_index : Index3) (msg r : OccupancyGrid),
      fillOccupancySlice.visit config layer world_T_sensor.inverse bounds block voxel_index
          msg = some r ↔
        ∃ voxel index old, block.getVoxelByVoxelIndex voxel_index = some voxel ∧
          toSizeT (cellIndex layer bounds msg block voxel_index) = some index ∧
          msg.data[index]? = some old ∧
          r = msg.withCell index
            (cellRule (inFootprint config world_T_sensor.inverse block voxel_index)
              (VoxelKind.isObserved voxel config.min_observation_weight)
              (decide (VoxelKind.getDistance voxel < config.min_distance)) old) := by
  refine ⟨fun msg => fillOccupancySlice_eq_visits config layer world_T_sensor bounds height msg,
    fun block voxel_index msg r => ⟨fun h => ?_, fun h => ?_⟩⟩
  · exact visit_eq_withCell config layer _ bounds block voxel_index msg r h
  · obtain ⟨voxel, index, old, hv, hi, ho, rfl⟩ := h
    exact visit_of_inputs config layer _ bounds block voxel_index msg voxel index old hv hi ho

/-! ## Collation: samples and the scan -/

theorem sample_eq_some_iff [VoxelKind T] (b : Block T) (w : ℚ) (i : Nat) (v : T) :
    b.sample w i = some v ↔
      b.getVoxelByLinearIndex i = some v ∧ VoxelKind.isObserved v w = true := by
  unfold Block.sample
  cases b.getVoxelByLinearIndex i with
  | none => simp [Option.filter]
  | some u =>
    by_cases hu : VoxelKind.isObserved u w = true
    · simp only [Option.filter, hu, if_true, Option.some.injEq]
      constructor
      · rintro rfl; exact ⟨rfl, hu⟩
      · rintro ⟨h, -⟩; exact h
    · simp only [Option.filter, hu, Bool.false_eq_true, if_false]
      constructor
      · intro h; cases h
      · rintro ⟨h, h2⟩
        rw [Option.some.injEq] at h
        subst h
        exact absurd h2 hu

theorem sample_none_of_ge [VoxelKind T] (b : Block T) (w : ℚ) (i : Nat)
    (h : b.num_voxels ≤ i) : b.sample w i = none := by
  unfold Block.sample Block.getVoxelByLinearIndex
  simp [Nat.not_lt.2 h, Option.filter]

theorem unobserved_iff [VoxelKind T] (b : Block T) (w : ℚ) :
    b.unobserved w = true ↔ ∀ i, b.sample w i = none := by
  unfold Block.unobserved
  rw [List.all_eq_true]
  constructor
  · intro h i
    by_cases hi : i < b.num_voxels
    · have := h i (List.mem_range.2 hi)
      simpa using this
    · exact sample_none_of_ge b w i (Nat.le_of_not_lt hi)
  · intro h i _
    simp [h i]

/-- The scan of `collate` answers whether the block is entirely unobserved, on the linear
indices it is given. -/
theorem scan_eq_some [VoxelKind T] (block : Block T) (w : ℚ) (l : List Nat) (r : Bool)
    (h : collate.scan block w l = some r) :
    r = l.all fun i => (block.sample w i).isNone := by
  induction l with
  | nil =>
    simp only [collate.scan, Option.some.injEq] at h
    simp [← h]
  | cons i rest ih =>
    unfold collate.scan at h
    cases hv : block.getVoxelByLinearIndex i with
    | none => rw [hv] at h; simp at h
    | some voxel =>
      rw [hv, Option.some_bind] at h
      by_cases ho : VoxelKind.isObserved voxel w = true
      · rw [if_pos ho] at h
        have hs : block.sample w i = some voxel := (sample_eq_some_iff block w i voxel).2 ⟨hv, ho⟩
        simp [← Option.some.inj h, hs]
      · rw [if_neg ho] at h
        have hs : block.sample w i = none := by
          unfold Block.sample
          rw [hv]
          simp [Option.filter, ho]
        rw [ih h]
        simp [hs]

theorem scan_range [VoxelKind T] (block : Block T) (w : ℚ) (r : Bool)
    (h : collate.scan block w (List.range block.num_voxels) = some r) :
    r = block.unobserved w :=
  scan_eq_some block w _ r h

/-! ## Collation: the copying loop -/

/-- The voxels after the first `n` iterations of the copying loop. -/
theorem copy_loop_prefix [VoxelKind T] (block : Block T) (w : ℚ) (nb0 : Block T) (n : Nat) :
    ∀ nb, (List.range n).foldlM (collate.copy block w) nb0 = some nb →
      nb = { nb0 with voxels := nb0.voxels.mapIdx fun i old =>
              if i < n then (block.sample w i).getD old else old } ∧
      ∀ i v, i < n → block.sample w i = some v → i < nb0.num_voxels ∧ i < nb0.voxels.length := by
  induction n with
  | zero =>
    intro nb h
    simp only [List.range_zero, List.foldlM, pure, Option.some.injEq] at h
    subst h
    refine ⟨?_, fun i v hi => absurd hi (Nat.not_lt_zero i)⟩
    have : (nb0.voxels.mapIdx fun i old => if i < 0 then (block.sample w i).getD old else old)
        = nb0.voxels := by
      apply List.ext_getElem?
      intro j
      rw [List.getElem?_mapIdx]
      cases nb0.voxels[j]? <;> simp
    rw [this]
  | succ n ih =>
    intro nb h
    rw [List.range_succ, List.foldlM_append] at h
    cases hn : (List.range n).foldlM (collate.copy block w) nb0 with
    | none => rw [hn] at h; simp at h
    | some nb1 =>
      rw [hn] at h
      obtain ⟨h1, hfit⟩ := ih nb1 hn
      simp only [Option.bind_eq_bind, Option.some_bind, List.foldlM_cons, List.foldlM_nil] at h
      have h2 : collate.copy block w nb1 n = some nb := by
        cases hc : collate.copy block w nb1 n with
        | none => rw [hc] at h; simp at h
        | some x => rw [hc] at h; simpa using h
      clear h
      unfold collate.copy at h2
      cases hv : block.getVoxelByLinearIndex n with
      | none => rw [hv] at h2; simp at h2
      | some voxel =>
        rw [hv, Option.some_bind] at h2
        by_cases ho : VoxelKind.isObserved voxel w = true
        · rw [if_pos ho] at h2
          have hs : block.sample w n = some voxel :=
            (sample_eq_some_iff block w n voxel).2 ⟨hv, ho⟩
          unfold Block.setVoxelByLinearIndex at h2
          by_cases hlt : n < nb1.num_voxels ∧ n < nb1.voxels.length
          · rw [if_pos hlt] at h2
            have hnb := (Option.some.inj h2).symm
            have hlen : nb1.voxels.length = nb0.voxels.length := by
              rw [h1]; simp
            have hnum : nb1.num_voxels = nb0.num_voxels := by
              rw [h1]; rfl
            constructor
            · rw [hnb, h1]
              simp only [Block.mk.injEq, true_and]
              apply List.ext_getElem?
              intro j
              rw [List.getElem?_set, List.getElem?_mapIdx, List.getElem?_mapIdx,
                List.length_mapIdx]
              by_cases hj : n = j
              · subst hj
                have hlt2 : n < nb0.voxels.length := hlen ▸ hlt.2
                simp [hlt2, hs, List.getElem?_eq_getElem hlt2]
              · rw [if_neg hj]
                cases nb0.voxels[j]? with
                | none => rfl
                | some old =>
                  have : j < n + 1 ↔ j < n := by omega
                  simp only [Option.map_some', this]
            · intro i v hi hsi
              by_cases hin : i < n
              · exact hfit i v hin hsi
              · have : i = n := by omega
                subst this
                exact ⟨hnum ▸ hlt.1, hlen ▸ hlt.2⟩
          · rw [if_neg hlt] at h2; simp at h2
        · rw [if_neg ho] at h2
          have hnb := (Option.some.inj h2).symm
          have hs : block.sample w n = none := by
            unfold Block.sample
            rw [hv]
            simp [Option.filter, ho]
          constructor
          · rw [hnb, h1]
            simp only [Block.mk.injEq, true_and]
            apply List.ext_getElem?
            intro j
            rw [List.getElem?_mapIdx, List.getElem?_mapIdx]
            cases nb0.voxels[j]? with
            | none => rfl
            | some old =>
              simp only [Option.map_some', Option.some.injEq]
              by_cases hj : j = n
              · subst hj
                simp [hs]
              · have : j < n + 1 ↔ j < n := by omega
                simp only [this]
          · intro i v hi hsi
            by_cases hin : i < n
            · exact hfit i v hin hsi
            · have : i = n := by omega
              subst this
              rw [hs] at hsi
              cases hsi

/-- The copying loop of `collate` performs the per-voxel merge of the specification. -/
theorem copy_loop [VoxelKind T] (block : Block T) (w : ℚ) (prior nb : Block T)
    (h : (List.range block.num_voxels).foldlM (collate.copy block w)
      { prior with has_data := block.has_data, updated := block.updated } = some nb) :
    nb = mergeBlock w block prior ∧ WritesFit w block prior := by
  obtain ⟨h1, h2⟩ := copy_loop_prefix block w _ block.num_voxels nb h
  constructor
  · rw [h1]
    unfold mergeBlock
    simp only [Block.mk.injEq, true_and]
    apply List.ext_getElem?
    intro j
    rw [List.getElem?_mapIdx, List.getElem?_mapIdx]
    cases prior.voxels[j]? with
    | none => rfl
    | some old =>
      simp only [Option.map_some', Option.some.injEq]
      by_cases hj : j < block.num_voxels
      · rw [if_pos hj]
      · rw [if_neg hj, sample_none_of_ge block w j (Nat.le_of_not_lt hj)]
        rfl
  · intro i v hs
    have hi : i < block.num_voxels := by
      by_contra hi
      rw [sample_none_of_ge block w i (Nat.le_of_not_lt hi)] at hs
      cases hs
    exact h2 i v hi hs

/-! ## Collation: one block of the incoming layer -/

theorem find_storeIn_self (idx : Index3) (b : Block T) (l : List (Index3 × Block T))
    (h : (l.find? fun kv => decide (kv.1 = idx)).isSome = true) :
    ((Layer.storeIn idx b l).find? fun kv => decide (kv.1 = idx)).map Prod.snd = some b := by
  induction l with
  | nil => simp at h
  | cons kv rest ih =>
    unfold Layer.storeIn
    by_cases hk : kv.1 = idx
    · simp [hk]
    · rw [if_neg hk, List.find?_cons]
      rw [List.find?_cons] at h
      simp only [hk, decide_False] at h ⊢
      exact ih h

theorem find_storeIn_ne (idx other : Index3) (b : Block T) (l : List (Index3 × Block T))
    (hne : other ≠ idx) :
    ((Layer.storeIn idx b l).find? fun kv => decide (kv.1 = other)).map Prod.snd =
      (l.find? fun kv => decide (kv.1 = other)).map Prod.snd := by
  induction l with
  | nil => rfl
  | cons kv rest ih =>
    unfold Layer.storeIn
    by_cases hk : kv.1 = idx
    · have hko : ¬ kv.1 = other := fun h => hne (h ▸ hk)
      simp [hk, hko, List.find?_cons, Ne.symm hne]
    · rw [if_neg hk, List.find?_cons, List.find?_cons]
      by_cases hko : kv.1 = other
      · simp [hko]
      · simp only [hko, decide_False]
        exact ih

theorem lookup_storeBlock_self (l : Layer T) (idx : Index3) (b p : Block T)
    (h : l.getBlockPtrByIndex idx = some p) :
    (l.storeBlock idx b).getBlockPtrByIndex idx = some b := by
  unfold Layer.getBlockPtrByIndex at h
  unfold Layer.storeBlock Layer.getBlockPtrByIndex
  apply find_storeIn_self
  cases hf : l.blocks.find? (fun kv => decide (kv.1 = idx)) with
  | none => rw [hf] at h; simp at h
  | some e => rfl

theorem lookup_storeBlock_ne (l : Layer T) (idx other : Index3) (b : Block T)
    (hne : other ≠ idx) :
    (l.storeBlock idx b).getBlockPtrByIndex other = l.getBlockPtrByIndex other :=
  find_storeIn_ne idx other b l.blocks hne

theorem allocate_snd [VoxelKind T] (l : Layer T) (idx : Index3) :
    (l.allocateBlockPtrByIndex idx).2 = l.priorBlock idx := by
  unfold Layer.allocateBlockPtrByIndex Layer.priorBlock
  cases l.getBlockPtrByIndex idx <;> rfl

theorem allocate_lookup_self [VoxelKind T] (l : Layer T) (idx : Index3) :
    (l.allocateBlockPtrByIndex idx).1.getBlockPtrByIndex idx = some (l.priorBlock idx) := by
  unfold Layer.allocateBlockPtrByIndex Layer.priorBlock
  cases h : l.getBlockPtrByIndex idx with
  | some b => simpa using h
  | none =>
    unfold Layer.getBlockPtrByIndex at h ⊢
    simp only [Option.getD_none]
    rw [List.find?_append]
    cases hf : l.blocks.find? (fun kv => decide (kv.1 = idx)) with
    | some e => rw [hf] at h; simp at h
    | none => simp

theorem allocate_lookup_ne [VoxelKind T] (l : Layer T) (idx other : Index3) (hne : other ≠ idx) :
    (l.allocateBlockPtrByIndex idx).1.getBlockPtrByIndex other = l.getBlockPtrByIndex other := by
  unfold Layer.allocateBlockPtrByIndex
  cases h : l.getBlockPtrByIndex idx with
  | some b => rfl
  | none =>
    unfold Layer.getBlockPtrByIndex
    simp only []
    rw [List.find?_append]
    cases hf : l.blocks.find? (fun kv => decide (kv.1 = other)) with
    | some e => simp
    | none => simp [Ne.symm hne]

theorem allocate_geometry [VoxelKind T] (l : Layer T) (idx : Index3) :
    (l.allocateBlockPtrByIndex idx).1.voxel_size = l.voxel_size ∧
      (l.allocateBlockPtrByIndex idx).1.voxels_per_side = l.voxels_per_side := by
  unfold Layer.allocateBlockPtrByIndex
  cases l.getBlockPtrByIndex idx <;> exact ⟨rfl, rfl⟩

/-- The block that `collate` leaves under `idx` after handling the source block stored under
`key`, in the words of the specification. -/
theorem collate_block_spec [VoxelKind T] (layer_in : Layer T) (w : ℚ) (out r : Layer T)
    (key : Index3) (h : collate.block layer_in w out key = some r) :
    ∃ block, layer_in.getBlockPtrByIndex key = some block ∧
      r.voxel_size = out.voxel_size ∧ r.voxels_per_side = out.voxels_per_side ∧
      (block.unobserved w = true → r = out) ∧
      (block.unobserved w = false →
        WritesFit w block (out.priorBlock key) ∧
        r.getBlockPtrByIndex key = some (mergeBlock w block (out.priorBlock key)) ∧
        ∀ other, other ≠ key → r.getBlockPtrByIndex other = out.getBlockPtrByIndex other) := by
  unfold collate.block at h
  cases hb : layer_in.getBlockPtrByIndex key with
  | none => rw [hb] at h; simp at h
  | some block =>
    rw [hb, Option.some_bind] at h
    cases hs : collate.scan block w (List.range block.num_voxels) with
    | none => rw [hs] at h; simp at h
    | some u =>
      rw [hs, Option.some_bind] at h
      have hu := scan_range block w u hs
      subst hu
      refine ⟨block, rfl, ?_⟩
      cases hun : block.unobserved w with
      | true =>
        rw [hun] at h
        simp only [if_true, Option.some.injEq] at h
        subst h
        exact ⟨rfl, rfl, fun _ => rfl, fun hf => by cases hf⟩
      | false =>
        rw [hun] at h
        simp only [Bool.false_eq_true, if_false] at h
        rw [allocate_snd] at h
        cases hc : (List.range block.num_voxels).foldlM (collate.copy block w)
            { out.priorBlock key with has_data := block.has_data, updated := block.updated } with
        | none => rw [hc] at h; simp at h
        | some nb =>
          rw [hc] at h
          simp only [Option.map_some', Option.some.injEq] at h
          obtain ⟨hnb, hfit⟩ := copy_loop block w (out.priorBlock key) nb hc
          subst hnb
          subst h
          refine ⟨(allocate_geometry out key).1, (allocate_geometry out key).2,
            (fun hf => by cases hf), fun _ => ⟨hfit, ?_, ?_⟩⟩
          · exact lookup_storeBlock_self _ key _ _ (allocate_lookup_self out key)
          · intro other hne
            rw [lookup_storeBlock_ne _ key other _ hne, allocate_lookup_ne out key other hne]

/-! ## Collation: the whole incoming layer -/

theorem mergeBlock_idem [VoxelKind T] (w : ℚ) (block prior : Block T) :
    mergeBlock w block (mergeBlock w block prior) = mergeBlock w block prior := by
  unfold mergeBlock
  simp only [Block.mk.injEq, true_and]
  apply List.ext_getElem?
  intro j
  rw [List.getElem?_mapIdx, List.getElem?_mapIdx]
  cases prior.voxels[j]? with
  | none => rfl
  | some old =>
    cases block.sample w j <;> rfl

theorem writesFit_mergeBlock [VoxelKind T] (w : ℚ) (block b prior : Block T)
    (h : WritesFit w block (mergeBlock w b prior)) : WritesFit w block prior := by
  intro i v hs
  have := h i v hs
  simpa [mergeBlock, Block.num_voxels] using this

theorem priorBlock_congr [VoxelKind T] (l1 l2 : Layer T) (idx : Index3)
    (h : l1.getBlockPtrByIndex idx = l2.getBlockPtrByIndex idx)
    (hs : l1.voxel_size = l2.voxel_size) (hv : l1.voxels_per_side = l2.voxels_per_side) :
    l1.priorBlock idx = l2.priorBlock idx := by
  unfold Layer.priorBlock Layer.newBlock Layer.block_size
  rw [h, hs, hv]

/-- The effect of the outer loop of `collate` on the rest `ks` of the enumerated indices. -/
theorem collate_loop [VoxelKind T] (layer_in : Layer T) (w : ℚ) (ks : List Index3) :
    ∀ cur r, ks.foldlM (collate.block layer_in w) cur = some r →
      (r.voxel_size = cur.voxel_size ∧ r.voxels_per_side = cur.voxels_per_side) ∧
      (∀ idx block, layer_in.getBlockPtrByIndex idx = some block → idx ∈ ks →
        block.unobserved w = false →
        r.getBlockPtrByIndex idx = some (mergeBlock w block (cur.priorBlock idx)) ∧
          WritesFit w block (cur.priorBlock idx)) ∧
      (∀ idx, (idx ∉ ks ∨ ∀ block, layer_in.getBlockPtrByIndex idx = some block →
          block.unobserved w = true) →
        r.getBlockPtrByIndex idx = cur.getBlockPtrByIndex idx) := by
  induction ks with
  | nil =>
    intro cur r h
    simp only [List.foldlM, pure, Option.some.injEq] at h
    subst h
    exact ⟨⟨rfl, rfl⟩, fun idx block _ hmem => absurd hmem (List.not_mem_nil idx),
      fun _ _ => rfl⟩
  | cons k rest ih =>
    intro cur r h
    rw [List.foldlM_cons] at h
    cases hk : collate.block layer_in w cur k with
    | none => rw [hk] at h; simp at h
    | some cur1 =>
      rw [hk] at h
      simp only [Option.bind_eq_bind, Option.some_bind] at h
      obtain ⟨bk, hbk, hvs, hvps, hskip, htouch⟩ := collate_block_spec layer_in w cur cur1 k hk
      obtain ⟨⟨gvs, gvps⟩, ihA, ihB⟩ := ih cur1 r h
      -- lookups of the intermediate store away from a touched key
      have hframe : ∀ idx, (idx ≠ k ∨ bk.unobserved w = true) →
          cur1.getBlockPtrByIndex idx = cur.getBlockPtrByIndex idx := by
        intro idx hcase
        cases hun : bk.unobserved w with
        | true => rw [hskip hun]
        | false =>
          rcases hcase with hne | hu
          · exact (htouch hun).2.2 idx hne
          · rw [hun] at hu; cases hu
      refine ⟨⟨gvs.trans hvs, gvps.trans hvps⟩, ?_, ?_⟩
      · intro idx block hb hmem hun
        by_cases hrest : idx ∈ rest
        · obtain ⟨h1, h2⟩ := ihA idx block hb hrest hun
          by_cases hik : idx = k
          · subst hik
            have hbb : bk = block := Option.some.inj (hbk.symm.trans hb)
            subst hbb
            have hc1 : cur1.priorBlock idx = mergeBlock w bk (cur.priorBlock idx) := by
              unfold Layer.priorBlock
              rw [(htouch hun).2.1]
              rfl
            rw [hc1] at h1 h2
            rw [mergeBlock_idem] at h1
            exact ⟨h1, writesFit_mergeBlock w bk bk _ h2⟩
          · have hp : cur1.priorBlock idx = cur.priorBlock idx :=
              priorBlock_congr cur1 cur idx (hframe idx (Or.inl hik)) hvs hvps
            rw [hp] at h1 h2
            exact ⟨h1, h2⟩
        · have hik : idx = k := by
            rcases List.mem_cons.1 hmem with h | h
            · exact h
            · exact absurd h hrest
          subst hik
          have hbb : bk = block := Option.some.inj (hbk.symm.trans hb)
          subst hbb
          rw [ihB idx (Or.inl hrest)]
          exact ⟨(htouch hun).2.1, (htouch hun).1⟩
      · intro idx hcase
        have hrestcase : idx ∉ rest ∨ ∀ block, layer_in.getBlockPtrByIndex idx = some block →
            block.unobserved w = true := by
          rcases hcase with h | h
          · exact Or.inl fun hm => h (List.mem_cons_of_mem _ hm)
          · exact Or.inr h
        rw [ihB idx hrestcase]
        apply hframe
        by_cases hik : idx = k
        · right
          subst hik
          rcases hcase with h | h
          · exact absurd (List.mem_cons_self _ _) h
          · exact h bk hbk
        · exact Or.inl hik

/-- After `collate`, the store holds under every index the block that the specification
describes, and every write of the merge landed inside the collated block. -/
theorem collate_lookup [VoxelKind T] (layer_in layer_out r : Layer T) (w : ℚ)
    (h : collate layer_in layer_out w = some r) :
    (r.voxel_size = layer_out.voxel_size ∧ r.voxels_per_side = layer_out.voxels_per_side) ∧
    (∀ idx, r.getBlockPtrByIndex idx = collatedBlock w layer_in layer_out idx) ∧
    (∀ idx block, layer_in.getBlockPtrByIndex idx = some block → block.unobserved w = false →
      WritesFit w block (layer_out.priorBlock idx)) := by
  unfold collate at h
  obtain ⟨hg, hA, hB⟩ := collate_loop layer_in w _ layer_out r h
  refine ⟨hg, ?_, ?_⟩
  · intro idx
    unfold collatedBlock
    cases hb : layer_in.getBlockPtrByIndex idx with
    | none =>
      refine hB idx (Or.inr fun block hbl => ?_)
      rw [hb] at hbl
      cases hbl
    | some block =>
      cases hun : block.unobserved w with
      | true =>
        show _ = if block.unobserved w = true then _ else _
        rw [if_pos hun]
        refine hB idx (Or.inr fun b hbl => ?_)
        rw [hb] at hbl
        exact (Option.some.inj hbl) ▸ hun
      | false =>
        show _ = if block.unobserved w = true then _ else _
        rw [if_neg (by simp [hun])]
        exact (hA idx block hb (getBlockPtrByIndex_mem layer_in idx block hb) hun).1
  · intro idx block hb hun
    exact (hA idx block hb (getBlockPtrByIndex_mem layer_in idx block hb) hun).2

/-! ## Claims on one merge -/

theorem mergeBlock_get [VoxelKind T] (w : ℚ) (block prior : Block T) (i : Nat) :
    (mergeBlock w block prior).getVoxelByLinearIndex i =
      (prior.getVoxelByLinearIndex i).map fun old => (block.sample w i).getD old := by
  unfold Block.getVoxelByLinearIndex
  have hn : (mergeBlock w block prior).num_voxels = prior.num_voxels := rfl
  rw [hn]
  by_cases hi : i < prior.num_voxels
  · rw [if_pos hi, if_pos hi]
    unfold mergeBlock
    simp only [List.getElem?_mapIdx]
  · rw [if_neg hi, if_neg hi]
    rfl

theorem newBlock_get [VoxelKind T] (l : Layer T) (idx : Index3) (i : Nat) :
    (l.newBlock idx).getVoxelByLinearIndex i =
      if i < l.voxels_per_side * l.voxels_per_side * l.voxels_per_side then
        some VoxelKind.zero
      else none := by
  unfold Block.getVoxelByLinearIndex Block.num_voxels Layer.newBlock
  simp only [List.getElem?_replicate]
  split_ifs <;> rfl

theorem getVoxel_lt [VoxelKind T] (b : Block T) (i : Nat) (v : T)
    (h : b.getVoxelByLinearIndex i = some v) : i < b.num_voxels ∧ i < b.voxels.length := by
  unfold Block.getVoxelByLinearIndex at h
  by_cases hi : i < b.num_voxels
  · rw [if_pos hi] at h
    exact ⟨hi, (List.getElem?_eq_some_iff.1 h).1⟩
  · rw [if_neg hi] at h
    cases h

/-- A voxel for which the source offers a sample holds that sample after the merge. -/
theorem mergeBlock_get_sample [VoxelKind T] (w : ℚ) (block prior : Block T) (i : Nat) (v : T)
    (hfit : WritesFit w block prior) (hs : block.sample w i = some v) :
    (mergeBlock w block prior).getVoxelByLinearIndex i = some v := by
  rw [mergeBlock_get]
  obtain ⟨h1, h2⟩ := hfit i v hs
  unfold Block.getVoxelByLinearIndex
  rw [if_pos h1, List.getElem?_eq_getElem h2, hs]
  rfl

/-- A voxel for which the source offers no sample is as it was before the merge. -/
theorem mergeBlock_get_none [VoxelKind T] (w : ℚ) (block prior : Block T) (i : Nat)
    (hs : block.sample w i = none) :
    (mergeBlock w block prior).getVoxelByLinearIndex i = prior.getVoxelByLinearIndex i := by
  rw [mergeBlock_get, hs]
  cases prior.getVoxelByLinearIndex i <;> rfl

theorem sample_none_of_unobserved_voxel [VoxelKind T] (b : Block T) (w : ℚ) (i : Nat) (v : T)
    (hv : b.getVoxelByLinearIndex i = some v) (ho : VoxelKind.isObserved v w = false) :
    b.sample w i = none := by
  unfold Block.sample
  rw [hv]
  simp [Option.filter, ho]

theorem priorBlock_of_some [VoxelKind T] (l : Layer T) (idx : Index3) (b : Block T)
    (h : l.getBlockPtrByIndex idx = some b) : l.priorBlock idx = b := by
  unfold Layer.priorBlock
  rw [h]
  rfl

theorem priorBlock_of_none [VoxelKind T] (l : Layer T) (idx : Index3)
    (h : l.getBlockPtrByIndex idx = none) : l.priorBlock idx = l.newBlock idx := by
  unfold Layer.priorBlock
  rw [h]
  rfl

/-- Claim C3. After `collate`, for a source block that has a voxel passing the observation
test (a block that is not skipped): the store holds a block under the same index; every
voxel of it whose source voxel passes the test equals the source voxel; every voxel whose
source voxel fails the test has the value it had in the store before the call, which is
the default-constructed (zero) voxel when the block was newly created. -/
theorem C3_collate_merges_per_voxel [VoxelKind T] (layer_in layer_out r : Layer T) (w : ℚ)
    (idx : Index3) (block : Block T)
    (h : collate layer_in layer_out w = some r)
    (hb : layer_in.getBlockPtrByIndex idx = some block)
    (hun : block.unobserved w = false) :
    ∃ nb, r.getBlockPtrByIndex idx = some nb ∧
      ∀ i voxel, block.getVoxelByLinearIndex i = some voxel →
        (VoxelKind.isObserved voxel w = true → nb.getVoxelByLinearIndex i = some voxel) ∧
        (VoxelKind.isObserved voxel w = false →
          (∀ old, layer_out.getBlockPtrByIndex idx = some old →
            nb.getVoxelByLinearIndex i = old.getVoxelByLinearIndex i) ∧
          (layer_out.getBlockPtrByIndex idx = none →
            nb.getVoxelByLinearIndex i =
              if i < layer_out.voxels_per_side * layer_out.voxels_per_side *
                  layer_out.voxels_per_side then
                some VoxelKind.zero
              else none)) := by
  obtain ⟨-, hlook, hfit⟩ := collate_lookup layer_in layer_out r w h
  have hr : r.getBlockPtrByIndex idx = some (mergeBlock w block (layer_out.priorBlock idx)) := by
    rw [hlook idx]
    unfold collatedBlock
    rw [hb]
    show (if block.unobserved w = true then _ else _) = _
    rw [if_neg (by simp [hun])]
  refine ⟨_, hr, fun i voxel hv => ⟨fun ho => ?_, fun ho => ⟨fun old hold => ?_, fun hnone => ?_⟩⟩⟩
  · exact mergeBlock_get_sample w block _ i voxel (hfit idx block hb hun)
      ((sample_eq_some_iff block w i voxel).2 ⟨hv, ho⟩)
  · rw [mergeBlock_get_none w block _ i (sample_none_of_unobserved_voxel block w i voxel hv ho),
      priorBlock_of_some layer_out idx old hold]
  · rw [mergeBlock_get_none w block _ i (sample_none_of_unobserved_voxel block w i voxel hv ho),
      priorBlock_of_none layer_out idx hnone, newBlock_get]

/-- Witness of C3: merging `scenarioLayer` (one observed voxel) into `scenarioStore`. -/
theorem C3_collate_merges_per_voxel_witness :
    collate scenarioLayer scenarioStore 1 = some scenarioStoreMerged ∧
    scenarioLayer.getBlockPtrByIndex ⟨0, 0, 0⟩ = some scenarioBlock ∧
    scenarioBlock.unobserved 1 = false ∧
    ∃ nb, scenarioStoreMerged.getBlockPtrByIndex ⟨0, 0, 0⟩ = some nb ∧
      ∀ i voxel, scenarioBlock.getVoxelByLinearIndex i = some voxel →
        (VoxelKind.isObserved voxel 1 = true → nb.getVoxelByLinearIndex i = some voxel) ∧
        (VoxelKind.isObserved voxel 1 = false →
          (∀ old, scenarioStore.getBlockPtrByIndex ⟨0, 0, 0⟩ = some old →
            nb.getVoxelByLinearIndex i = old.getVoxelByLinearIndex i) ∧
          (scenarioStore.getBlockPtrByIndex ⟨0, 0, 0⟩ = none →
            nb.getVoxelByLinearIndex i =
              if i < scenarioStore.voxels_per_side * scenarioStore.voxels_per_side *
                  scenarioStore.voxels_per_side then
                some VoxelKind.zero
              else none)) :=
  ⟨by decide!, by decide!, by decide!,
    C3_collate_merges_per_voxel scenarioLayer scenarioStore scenarioStoreMerged 1 ⟨0, 0, 0⟩
      scenarioBlock (by decide!) (by decide!) (by decide!)⟩

/-- Claim C4. When an allocated block of the incoming layer has no voxel passing the
observation test (`Block.unobserved`), `collate` leaves the store untouched at that block index: the block
stored there (voxels and both flags) is the one stored before, and when none was stored
none is allocated. -/
theorem C4_collate_skips_unobserved_block [VoxelKind T] (layer_in layer_out r : Layer T)
    (w : ℚ) (idx : Index3) (block : Block T)
    (h : collate layer_in layer_out w = some r)
    (hb : layer_in.getBlockPtrByIndex idx = some block)
    (hu : block.unobserved w = true) :
    r.getBlockPtrByIndex idx = layer_out.getBlockPtrByIndex idx ∧
      (idx ∈ r.getAllAllocatedBlocks ↔ idx ∈ layer_out.getAllAllocatedBlocks) := by
  obtain ⟨-, hlook, -⟩ := collate_lookup layer_in layer_out r w h
  have hr : r.getBlockPtrByIndex idx = layer_out.getBlockPtrByIndex idx := by
    rw [hlook idx]
    unfold collatedBlock
    rw [hb]
    show (if block.unobserved w = true then _ else _) = _
    rw [if_pos hu]
  refine ⟨hr, ⟨fun hm => ?_, fun hm => ?_⟩⟩
  · obtain ⟨b, hbb⟩ := getBlockPtrByIndex_of_mem r idx hm
    exact getBlockPtrByIndex_mem layer_out idx b (hr ▸ hbb)
  · obtain ⟨b, hbb⟩ := getBlockPtrByIndex_of_mem layer_out idx hm
    exact getBlockPtrByIndex_mem r idx b (hr.symm ▸ hbb)

/-- Witness of C4: merging the entirely unobserved `scenarioLayerUnobserved` into
`scenarioStoreMerged` changes nothing at the block index. -/
theorem C4_collate_skips_unobserved_block_witness :
    collate scenarioLayerUnobserved scenarioStoreMerged 1 = some scenarioStoreMerged ∧
    scenarioLayerUnobserved.getBlockPtrByIndex ⟨0, 0, 0⟩ = some scenarioBlockUnobserved ∧
    scenarioBlockUnobserved.unobserved 1 = true ∧
    (scenarioStoreMerged.getBlockPtrByIndex ⟨0, 0, 0⟩ =
        scenarioStoreMerged.getBlockPtrByIndex ⟨0, 0, 0⟩ ∧
      ((⟨0, 0, 0⟩ : Index3) ∈ scenarioStoreMerged.getAllAllocatedBlocks ↔
        (⟨0, 0, 0⟩ : Index3) ∈ scenarioStoreMerged.getAllAllocatedBlocks)) :=
  ⟨by decide!, by decide!, by decide!,
    C4_collate_skips_unobserved_block scenarioLayerUnobserved scenarioStoreMerged
      scenarioStoreMerged 1 ⟨0, 0, 0⟩ scenarioBlockUnobserved (by decide!) (by decide!)
      (by decide!)⟩

/-! ## Claims on sequences of merges -/

/-- One merge, at one voxel address: a sample of the incoming layer is stored; without a
sample the voxel keeps its value, or is the voxel of a newly created block. -/
theorem collate_voxelAt [VoxelKind T] (layer_in layer_out r : Layer T) (w : ℚ)
    (h : collate layer_in layer_out w = some r) (idx : Index3) (i : Nat) :
    (∀ v, layer_in.sample w idx i = some v → r.voxelAt idx i = some v) ∧
    (layer_in.sample w idx i = none →
      r.voxelAt idx i = layer_out.voxelAt idx i ∨
      (layer_out.getBlockPtrByIndex idx = none ∧
        r.voxelAt idx i = (layer_out.newBlock idx).getVoxelByLinearIndex i)) ∧
    (r.getBlockPtrByIndex idx = none → layer_out.getBlockPtrByIndex idx = none) := by
  obtain ⟨-, hlook, hfit⟩ := collate_lookup layer_in layer_out r w h
  have hprior : (layer_out.priorBlock idx).getVoxelByLinearIndex i = layer_out.voxelAt idx i ∨
      (layer_out.getBlockPtrByIndex idx = none ∧
        (layer_out.priorBlock idx).getVoxelByLinearIndex i =
          (layer_out.newBlock idx).getVoxelByLinearIndex i) := by
    cases hb : layer_out.getBlockPtrByIndex idx with
    | some b =>
      left
      rw [priorBlock_of_some layer_out idx b hb]
      unfold Layer.voxelAt
      rw [hb, Option.some_bind]
    | none =>
      right
      rw [priorBlock_of_none layer_out idx hb]
      exact ⟨rfl, rfl⟩
  unfold Layer.sample
  have hv : r.voxelAt idx i =
      (collatedBlock w layer_in layer_out idx).bind fun b => b.getVoxelByLinearIndex i := by
    unfold Layer.voxelAt
    rw [hlook idx]
  rw [hv, hlook idx]
  unfold collatedBlock
  cases hb : layer_in.getBlockPtrByIndex idx with
  | none =>
    refine ⟨fun v hv => ?_, fun _ => Or.inl rfl, fun hn => hn⟩
    simp at hv
  | some block =>
    simp only [Option.some_bind]
    cases hun : block.unobserved w with
    | true =>
      refine ⟨fun v hv => ?_, fun _ => Or.inl rfl, fun hn => by simpa using hn⟩
      rw [(unobserved_iff block w).1 hun i] at hv
      cases hv
    | false =>
      simp only [Bool.false_eq_true, if_false, Option.some_bind]
      refine ⟨fun v hv => ?_, fun hnone => ?_, fun hn => by simp at hn⟩
      · exact mergeBlock_get_sample w block _ i v (hfit idx block hb hun) hv
      · rw [mergeBlock_get_none w block _ i hnone]
        rcases hprior with h1 | ⟨h1, h2⟩
        · exact Or.inl h1
        · exact Or.inr ⟨h1, h2⟩

theorem sample_observed [VoxelKind T] (l : Layer T) (w : ℚ) (idx : Index3) (i : Nat) (v : T)
    (h : l.sample w idx i = some v) : VoxelKind.isObserved v w = true := by
  unfold Layer.sample at h
  cases hb : l.getBlockPtrByIndex idx with
  | none => rw [hb] at h; simp at h
  | some b =>
    rw [hb, Option.some_bind] at h
    exact ((sample_eq_some_iff b w i v).1 h).2

theorem voxelAt_lookup (l : Layer T) (idx : Index3) (i : Nat) (v : T)
    (h : l.voxelAt idx i = some v) : l.getBlockPtrByIndex idx ≠ none := by
  intro hn
  unfold Layer.voxelAt at h
  rw [hn] at h
  cases h

/-- One merge never makes a known voxel of the store unknown. -/
theorem collate_known_mono [VoxelKind T] (layer_in layer_out r : Layer T) (w : ℚ)
    (h : collate layer_in layer_out w = some r) (idx : Index3) (i : Nat) (v : T)
    (hv : layer_out.voxelAt idx i = some v) (ho : VoxelKind.isObserved v w = true) :
    ∃ u, r.voxelAt idx i = some u ∧ VoxelKind.isObserved u w = true := by
  obtain ⟨h1, h2, -⟩ := collate_voxelAt layer_in layer_out r w h idx i
  cases hs : layer_in.sample w idx i with
  | some u => exact ⟨u, h1 u hs, sample_observed layer_in w idx i u hs⟩
  | none =>
    rcases h2 hs with h3 | ⟨h3, -⟩
    · exact ⟨v, h3.trans hv, ho⟩
    · exact absurd h3 (voxelAt_lookup layer_out idx i v hv)

theorem collateAll_cons [VoxelKind T] (w : ℚ) (s0 : Layer T) (l : Layer T)
    (rest : List (Layer T)) :
    collateAll w s0 (l :: rest) = (collate l s0 w).bind fun s1 => collateAll w s1 rest := by
  unfold collateAll
  rw [List.foldlM_cons]
  rfl

theorem collateAll_known_mono [VoxelKind T] (w : ℚ) (layers : List (Layer T)) :
    ∀ s0 s, collateAll w s0 layers = some s → ∀ idx i v, s0.voxelAt idx i = some v →
      VoxelKind.isObserved v w = true →
      ∃ u, s.voxelAt idx i = some u ∧ VoxelKind.isObserved u w = true := by
  induction layers with
  | nil =>
    intro s0 s h idx i v hv ho
    simp only [collateAll, List.foldlM, pure, Option.some.injEq] at h
    subst h
    exact ⟨v, hv, ho⟩
  | cons l rest ih =>
    intro s0 s h idx i v hv ho
    rw [collateAll_cons] at h
    cases h1 : collate l s0 w with
    | none => rw [h1] at h; simp at h
    | some s1 =>
      rw [h1, Option.some_bind] at h
      obtain ⟨u, hu, huo⟩ := collate_known_mono l s0 s1 w h1 idx i v hv ho
      exact ih s1 s h idx i u hu huo

theorem newBlock_congr [VoxelKind T] (l1 l2 : Layer T) (idx : Index3)
    (hs : l1.voxel_size = l2.voxel_size) (hv : l1.voxels_per_side = l2.voxels_per_side) :
    l1.newBlock idx = l2.newBlock idx := by
  unfold Layer.newBlock Layer.block_size
  rw [hs, hv]

/-- The voxel of a store after a sequence of merges: the most recent sample when there is
one, and otherwise the voxel held before the sequence or that of a newly created block. -/
theorem collateAll_voxelAt [VoxelKind T] (w : ℚ) (layers : List (Layer T)) :
    ∀ s0 s, collateAll w s0 layers = some s → ∀ idx i,
      (s.voxel_size = s0.voxel_size ∧ s.voxels_per_side = s0.voxels_per_side) ∧
      (∀ v, lastObserved w idx i layers = some v → s.voxelAt idx i = some v) ∧
      (lastObserved w idx i layers = none →
        s.voxelAt idx i = s0.voxelAt idx i ∨
        (s0.getBlockPtrByIndex idx = none ∧
          s.voxelAt idx i = (s0.newBlock idx).getVoxelByLinearIndex i)) ∧
      (s.getBlockPtrByIndex idx = none → s0.getBlockPtrByIndex idx = none) := by
  induction layers with
  | nil =>
    intro s0 s h idx i
    simp only [collateAll, List.foldlM, pure, Option.some.injEq] at h
    subst h
    refine ⟨⟨rfl, rfl⟩, fun v hv => ?_, fun _ => Or.inl rfl, fun hn => hn⟩
    simp [lastObserved] at hv
  | cons l rest ih =>
    intro s0 s h idx i
    rw [collateAll_cons] at h
    cases h1 : collate l s0 w with
    | none => rw [h1] at h; simp at h
    | some s1 =>
      rw [h1, Option.some_bind] at h
      obtain ⟨⟨g1, g2⟩, ihA, ihB, ihC⟩ := ih s1 s h idx i
      obtain ⟨⟨k1, k2⟩, -, -⟩ := collate_lookup l s0 s1 w h1
      obtain ⟨c1, c2, c3⟩ := collate_voxelAt l s0 s1 w h1 idx i
      refine ⟨⟨g1.trans k1, g2.trans k2⟩, fun v hv => ?_, fun hn => ?_, fun hn => c3 (ihC hn)⟩
      · unfold lastObserved at hv
        cases hr : lastObserved w idx i rest with
        | some u =>
          rw [hr] at hv
          simp only [Option.some.injEq] at hv
          subst hv
          exact ihA u hr
        | none =>
          rw [hr] at hv
          simp only at hv
          have hs1 := c1 v hv
          rcases ihB hr with h3 | ⟨h3, -⟩
          · exact h3.trans hs1
          · exact absurd h3 (voxelAt_lookup s1 idx i v hs1)
      · unfold lastObserved at hn
        cases hr : lastObserved w idx i rest with
        | some u => rw [hr] at hn; cases hn
        | none =>
          rw [hr] at hn
          simp only at hn
          rcases ihB hr with h3 | ⟨h3, h4⟩
          · rcases c2 hn with h5 | ⟨h5, h6⟩
            · exact Or.inl (h3.trans h5)
            · exact Or.inr ⟨h5, h3.trans h6⟩
          · refine Or.inr ⟨c3 h3, ?_⟩
            rw [h4, newBlock_congr s1 s0 idx k1 k2]

/-- Claim C5. For a sequence of `collate` calls with one threshold: (1) no call makes a voxel
of the store that passes the observation test stop passing it, so the set of such voxels
never shrinks, from one call to the next and over the whole sequence; (2) a voxel for
which some call of the sequence offered a sample (a source voxel passing the test) holds
the sample of the most recent such call, whatever later calls that did not observe it
contained; (3) a voxel for which no call offered a sample is as it was before the sequence,
or is the voxel of a block created meanwhile; (4) hence, when the store had no voxel passing
the test before the sequence and the default voxel does not pass it, every voxel of the
store that passes the test holds its most recent sample. -/
theorem C5_collation_is_monotone [VoxelKind T] (w : ℚ) (s0 s : Layer T)
    (layers : List (Layer T)) (h : collateAll w s0 layers = some s) :
    (∀ (l a b : Layer T), collate l a w = some b → ∀ idx i v, a.voxelAt idx i = some v →
      VoxelKind.isObserved v w = true →
      ∃ u, b.voxelAt idx i = some u ∧ VoxelKind.isObserved u w = true) ∧
    (∀ idx i v, s0.voxelAt idx i = some v → VoxelKind.isObserved v w = true →
      ∃ u, s.voxelAt idx i = some u ∧ VoxelKind.isObserved u w = true) ∧
    (∀ idx i v, lastObserved w idx i layers = some v → s.voxelAt idx i = some v) ∧
    (∀ idx i, lastObserved w idx i layers = none →
      s.voxelAt idx i = s0.voxelAt idx i ∨
      (s0.getBlockPtrByIndex idx = none ∧
        s.voxelAt idx i = (s0.newBlock idx).getVoxelByLinearIndex i)) ∧
    ((∀ idx i v, s0.voxelAt idx i = some v → VoxelKind.isObserved v w = false) →
      VoxelKind.isObserved (VoxelKind.zero : T) w = false →
      ∀ idx i v, s.voxelAt idx i = some v → VoxelKind.isObserved v w = true →
        lastObserved w idx i layers = some v) := by
  refine ⟨fun l a b hab idx i v hv ho => collate_known_mono l a b w hab idx i v hv ho,
    collateAll_known_mono w layers s0 s h,
    fun idx i v hv => (collateAll_voxelAt w layers s0 s h idx i).2.1 v hv,
    fun idx i hn => (collateAll_voxelAt w layers s0 s h idx i).2.2.1 hn, ?_⟩
  intro hs0 hzero idx i v hv ho
  obtain ⟨-, hA, hB, -⟩ := collateAll_voxelAt w layers s0 s h idx i
  cases hl : lastObserved w idx i layers with
  | some u =>
    have := hA u hl
    rw [hv] at this
    exact this.symm
  | none =>
    exfalso
    rcases hB hl with h1 | ⟨-, h1⟩
    · have h2 := hs0 idx i v (h1 ▸ hv)
      rw [ho] at h2
      cases h2
    · rw [hv, newBlock_get] at h1
      split_ifs at h1
      have h3 : v = VoxelKind.zero := Option.some.inj h1
      rw [h3, hzero] at ho
      cases ho

/-- Witness of C5: an empty store after merging `scenarioLayer` and then `scenarioLayerB`;
voxel 0 keeps the sample of the first call although the second call did not observe it. -/
theorem C5_collation_is_monotone_witness :
    collateAll 1 (Layer.empty 1 2) [scenarioLayer, scenarioLayerB] = some scenarioCollated ∧
    scenarioCollated.voxelAt ⟨0, 0, 0⟩ 0 = some occupiedVoxel ∧
    scenarioCollated.voxelAt ⟨0, 0, 0⟩ 1 = some freeVoxel ∧
    (scenarioCollated.voxelAt ⟨0, 0, 0⟩ 2 = (Layer.empty 1 2).voxelAt ⟨0, 0, 0⟩ 2 ∨
      ((Layer.empty 1 2 : Layer TsdfVoxel).getBlockPtrByIndex ⟨0, 0, 0⟩ = none ∧
        scenarioCollated.voxelAt ⟨0, 0, 0⟩ 2 =
          ((Layer.empty 1 2 : Layer TsdfVoxel).newBlock ⟨0, 0, 0⟩).getVoxelByLinearIndex 2)) :=
  ⟨by decide!,
    (C5_collation_is_monotone 1 (Layer.empty 1 2) scenarioCollated
      [scenarioLayer, scenarioLayerB] (by decide!)).2.2.1 ⟨0, 0, 0⟩ 0 occupiedVoxel (by decide!),
    (C5_collation_is_monotone 1 (Layer.empty 1 2) scenarioCollated
      [scenarioLayer, scenarioLayerB] (by decide!)).2.2.1 ⟨0, 0, 0⟩ 1 freeVoxel (by decide!),
    (C5_collation_is_monotone 1 (Layer.empty 1 2) scenarioCollated
      [scenarioLayer, scenarioLayerB] (by decide!)).2.2.2.1 ⟨0, 0, 0⟩ 2 (by decide!)⟩

/-! ## Claims on the bounds -/

theorem foldl_min_spec {α : Type} (f : α → ℚ) (l : List α) :
    ∀ m0 : ℚ, (l.foldl (fun m a => min m (f a)) m0 ≤ m0) ∧
      (∀ a ∈ l, l.foldl (fun m a => min m (f a)) m0 ≤ f a) ∧
      (l.foldl (fun m a => min m (f a)) m0 = m0 ∨
        ∃ a ∈ l, l.foldl (fun m a => min m (f a)) m0 = f a) := by
  induction l with
  | nil => intro m0; simp
  | cons a t ih =>
    intro m0
    obtain ⟨h1, h2, h3⟩ := ih (min m0 (f a))
    simp only [List.foldl_cons]
    refine ⟨h1.trans (min_le_left _ _), ?_, ?_⟩
    · intro b hb
      rcases List.mem_cons.1 hb with rfl | hb
      · exact h1.trans (min_le_right _ _)
      · exact h2 b hb
    · rcases h3 with h3 | ⟨b, hb, h3⟩
      · rcases min_choice m0 (f a) with h4 | h4
        · exact Or.inl (h3.trans h4)
        · exact Or.inr ⟨a, List.mem_cons_self _ _, h3.trans h4⟩
      · exact Or.inr ⟨b, List.mem_cons_of_mem _ hb, h3⟩

theorem foldl_max_spec {α : Type} (f : α → ℚ) (l : List α) :
    ∀ m0 : ℚ, (m0 ≤ l.foldl (fun m a => max m (f a)) m0) ∧
      (∀ a ∈ l, f a ≤ l.foldl (fun m a => max m (f a)) m0) ∧
      (l.foldl (fun m a => max m (f a)) m0 = m0 ∨
        ∃ a ∈ l, l.foldl (fun m a => max m (f a)) m0 = f a) := by
  induction l with
  | nil => intro m0; simp
  | cons a t ih =>
    intro m0
    obtain ⟨h1, h2, h3⟩ := ih (max m0 (f a))
    simp only [List.foldl_cons]
    refine ⟨(le_max_left _ _).trans h1, ?_, ?_⟩
    · intro b hb
      rcases List.mem_cons.1 hb with rfl | hb
      · exact (le_max_right _ _).trans h1
      · exact h2 b hb
    · rcases h3 with h3 | ⟨b, hb, h3⟩
      · rcases max_choice m0 (f a) with h4 | h4
        · exact Or.inl (h3.trans h4)
        · exact Or.inr ⟨a, List.mem_cons_self _ _, h3.trans h4⟩
      · exact Or.inr ⟨b, List.mem_cons_of_mem _ hb, h3⟩

/-- The loop of `getLayerBounds` always completes, and folds `Bounds.extend` over the blocks
read. -/
theorem bounds_loop (layer : Layer T) (ks : List Index3)
    (hks : ∀ idx ∈ ks, idx ∈ layer.getAllAllocatedBlocks) :
    ∀ b, ks.foldlM (getLayerBounds.step layer) b =
      some ((ks.filterMap layer.getBlockByIndex).foldl Bounds.extend b) := by
  induction ks with
  | nil => intro b; rfl
  | cons k rest ih =>
    intro b
    obtain ⟨blk, hblk⟩ := getBlockPtrByIndex_of_mem layer k (hks k (List.mem_cons_self _ _))
    have hstep : getLayerBounds.step layer b k = some (b.extend blk) := by
      unfold getLayerBounds.step Layer.getBlockByIndex
      rw [hblk]
      rfl
    rw [List.foldlM_cons, hstep]
    simp only [Option.bind_eq_bind, Option.some_bind]
    rw [ih (fun idx h => hks idx (List.mem_cons_of_mem _ h))]
    have hf : layer.getBlockByIndex k = some blk := hblk
    rw [List.filterMap_cons_some hf, List.foldl_cons]

theorem extend_fold_components (blocks : List (Block T)) :
    ∀ b : Bounds,
      (blocks.foldl Bounds.extend b).x_min.x =
        blocks.foldl (fun m blk => min m blk.origin.x) b.x_min.x ∧
      (blocks.foldl Bounds.extend b).x_min.y =
        blocks.foldl (fun m blk => min m blk.origin.y) b.x_min.y ∧
      (blocks.foldl Bounds.extend b).x_max.x =
        blocks.foldl (fun m blk => max m (blk.origin.x + blk.block_size)) b.x_max.x ∧
      (blocks.foldl Bounds.extend b).x_max.y =
        blocks.foldl (fun m blk => max m (blk.origin.y + blk.block_size)) b.x_max.y := by
  induction blocks with
  | nil => intro b; exact ⟨rfl, rfl, rfl, rfl⟩
  | cons blk rest ih =>
    intro b
    simp only [List.foldl_cons]
    exact ih (b.extend blk)

/-- The value of `getLayerBounds`. -/
theorem getLayerBounds_eq (layer : Layer T) :
    getLayerBounds layer =
      some { layer.allocatedBlockList.foldl Bounds.extend Bounds.init with
        dims := ⟨((layer.allocatedBlockList.foldl Bounds.extend Bounds.init).x_max.x -
                  (layer.allocatedBlockList.foldl Bounds.extend Bounds.init).x_min.x) /
                    layer.voxel_size,
                 ((layer.allocatedBlockList.foldl Bounds.extend Bounds.init).x_max.y -
                  (layer.allocatedBlockList.foldl Bounds.extend Bounds.init).x_min.y) /
                    layer.voxel_size⟩ } := by
  unfold getLayerBounds
  rw [bounds_loop layer _ (fun idx h => h)]
  rfl

/-- Claim C6. For a layer with at least one allocated block (whose corner coordinates are
finite `float` values), `getLayerBounds` returns bounds whose `x_min` is, in each of x and
y, the least lower-corner coordinate (block origin) over the allocated blocks, whose `x_max`
is the greatest upper-corner coordinate (origin plus block size), and whose `dims` is
`(x_max - x_min) / voxel_size`. -/
theorem C6_layer_bounds_are_exact (layer : Layer T)
    (hne : layer.getAllAllocatedBlocks ≠ [])
    (hfloat : ∀ block ∈ layer.allocatedBlockList,
      inFloatRange block.origin.x ∧ inFloatRange block.origin.y ∧
      inFloatRange (block.origin.x + block.block_size) ∧
      inFloatRange (block.origin.y + block.block_size)) :
    ∃ bounds, getLayerBounds layer = some bounds ∧
      IsLeast {q | ∃ block ∈ layer.allocatedBlockList, q = block.origin.x} bounds.x_min.x ∧
      IsLeast {q | ∃ block ∈ layer.allocatedBlockList, q = block.origin.y} bounds.x_min.y ∧
      IsGreatest {q | ∃ block ∈ layer.allocatedBlockList, q = block.origin.x + block.block_size}
        bounds.x_max.x ∧
      IsGreatest {q | ∃ block ∈ layer.allocatedBlockList, q = block.origin.y + block.block_size}
        bounds.x_max.y ∧
      bounds.dims = ⟨(bounds.x_max.x - bounds.x_min.x) / layer.voxel_size,
                     (bounds.x_max.y - bounds.x_min.y) / layer.voxel_size⟩ := by
  refine ⟨_, getLayerBounds_eq layer, ?_, ?_, ?_, ?_, rfl⟩
  all_goals
    obtain ⟨c1, c2, c3, c4⟩ := extend_fold_components layer.allocatedBlockList Bounds.init
    obtain ⟨k, hk⟩ := List.exists_mem_of_ne_nil _ hne
    obtain ⟨blk0, hblk0⟩ := getBlockPtrByIndex_of_mem layer k hk
    have hmem0 : blk0 ∈ layer.allocatedBlockList :=
      List.mem_filterMap.2 ⟨k, hk, hblk0⟩
  · show IsLeast _ (layer.allocatedBlockList.foldl Bounds.extend Bounds.init).x_min.x
    rw [c1]
    obtain ⟨-, h2, h3⟩ := foldl_min_spec (fun blk : Block T => blk.origin.x)
      layer.allocatedBlockList Bounds.init.x_min.x
    refine ⟨?_, fun q ⟨blk, hb, hq⟩ => hq ▸ h2 blk hb⟩
    rcases h3 with h3 | ⟨blk, hb, h3⟩
    · exact ⟨blk0, hmem0, le_antisymm (h2 blk0 hmem0) (by rw [h3]; exact (hfloat blk0 hmem0).1.2)⟩
    · exact ⟨blk, hb, h3⟩
  · show IsLeast _ (layer.allocatedBlockList.foldl Bounds.extend Bounds.init).x_min.y
    rw [c2]
    obtain ⟨-, h2, h3⟩ := foldl_min_spec (fun blk : Block T => blk.origin.y)
      layer.allocatedBlockList Bounds.init.x_min.y
    refine ⟨?_, fun q ⟨blk, hb, hq⟩ => hq ▸ h2 blk hb⟩
    rcases h3 with h3 | ⟨blk, hb, h3⟩
    · exact ⟨blk0, hmem0, le_antisymm (h2 blk0 hmem0) (by rw [h3]; exact (hfloat blk0 hmem0).2.1.2)⟩
    · exact ⟨blk, hb, h3⟩
  · show IsGreatest _ (layer.allocatedBlockList.foldl Bounds.extend Bounds.init).x_max.x
    rw [c3]
    obtain ⟨-, h2, h3⟩ := foldl_max_spec (fun blk : Block T => blk.origin.x + blk.block_size)
      layer.allocatedBlockList Bounds.init.x_max.x
    refine ⟨?_, fun q ⟨blk, hb, hq⟩ => hq ▸ h2 blk hb⟩
    rcases h3 with h3 | ⟨blk, hb, h3⟩
    · exact ⟨blk0, hmem0, le_antisymm (by rw [h3]; exact (hfloat blk0 hmem0).2.2.1.1) (h2 blk0 hmem0)⟩
    · exact ⟨blk, hb, h3⟩
  · show IsGreatest _ (layer.allocatedBlockList.foldl Bounds.extend Bounds.init).x_max.y
    rw [c4]
    obtain ⟨-, h2, h3⟩ := foldl_max_spec (fun blk : Block T => blk.origin.y + blk.block_size)
      layer.allocatedBlockList Bounds.init.x_max.y
    refine ⟨?_, fun q ⟨blk, hb, hq⟩ => hq ▸ h2 blk hb⟩
    rcases h3 with h3 | ⟨blk, hb, h3⟩
    · exact ⟨blk0, hmem0, le_antisymm (by rw [h3]; exact (hfloat blk0 hmem0).2.2.2.1) (h2 blk0 hmem0)⟩
    · exact ⟨blk, hb, h3⟩

/-- Witness of C6 on the layer of the end-to-end scenario: the bounds are the square from
`(0, 0)` to `(2, 2)` with two cells per side. -/
theorem C6_layer_bounds_are_exact_witness :
    scenarioLayer.getAllAllocatedBlocks ≠ [] ∧
    (∀ block ∈ scenarioLayer.allocatedBlockList,
      inFloatRange block.origin.x ∧ inFloatRange block.origin.y ∧
      inFloatRange (block.origin.x + block.block_size) ∧
      inFloatRange (block.origin.y + block.block_size)) ∧
    getLayerBounds scenarioLayer = some ⟨⟨0, 0⟩, ⟨2, 2⟩, ⟨2, 2⟩⟩ ∧
    ∃ bounds, getLayerBounds scenarioLayer = some bounds ∧
      IsLeast {q | ∃ block ∈ scenarioLayer.allocatedBlockList, q = block.origin.x}
        bounds.x_min.x ∧
      IsLeast {q | ∃ block ∈ scenarioLayer.allocatedBlockList, q = block.origin.y}
        bounds.x_min.y ∧
      IsGreatest
        {q | ∃ block ∈ scenarioLayer.allocatedBlockList, q = block.origin.x + block.block_size}
        bounds.x_max.x ∧
      IsGreatest
        {q | ∃ block ∈ scenarioLayer.allocatedBlockList, q = block.origin.y + block.block_size}
        bounds.x_max.y ∧
      bounds.dims = ⟨(bounds.x_max.x - bounds.x_min.x) / scenarioLayer.voxel_size,
                     (bounds.x_max.y - bounds.x_min.y) / scenarioLayer.voxel_size⟩ :=
  ⟨by decide!, by decide!, by decide!,
    C6_layer_bounds_are_exact scenarioLayer (by decide!) (by decide!)⟩

/-! ## Claims on the grid set-up -/

/-- What `initGrid` does to a message without cells when the two cell counts fit 32 bits and
their product does too: the metadata is set from the bounds and the cell array has
`width * height` cells, all `-1`. -/
theorem initGrid_of_fits (layer : Layer T) (bounds : Bounds) (height : ℚ) (msg : OccupancyGrid)
    (hdata : msg.data = [])
    (hx : 0 ≤ ⌈bounds.dims.x⌉ ∧ ⌈bounds.dims.x⌉ < 2 ^ 32)
    (hy : 0 ≤ ⌈bounds.dims.y⌉ ∧ ⌈bounds.dims.y⌉ < 2 ^ 32)
    (hprod : ⌈bounds.dims.x⌉.toNat * ⌈bounds.dims.y⌉.toNat < 2 ^ 32) :
    ∃ g, initGrid layer bounds height msg = some g ∧
      g.header = msg.header ∧
      g.info.map_load_time = msg.info.map_load_time ∧
      g.info.resolution = layer.voxel_size ∧
      g.info.width = ⌈bounds.dims.x⌉.toNat ∧
      g.info.height = ⌈bounds.dims.y⌉.toNat ∧
      g.info.origin.position = ⟨bounds.x_min.x, bounds.x_min.y, height⟩ ∧
      g.info.origin.orientation = { msg.info.origin.orientation with w := 1 } ∧
      g.data = List.replicate (⌈bounds.dims.x⌉.toNat * ⌈bounds.dims.y⌉.toNat) (-1) := by
  unfold initGrid toUInt32
  rw [if_pos hx, if_pos hy]
  simp only [Option.some_bind]
  refine ⟨_, rfl, rfl, rfl, rfl, rfl, rfl, rfl, rfl, ?_⟩
  simp only [resize, hdata, List.take_nil, List.nil_append, List.length_nil, Nat.sub_zero,
    Nat.mod_eq_of_lt hprod]

/-- Claim C7, evaluated at bounds with `dims = (65536, 65536)` (those of `wideLayer`):
`initGrid` sets width and height to 65536 but the product `width * height`, computed in
32 bits, wraps to 0, so the cell array is empty instead of holding `width * height` cells;
the first write of the slice projector is then outside the array and `fillOccupancy` has no
defined result. -/
theorem C7_initGrid_cell_count_wraps :
    getLayerBounds wideLayer = some wideBounds ∧
    (initGrid wideLayer wideBounds 0 OccupancyGrid.fresh).map
      (fun g => (g.info.width, g.info.height, g.data.length)) = some (65536, 65536, 0) ∧
    (65536 * 65536 : Nat) ≠ 0 ∧
    fillOccupancy scenarioConfig wideLayer Isometry3.identity OccupancyGrid.fresh = none := by
  refine ⟨by decide!, by decide!, by decide!, by decide!⟩

/-! ## The visits of a pass -/

theorem slice_eq_passStep [VoxelKind T] (config : OccupancyPublisher.Config)
    (layer : Layer T) (world_T_sensor : Isometry3) (bounds : Bounds) (height : ℚ)
    (msg : OccupancyGrid) :
    fillOccupancySlice config layer world_T_sensor bounds height msg =
      (sliceVisits layer height).foldlM (passStep config layer world_T_sensor bounds) msg :=
  fillOccupancySlice_eq_visits config layer world_T_sensor bounds height msg

/-- Slices `lo .. lo + n - 1` run on a grid are the fold of the loop body over their
visits. -/
theorem slices_fold [VoxelKind T] (config : OccupancyPublisher.Config) (layer : Layer T)
    (world_T_sensor : Isometry3) (bounds : Bounds) (lo n : Nat) (msg : OccupancyGrid) :
    (List.range' lo n).foldlM (fun m (i : Nat) =>
      fillOccupancySlice config layer world_T_sensor bounds
        (sliceHeight config layer world_T_sensor i) m) msg =
      (slicesVisits config layer world_T_sensor lo n).foldlM
        (passStep config layer world_T_sensor bounds) msg := by
  unfold slicesVisits
  rw [foldlM_flatMap]
  apply foldlM_congr_mem
  intro c i _
  exact slice_eq_passStep config layer world_T_sensor bounds _ c

theorem runSlices_eq_visits [VoxelKind T] (config : OccupancyPublisher.Config)
    (layer : Layer T) (world_T_sensor : Isometry3) (bounds : Bounds) (n : Nat)
    (msg : OccupancyGrid) :
    runSlices config layer world_T_sensor bounds n msg =
      (slicesVisits config layer world_T_sensor 0 n).foldlM
        (passStep config layer world_T_sensor bounds) msg := by
  unfold runSlices
  rw [List.range_eq_range']
  exact slices_fold config layer world_T_sensor bounds 0 n msg

/-- Running `a + b` slices is running `a` slices and then the `b` slices from `a` on. -/
theorem runSlices_add [VoxelKind T] (config : OccupancyPublisher.Config)
    (layer : Layer T) (world_T_sensor : Isometry3) (bounds : Bounds) (a b : Nat)
    (msg : OccupancyGrid) :
    runSlices config layer world_T_sensor bounds (a + b) msg =
      (runSlices config layer world_T_sensor bounds a msg).bind fun m =>
        (slicesVisits config layer world_T_sensor a b).foldlM
          (passStep config layer world_T_sensor bounds) m := by
  rw [runSlices_eq_visits, runSlices_eq_visits]
  have hsplit : slicesVisits config layer world_T_sensor 0 (a + b) =
      slicesVisits config layer world_T_sensor 0 a ++
        slicesVisits config layer world_T_sensor a b := by
    unfold slicesVisits
    rw [← List.flatMap_append]
    congr 1
    have := List.range'_append 0 a b 1
    simp only [Nat.zero_add, Nat.one_mul] at this
    rw [this, Nat.add_comm]
  rw [hsplit, List.foldlM_append]
  rfl

theorem cellIndex_congr (layer : Layer T) (bounds : Bounds) (m g : OccupancyGrid)
    (block : Block T) (voxel_index : Index3) (h : m.info = g.info) :
    cellIndex layer bounds m block voxel_index = cellIndex layer bounds g block voxel_index := by
  unfold cellIndex
  rw [h]

theorem passStep_frame [VoxelKind T] (config : OccupancyPublisher.Config) (layer : Layer T)
    (world_T_sensor : Isometry3) (bounds : Bounds) (m r : OccupancyGrid)
    (v : Block T × Index3) (h : passStep config layer world_T_sensor bounds m v = some r) :
    r.info = m.info ∧ r.header = m.header ∧ r.data.length = m.data.length := by
  obtain ⟨voxel, index, old, -, -, -, rfl⟩ :=
    visit_eq_withCell config layer _ bounds v.1 v.2 m r h
  exact ⟨rfl, rfl, by simp [OccupancyGrid.withCell]⟩

/-- A property of the value of one cell that every visit to the cell preserves holds
after a run of visits when it held before. -/
theorem visits_cell_invariant [VoxelKind T] (config : OccupancyPublisher.Config)
    (layer : Layer T) (world_T_sensor : Isometry3) (bounds : Bounds) (g : OccupancyGrid)
    (k : Nat) (P : Int → Prop) (l : List (Block T × Index3))
    (hstep : ∀ v ∈ l, ∀ voxel old, v.1.getVoxelByVoxelIndex v.2 = some voxel →
      toSizeT (cellIndex layer bounds g v.1 v.2) = some k → P old →
      P (cellRule (inFootprint config world_T_sensor.inverse v.1 v.2)
        (VoxelKind.isObserved voxel config.min_observation_weight)
        (decide (VoxelKind.getDistance voxel < config.min_distance)) old)) :
    ∀ m r, m.info = g.info → (∃ c, m.data[k]? = some c ∧ P c) →
      l.foldlM (passStep config layer world_T_sensor bounds) m = some r →
      r.info = g.info ∧ ∃ c, r.data[k]? = some c ∧ P c := by
  intro m r hinfo hc hfold
  have key := foldlM_option_preserves
    (fun x : OccupancyGrid => x.info = g.info ∧ ∃ c, x.data[k]? = some c ∧ P c)
    (passStep config layer world_T_sensor bounds) l
    (fun b v r1 hv hb hr1 => by
      obtain ⟨hbi, c, hbc, hPc⟩ := hb
      obtain ⟨voxel, index, old, h1, h2, h3, rfl⟩ :=
        visit_eq_withCell config layer _ bounds v.1 v.2 b r1 hr1
      refine ⟨hbi, ?_⟩
      rw [cellIndex_congr layer bounds b g v.1 v.2 hbi] at h2
      by_cases hik : index = k
      · subst hik
        rw [h3] at hbc
        have hco : old = c := Option.some.inj hbc
        subst hco
        refine ⟨_, ?_, hstep v hv voxel old h1 h2 hPc⟩
        simp only [OccupancyGrid.withCell]
        exact List.getElem?_set_self (List.getElem?_eq_some_iff.1 h3).1
      · refine ⟨c, ?_, hPc⟩
        simp only [OccupancyGrid.withCell]
        rw [List.getElem?_set_ne hik]
        exact hbc)
    m r ⟨hinfo, hc⟩ hfold
  exact key

theorem cleanup_cell (m : OccupancyGrid) (k : Nat) :
    (cleanup m).data[k]? = (m.data[k]?).map fun c => if c = -2 then -1 else c := by
  simp [cleanup]

/-! ## Claims on the footprint -/

theorem visits_frame [VoxelKind T] (config : OccupancyPublisher.Config) (layer : Layer T)
    (world_T_sensor : Isometry3) (bounds : Bounds) (l : List (Block T × Index3))
    (m r : OccupancyGrid)
    (h : l.foldlM (passStep config layer world_T_sensor bounds) m = some r) :
    r.info = m.info :=
  foldlM_option_preserves (fun x : OccupancyGrid => x.info = m.info)
    (passStep config layer world_T_sensor bounds) l
    (fun b v r1 _ hb hr1 =>
      (passStep_frame config layer world_T_sensor bounds b r1 v hr1).1.trans hb)
    m r rfl h

theorem fold_split {α γ : Type} (f : γ → α → Option γ) (pre post : List α) (a : α) (c r : γ)
    (h : (pre ++ a :: post).foldlM f c = some r) :
    ∃ c1 c2, pre.foldlM f c = some c1 ∧ f c1 a = some c2 ∧ post.foldlM f c2 = some r := by
  rw [List.foldlM_append] at h
  cases h1 : pre.foldlM f c with
  | none => rw [h1] at h; simp at h
  | some c1 =>
    rw [h1] at h
    simp only [Option.bind_eq_bind, Option.some_bind, List.foldlM_cons] at h
    cases h2 : f c1 a with
    | none => rw [h2] at h; simp at h
    | some c2 =>
      rw [h2] at h
      exact ⟨c1, c2, rfl, h2, by simpa using h⟩

theorem cellRule_footprint (observed occupied : Bool) (old : Int) :
    cellRule true observed occupied old = 0 := rfl

theorem freeCandidate_spec [VoxelKind T] (config : OccupancyPublisher.Config)
    (sensor_T_world : Isometry3) (block : Block T) (voxel_index : Index3) (voxel : T)
    (hf : freeCandidate config sensor_T_world block voxel_index = true)
    (hv : block.getVoxelByVoxelIndex voxel_index = some voxel) :
    inFootprint config sensor_T_world block voxel_index = false ∧
      VoxelKind.isObserved voxel config.min_observation_weight = true ∧
      decide (VoxelKind.getDistance voxel < config.min_distance) = false := by
  unfold freeCandidate at hf
  rw [hv] at hf
  simp only [Bool.and_eq_true, Bool.not_eq_true', decide_eq_false_iff_not] at hf
  refine ⟨hf.1, hf.2.1, ?_⟩
  simpa using hf.2.2

/-- A free candidate leaves a cell that holds anything but `-1` as it is. -/
theorem cellRule_free_candidate (old : Int) (h : old ≠ -1) :
    cellRule false true false old = old := by
  unfold cellRule
  simp [h]

/-- Counterexample to C8 as stated: with masking enabled (`lowFootprintConfig`), the voxel
`(0, 0, 0)` of `stackedBlock` is visited by slice 0 and lies inside the footprint box, its
cell is cell 0, yet the finished grid holds 100 there, because the occupied voxel
`(0, 0, 1)`, visited by slice 1 at the same row and column, lies outside the box. -/
theorem C8_footprint_cell_overwritten_by_later_slice :
    lowFootprintConfig.add_robot_footprint = true ∧
    (stackedBlock, (⟨0, 0, 0⟩ : Index3)) ∈
      slicesVisits lowFootprintConfig stackedLayer Isometry3.identity 0
        lowFootprintConfig.num_slices ∧
    inFootprint lowFootprintConfig Isometry3.identity.inverse stackedBlock ⟨0, 0, 0⟩ = true ∧
    fillOccupancy lowFootprintConfig stackedLayer Isometry3.identity OccupancyGrid.fresh =
      some (scenarioGridWith [100, -1, -1, -1]) ∧
    toSizeT (cellIndex stackedLayer scenarioBounds (scenarioGridWith [100, -1, -1, -1])
      stackedBlock ⟨0, 0, 0⟩) = some 0 ∧
    (scenarioGridWith [100, -1, -1, -1]).data[0]? ≠ some 0 := by
  refine ⟨by decide!, by decide!, by decide!, by decide!, by decide!, by decide!⟩

/-- Claim C8, amended. With footprint masking enabled, a visited voxel whose sensor-frame
position lies inside the footprint box sets its cell to `0` when it is processed, whatever
the cell held (so also when an earlier slice marked it occupied) and whatever the
observation and distance values of the voxel; and the cell is `0` in the finished grid
provided every voxel processed later in the pass that maps to the same cell is inside the
footprint box too or is a free candidate. -/
theorem C8_footprint_cell_free_until_overwritten [VoxelKind T]
    (config : OccupancyPublisher.Config) (layer : Layer T) (world_T_sensor : Isometry3)
    (msg g : OccupancyGrid) (bounds : Bounds) (pre post : List (Block T × Index3))
    (v : Block T × Index3) (k : Nat)
    (hb : getLayerBounds layer = some bounds)
    (hfill : fillOccupancy config layer world_T_sensor msg = some g)
    (hsplit : slicesVisits config layer world_T_sensor 0 config.num_slices = pre ++ v :: post)
    (hin : inFootprint config world_T_sensor.inverse v.1 v.2 = true)
    (hk : toSizeT (cellIndex layer bounds g v.1 v.2) = some k)
    (hpost : ∀ u ∈ post, toSizeT (cellIndex layer bounds g u.1 u.2) = some k →
      inFootprint config world_T_sensor.inverse u.1 u.2 = true ∨
      freeCandidate config world_T_sensor.inverse u.1 u.2 = true) :
    (∀ m r j, passStep config layer world_T_sensor bounds m v = some r →
      toSizeT (cellIndex layer bounds m v.1 v.2) = some j → r.data[j]? = some 0) ∧
    g.data[k]? = some 0 := by
  have hstepv : ∀ m r j, passStep config layer world_T_sensor bounds m v = some r →
      toSizeT (cellIndex layer bounds m v.1 v.2) = some j → r.data[j]? = some 0 := by
    intro m r j hr hj
    obtain ⟨voxel, index, old, -, h2, h3, rfl⟩ :=
      visit_eq_withCell config layer _ bounds v.1 v.2 m r hr
    rw [hj] at h2
    have hji : j = index := Option.some.inj h2
    subst hji
    rw [hin, cellRule_footprint]
    simp only [OccupancyGrid.withCell]
    exact List.getElem?_set_self (List.getElem?_eq_some_iff.1 h3).1
  refine ⟨hstepv, ?_⟩
  obtain ⟨bounds1, m0, m1, hb1, -, hr, rfl⟩ :=
    fillOccupancy_stages config layer world_T_sensor msg g hfill
  rw [hb] at hb1
  have hbb : bounds = bounds1 := Option.some.inj hb1
  subst hbb
  rw [runSlices_eq_visits, hsplit] at hr
  obtain ⟨ma, mb, -, hv, hpostfold⟩ := fold_split _ pre post v m0 m1 hr
  have hinfo1 : m1.info = mb.info :=
    visits_frame config layer world_T_sensor bounds post mb m1 hpostfold
  have hinfob : mb.info = ma.info :=
    (passStep_frame config layer world_T_sensor bounds ma mb v hv).1
  have hginfo : (cleanup m1).info = m1.info := rfl
  have hka : toSizeT (cellIndex layer bounds ma v.1 v.2) = some k := by
    rw [cellIndex_congr layer bounds ma (cleanup m1) v.1 v.2
      (hinfob.symm.trans (hinfo1.symm.trans hginfo.symm))]
    exact hk
  have hbk : mb.data[k]? = some 0 := hstepv ma mb k hv hka
  obtain ⟨-, c, hc, hc0⟩ := visits_cell_invariant config layer world_T_sensor bounds
    (cleanup m1) k (fun c => c = 0) post
    (fun u hu voxel old hvox hidx hold => by
      rcases hpost u hu hidx with h | h
      · rw [h, cellRule_footprint]
      · obtain ⟨f1, f2, f3⟩ := freeCandidate_spec config _ u.1 u.2 voxel h hvox
        rw [f1, f2, f3, hold]
        rfl)
    mb m1 (hinfo1.symm.trans hginfo.symm) ⟨0, hbk, rfl⟩ hpostfold
  rw [cleanup_cell, hc, hc0]
  rfl

/-- Witness of the amended C8: the lower voxel of `stackedBlock` marks cell 0 occupied in
slice 0, the upper voxel lies inside the footprint box of `highFootprintConfig` and is
processed in slice 1, and the finished grid holds 0 in cell 0. -/
theorem C8_footprint_cell_free_until_overwritten_witness :
    fillOccupancy highFootprintConfig stackedLayer Isometry3.identity OccupancyGrid.fresh =
      some (scenarioGridWith [0, -1, -1, -1]) ∧
    runSlices highFootprintConfig stackedLayer Isometry3.identity scenarioBounds 1
      (scenarioGridWith [-1, -1, -1, -1]) = some (scenarioGridWith [100, -2, -2, -2]) ∧
    inFootprint highFootprintConfig Isometry3.identity.inverse stackedBlock ⟨0, 0, 1⟩ = true ∧
    (scenarioGridWith [0, -1, -1, -1]).data[0]? = some 0 :=
  ⟨by decide!, by decide!, by decide!,
    (C8_footprint_cell_free_until_overwritten highFootprintConfig stackedLayer
      Isometry3.identity OccupancyGrid.fresh (scenarioGridWith [0, -1, -1, -1]) scenarioBounds
      [(stackedBlock, ⟨0, 0, 0⟩), (stackedBlock, ⟨0, 1, 0⟩), (stackedBlock, ⟨1, 0, 0⟩),
        (stackedBlock, ⟨1, 1, 0⟩)]
      [(stackedBlock, ⟨0, 1, 1⟩), (stackedBlock, ⟨1, 0, 1⟩), (stackedBlock, ⟨1, 1, 1⟩)]
      (stackedBlock, ⟨0, 0, 1⟩) 0 (by decide!) (by decide!) (by decide!) (by decide!)
      (by decide!) (by decide!)).2⟩

/-! ## Claims on the first-touch rule -/

/-- Claim C9. (1) Processing a free candidate (outside the footprint, passing the observation
test, distance not below `min_distance`) whose cell holds `100` leaves the grid, and so the
cell, as it is. (2) Across the slices of a pass: when a cell holds `100` after slice `i` and
the voxels of the slices `i + 1, ..., j` that map to this cell are free candidates, the cell
holds `100` after slice `j`. -/
theorem C9_free_candidate_keeps_occupied [VoxelKind T] (config : OccupancyPublisher.Config)
    (layer : Layer T) (world_T_sensor : Isometry3) (bounds : Bounds) :
    (∀ (m : OccupancyGrid) (block : Block T) (voxel_index : Index3) (k : Nat),
      freeCandidate config world_T_sensor.inverse block voxel_index = true →
      toSizeT (cellIndex layer bounds m block voxel_index) = some k →
      m.data[k]? = some 100 →
      fillOccupancySlice.visit config layer world_T_sensor.inverse bounds block voxel_index m =
        some m) ∧
    (∀ (i j k : Nat) (g0 gi gj : OccupancyGrid), i < j →
      runSlices config layer world_T_sensor bounds (i + 1) g0 = some gi →
      gi.data[k]? = some 100 →
      runSlices config layer world_T_sensor bounds (j + 1) g0 = some gj →
      (∀ v ∈ slicesVisits config layer world_T_sensor (i + 1) (j - i),
        toSizeT (cellIndex layer bounds g0 v.1 v.2) = some k →
        freeCandidate config world_T_sensor.inverse v.1 v.2 = true) →
      gj.data[k]? = some 100) := by
  constructor
  · intro m block voxel_index k hfree hk hcell
    cases hv : block.getVoxelByVoxelIndex voxel_index with
    | none =>
      unfold freeCandidate at hfree
      rw [hv] at hfree
      simp at hfree
    | some voxel =>
      obtain ⟨f1, f2, f3⟩ := freeCandidate_spec config _ block voxel_index voxel hfree hv
      rw [visit_of_inputs config layer _ bounds block voxel_index m voxel k 100 hv hk hcell,
        f1, f2, f3, cellRule_free_candidate 100 (by decide)]
      simp only [OccupancyGrid.withCell]
      rw [set_getElem?_self m.data k 100 hcell]
  · intro i j k g0 gi gj hij hi hcell hj hfree
    have hsum : j + 1 = (i + 1) + (j - i) := by omega
    rw [hsum, runSlices_add, hi, Option.some_bind] at hj
    have hinfo : gi.info = g0.info := by
      rw [runSlices_eq_visits] at hi
      exact visits_frame config layer world_T_sensor bounds _ g0 gi hi
    obtain ⟨-, c, hc, hc100⟩ := visits_cell_invariant config layer world_T_sensor bounds g0 k
      (fun c => c = 100) (slicesVisits config layer world_T_sensor (i + 1) (j - i))
      (fun v hv voxel old hvox hidx hold => by
        obtain ⟨f1, f2, f3⟩ :=
          freeCandidate_spec config _ v.1 v.2 voxel (hfree v hv hidx) hvox
        rw [f1, f2, f3, hold]
        rfl)
      gi gj hinfo ⟨100, hcell, rfl⟩ hj
    rw [hc, hc100]

/-- Witness of C9: in `stackedFreeLayer` the lower voxel marks cell 0 occupied in slice 0 and
the upper voxel, a free candidate, is processed in slice 1; cell 0 holds 100 after both. -/
theorem C9_free_candidate_keeps_occupied_witness :
    (0 : Nat) < 1 ∧
    runSlices twoSliceConfig stackedFreeLayer Isometry3.identity scenarioBounds (0 + 1)
      (scenarioGridWith [-1, -1, -1, -1]) = some (scenarioGridWith [100, -2, -2, -2]) ∧
    freeCandidate twoSliceConfig Isometry3.identity.inverse stackedFreeBlock ⟨0, 0, 1⟩ = true ∧
    (stackedFreeBlock, (⟨0, 0, 1⟩ : Index3)) ∈
      slicesVisits twoSliceConfig stackedFreeLayer Isometry3.identity (0 + 1) (1 - 0) ∧
    runSlices twoSliceConfig stackedFreeLayer Isometry3.identity scenarioBounds (1 + 1)
      (scenarioGridWith [-1, -1, -1, -1]) = some (scenarioGridWith [100, -2, -2, -2]) ∧
    (scenarioGridWith [100, -2, -2, -2]).data[0]? = some 100 :=
  ⟨by decide, by decide!, by decide!, by decide!, by decide!,
    (C9_free_candidate_keeps_occupied twoSliceConfig stackedFreeLayer Isometry3.identity
      scenarioBounds).2 0 1 0 (scenarioGridWith [-1, -1, -1, -1])
      (scenarioGridWith [100, -2, -2, -2]) (scenarioGridWith [100, -2, -2, -2])
      (by decide) (by decide!) (by decide!) (by decide!) (by decide!)⟩

/-! ## Claims on the consumer gate -/

theorem publishLayer_no_subscribers [VoxelKind T] (self : OccupancyPublisher)
    (map_frame : String) (timestamp_ns : Nat) (world_T_sensor : Isometry3) (layer : Layer T) :
    self.publishLayer 0 map_frame timestamp_ns world_T_sensor layer = some self := by
  unfold OccupancyPublisher.publishLayer
  simp

/-- Counterexample to C10 as stated: a newly constructed TSDF publisher with collation on has
no collated layer; a call with zero active consumers creates the collated layer and merges
the input into it. -/
theorem C10_collation_runs_without_consumers :
    collatingPublisher.config.collate = true ∧
    collatingPublisher.tsdf_ = none ∧
    collatingPublisher.call 0 "map" 0 Isometry3.identity scenarioLayer =
      some { collatingPublisher with tsdf_ := some scenarioCollatedOnce } ∧
    (some scenarioCollatedOnce : Option (Layer TsdfVoxel)) ≠ collatingPublisher.tsdf_ := by
  refine ⟨by decide!, by decide!, by decide!, by decide!⟩

/-- Claim C10, amended. With zero active consumers, a call of either publisher publishes
nothing and builds no grid: with collation off the publisher is left exactly as it was; with
collation on the only effect is that the collated layer is created when absent and the input
layer is merged into it. In both cases the sink and the configuration are unchanged. -/
theorem C10_no_consumers_skips_projection (tsdf_pub : TsdfOccupancyPublisher)
    (gvd_pub : GvdOccupancyPublisher) (map_frame : String) (timestamp_ns : Nat)
    (world_T_sensor : Isometry3) (tsdf : Layer TsdfVoxel) (gvd : Layer GvdVoxel) :
    tsdf_pub.call 0 map_frame timestamp_ns world_T_sensor tsdf =
      (if tsdf_pub.config.collate then
        ((collatedOrNew tsdf_pub.tsdf_ tsdf).bind fun store =>
          collate tsdf store tsdf_pub.config.extraction.min_observation_weight).map
            fun store => { tsdf_pub with tsdf_ := some store }
      else some tsdf_pub) ∧
    gvd_pub.call 0 map_frame timestamp_ns world_T_sensor gvd =
      (if gvd_pub.config.collate then
        ((collatedOrNew gvd_pub.gvd_ gvd).bind fun store =>
          collate gvd store gvd_pub.config.extraction.min_observation_weight).map
            fun store => { gvd_pub with gvd_ := some store }
      else some gvd_pub) ∧
    (tsdf_pub.call 0 map_frame timestamp_ns world_T_sensor tsdf).map
        (fun r => (r.pub_, r.config)) =
      (tsdf_pub.call 0 map_frame timestamp_ns world_T_sensor tsdf).map
        (fun _ => (tsdf_pub.pub_, tsdf_pub.config)) ∧
    (gvd_pub.call 0 map_frame timestamp_ns world_T_sensor gvd).map
        (fun r => (r.pub_, r.config)) =
      (gvd_pub.call 0 map_frame timestamp_ns world_T_sensor gvd).map
        (fun _ => (gvd_pub.pub_, gvd_pub.config)) := by
  have ht : tsdf_pub.call 0 map_frame timestamp_ns world_T_sensor tsdf =
      (if tsdf_pub.config.collate then
        ((collatedOrNew tsdf_pub.tsdf_ tsdf).bind fun store =>
          collate tsdf store tsdf_pub.config.extraction.min_observation_weight).map
            fun store => { tsdf_pub with tsdf_ := some store }
      else some tsdf_pub) := by
    unfold TsdfOccupancyPublisher.call OccupancyPublisher.publishTsdf
    cases hc : tsdf_pub.config.collate with
    | false => simp [publishLayer_no_subscribers]
    | true =>
      simp only [Bool.not_true, Bool.false_eq_true, if_false, if_true,
        publishLayer_no_subscribers, Option.map_some']
      cases collatedOrNew tsdf_pub.tsdf_ tsdf with
      | none => rfl
      | some store =>
        simp only [Option.some_bind]
        cases collate tsdf store tsdf_pub.config.extraction.min_observation_weight <;> rfl
  have hg : gvd_pub.call 0 map_frame timestamp_ns world_T_sensor gvd =
      (if gvd_pub.config.collate then
        ((collatedOrNew gvd_pub.gvd_ gvd).bind fun store =>
          collate gvd store gvd_pub.config.extraction.min_observation_weight).map
            fun store => { gvd_pub with gvd_ := some store }
      else some gvd_pub) := by
    unfold GvdOccupancyPublisher.call OccupancyPublisher.publishGvd
    cases hc : gvd_pub.config.collate with
    | false => simp [publishLayer_no_subscribers]
    | true =>
      simp only [Bool.not_true, Bool.false_eq_true, if_false, if_true,
        publishLayer_no_subscribers, Option.map_some']
      cases collatedOrNew gvd_pub.gvd_ gvd with
      | none => rfl
      | some store =>
        simp only [Option.some_bind]
        cases collate gvd store gvd_pub.config.extraction.min_observation_weight <;> rfl
  refine ⟨ht, hg, ?_, ?_⟩
  · rw [ht]
    cases tsdf_pub.config.collate with
    | false => rfl
    | true =>
      simp only [if_true]
      cases (collatedOrNew tsdf_pub.tsdf_ tsdf).bind fun store =>
        collate tsdf store tsdf_pub.config.extraction.min_observation_weight <;> rfl
  · rw [hg]
    cases gvd_pub.config.collate with
    | false => rfl
    | true =>
      simp only [if_true]
      cases (collatedOrNew gvd_pub.gvd_ gvd).bind fun store =>
        collate gvd store gvd_pub.config.extraction.min_observation_weight <;> rfl

/-! ## Collation on well-formed layers -/

theorem lookup_mem_blocks (l : Layer T) (idx : Index3) (b : Block T)
    (h : l.getBlockPtrByIndex idx = some b) : ∃ kv ∈ l.blocks, kv.2 = b := by
  unfold Layer.getBlockPtrByIndex at h
  cases hf : l.blocks.find? (fun e => decide (e.1 = idx)) with
  | none => rw [hf] at h; simp at h
  | some e =>
    rw [hf] at h
    exact ⟨e, List.mem_of_find?_eq_some hf, Option.some.inj h⟩

theorem scan_total [VoxelKind T] (block : Block T) (w : ℚ)
    (hwf : block.voxels.length = block.num_voxels) (l : List Nat)
    (hl : ∀ i ∈ l, i < block.num_voxels) : ∃ r, collate.scan block w l = some r := by
  induction l with
  | nil => exact ⟨true, rfl⟩
  | cons i rest ih =>
    have hi : i < block.num_voxels := hl i (List.mem_cons_self _ _)
    obtain ⟨voxel, hread⟩ : ∃ voxel, block.getVoxelByLinearIndex i = some voxel := by
      unfold Block.getVoxelByLinearIndex
      rw [if_pos hi]
      exact ⟨_, List.getElem?_eq_getElem (hwf ▸ hi)⟩
    unfold collate.scan
    rw [hread, Option.some_bind]
    split_ifs
    · exact ⟨false, rfl⟩
    · exact ih (fun j hj => hl j (List.mem_cons_of_mem _ hj))

theorem copy_total [VoxelKind T] (block nb0 : Block T) (w : ℚ)
    (hwf : block.voxels.length = block.num_voxels)
    (hnum : nb0.num_voxels = block.num_voxels) (hlen : nb0.voxels.length = nb0.num_voxels)
    (n : Nat) (hn : n ≤ block.num_voxels) :
    ∃ r, (List.range n).foldlM (collate.copy block w) nb0 = some r := by
  induction n with
  | zero => exact ⟨nb0, rfl⟩
  | succ n ih =>
    obtain ⟨nb1, h1⟩ := ih (Nat.le_of_succ_le hn)
    obtain ⟨e1, -⟩ := copy_loop_prefix block w nb0 n nb1 h1
    have hi : n < block.num_voxels := hn
    obtain ⟨voxel, hread⟩ : ∃ voxel, block.getVoxelByLinearIndex n = some voxel := by
      unfold Block.getVoxelByLinearIndex
      rw [if_pos hi]
      exact ⟨_, List.getElem?_eq_getElem (hwf ▸ hi)⟩
    have hnum1 : nb1.num_voxels = nb0.num_voxels := by rw [e1]; rfl
    have hlen1 : nb1.voxels.length = nb0.voxels.length := by rw [e1]; simp
    rw [List.range_succ, List.foldlM_append, h1]
    simp only [Option.bind_eq_bind, Option.some_bind, List.foldlM_cons, List.foldlM_nil]
    unfold collate.copy
    rw [hread, Option.some_bind]
    split_ifs
    · unfold Block.setVoxelByLinearIndex
      have hfit : n < nb1.num_voxels ∧ n < nb1.voxels.length := by
        constructor
        · rw [hnum1, hnum]; exact hi
        · rw [hlen1, hlen, hnum]; exact hi
      rw [if_pos hfit]
      exact ⟨_, rfl⟩
    · exact ⟨_, rfl⟩

theorem mem_storeIn (idx : Index3) (b : Block T) (l : List (Index3 × Block T))
    (kv : Index3 × Block T) (h : kv ∈ Layer.storeIn idx b l) : kv ∈ l ∨ kv.2 = b := by
  induction l with
  | nil => simp [Layer.storeIn] at h
  | cons e rest ih =>
    unfold Layer.storeIn at h
    split_ifs at h
    · rcases List.mem_cons.1 h with h | h
      · right; rw [h]
      · left; exact List.mem_cons_of_mem _ h
    · rcases List.mem_cons.1 h with h | h
      · left; rw [h]; exact List.mem_cons_self _ _
      · rcases ih h with h | h
        · left; exact List.mem_cons_of_mem _ h
        · right; exact h

theorem priorBlock_wf [VoxelKind T] (l : Layer T) (idx : Index3) (h : l.WellFormed) :
    (l.priorBlock idx).voxels_per_side = l.voxels_per_side ∧
      (l.priorBlock idx).voxels.length = (l.priorBlock idx).num_voxels := by
  cases hb : l.getBlockPtrByIndex idx with
  | some b =>
    rw [priorBlock_of_some l idx b hb]
    obtain ⟨kv, hkv, rfl⟩ := lookup_mem_blocks l idx b hb
    exact h kv hkv
  | none =>
    rw [priorBlock_of_none l idx hb]
    simp [Layer.newBlock, Block.num_voxels]

theorem allocate_wf [VoxelKind T] (l : Layer T) (idx : Index3) (h : l.WellFormed) :
    (l.allocateBlockPtrByIndex idx).1.WellFormed := by
  unfold Layer.allocateBlockPtrByIndex
  cases hb : l.getBlockPtrByIndex idx with
  | some b => exact h
  | none =>
    intro kv hkv
    simp only [List.mem_append, List.mem_singleton] at hkv
    rcases hkv with hkv | hkv
    · exact h kv hkv
    · rw [hkv]
      simp [Layer.newBlock, Block.num_voxels]

/-- On well-formed layers of the same voxels per side, one iteration of the outer loop of
`collate` has a result, which is well formed again. -/
theorem collate_block_total [VoxelKind T] (layer_in : Layer T) (w : ℚ) (out : Layer T)
    (key : Index3) (hin : layer_in.WellFormed) (hout : out.WellFormed)
    (hvps : layer_in.voxels_per_side = out.voxels_per_side)
    (hkey : key ∈ layer_in.getAllAllocatedBlocks) :
    ∃ r, collate.block layer_in w out key = some r ∧ r.WellFormed ∧
      r.voxels_per_side = out.voxels_per_side := by
  obtain ⟨block, hb⟩ := getBlockPtrByIndex_of_mem layer_in key hkey
  obtain ⟨kv, hkv, rfl⟩ := lookup_mem_blocks layer_in key _ hb
  obtain ⟨bvps, blen⟩ := hin kv hkv
  obtain ⟨u, hu⟩ := scan_total kv.2 w blen (List.range kv.2.num_voxels)
    (fun i hi => List.mem_range.1 hi)
  obtain ⟨pvps, plen⟩ := priorBlock_wf out key hout
  have pnum : (out.priorBlock key).num_voxels = kv.2.num_voxels := by
    unfold Block.num_voxels
    rw [pvps, bvps, hvps]
  obtain ⟨nb, hnb⟩ := copy_total kv.2
    { out.priorBlock key with has_data := kv.2.has_data, updated := kv.2.updated } w blen
    pnum plen kv.2.num_voxels (Nat.le_refl _)
  unfold collate.block
  rw [hb, Option.some_bind, hu, Option.some_bind]
  cases u with
  | true => exact ⟨out, by simp, hout, rfl⟩
  | false =>
    simp only [Bool.false_eq_true, if_false]
    rw [allocate_snd, hnb]
    refine ⟨_, rfl, ?_, (allocate_geometry out key).2⟩
    obtain ⟨hmerge, -⟩ := copy_loop kv.2 w (out.priorBlock key) nb hnb
    intro e he
    rcases mem_storeIn key nb _ e he with h1 | h1
    · exact allocate_wf out key hout e h1
    · rw [h1, hmerge]
      constructor
      · exact pvps.trans (allocate_geometry out key).2.symm
      · show ((out.priorBlock key).voxels.mapIdx _).length = (out.priorBlock key).num_voxels
        rw [List.length_mapIdx]
        exact plen

/-- On well-formed layers of the same voxels per side, `collate` has a result, which is well
formed again: no access of the merge leaves a voxel array. -/
theorem collate_total [VoxelKind T] (layer_in layer_out : Layer T) (w : ℚ)
    (hin : layer_in.WellFormed) (hout : layer_out.WellFormed)
    (hvps : layer_in.voxels_per_side = layer_out.voxels_per_side) :
    ∃ r, collate layer_in layer_out w = some r ∧ r.WellFormed ∧
      r.voxels_per_side = layer_out.voxels_per_side := by
  unfold collate
  have key : ∀ (ks : List Index3), (∀ k ∈ ks, k ∈ layer_in.getAllAllocatedBlocks) →
      ∀ cur : Layer T, cur.WellFormed → cur.voxels_per_side = layer_out.voxels_per_side →
      ∃ r, ks.foldlM (collate.block layer_in w) cur = some r ∧ r.WellFormed ∧
        r.voxels_per_side = layer_out.voxels_per_side := by
    intro ks
    induction ks with
    | nil => intro _ cur hc hv; exact ⟨cur, rfl, hc, hv⟩
    | cons k rest ih =>
      intro hks cur hc hv
      obtain ⟨c1, h1, hw1, hv1⟩ := collate_block_total layer_in w cur k hin hc
        (hvps.trans hv.symm) (hks k (List.mem_cons_self _ _))
      rw [List.foldlM_cons, h1]
      simp only [Option.bind_eq_bind, Option.some_bind]
      exact ih (fun j hj => hks j (List.mem_cons_of_mem _ hj)) c1 hw1 (hv1.trans hv)
  exact key _ (fun k hk => hk) layer_out hout rfl

/-! ## Claims on empty layers, construction and overwriting -/

/-- On a layer without blocks (with a positive `float` voxel size) the bounds are degenerate
with negative `dims`, and `fillOccupancy` goes on to `initGrid`, where the conversion of the
negative cell count has no defined result: there is no guard that skips the grid. -/
theorem fillOccupancy_empty_layer [VoxelKind T] (config : OccupancyPublisher.Config)
    (layer : Layer T) (world_T_sensor : Isometry3) (msg : OccupancyGrid)
    (hempty : layer.blocks = []) (hvs : 0 < layer.voxel_size)
    (hfloat : layer.voxel_size ≤ FLT_MAX) :
    getLayerBounds layer = some
      { Bounds.init with dims := ⟨(-FLT_MAX - FLT_MAX) / layer.voxel_size,
                                  (-FLT_MAX - FLT_MAX) / layer.voxel_size⟩ } ∧
    fillOccupancy config layer world_T_sensor msg = none := by
  have hb : getLayerBounds layer = some
      { Bounds.init with dims := ⟨(-FLT_MAX - FLT_MAX) / layer.voxel_size,
                                  (-FLT_MAX - FLT_MAX) / layer.voxel_size⟩ } := by
    rw [getLayerBounds_eq]
    unfold Layer.allocatedBlockList Layer.getAllAllocatedBlocks
    rw [hempty]
    rfl
  refine ⟨hb, ?_⟩
  rw [fillOccupancy_eq, hb, Option.some_bind]
  have hle : (-FLT_MAX - FLT_MAX) / layer.voxel_size ≤ ((-2 : Int) : ℚ) := by
    rw [div_le_iff₀ hvs]
    push_cast
    linarith
  have hceil : ⌈(-FLT_MAX - FLT_MAX) / layer.voxel_size⌉ ≤ -2 := Int.ceil_le.2 hle
  unfold initGrid toUInt32
  simp only []
  rw [if_neg (by omega)]
  rfl

/-- Claim C11, evaluated on a layer without blocks (voxel size 1): `getLayerBounds` returns
the degenerate bounds, `fillOccupancy` does not skip grid construction but passes them to
`initGrid`, where the conversion of the negative cell count `⌈dims.x⌉` to `uint32_t` has no
defined result, and a publishing call with a consumer therefore does not return normally
either (a skipped projection would leave the publisher as it was). -/
theorem C11_empty_layer_reaches_initGrid :
    getLayerBounds (Layer.empty 1 2 : Layer TsdfVoxel) = some degenerateBounds ∧
    ⌈degenerateBounds.dims.x⌉ < 0 ∧
    initGrid (Layer.empty 1 2 : Layer TsdfVoxel) degenerateBounds 0 OccupancyGrid.fresh = none ∧
    fillOccupancy scenarioConfig (Layer.empty 1 2 : Layer TsdfVoxel) Isometry3.identity
      OccupancyGrid.fresh = none ∧
    (OccupancyPublisher.create scenarioConfig).publishTsdf 1 "map" 0 Isometry3.identity
      (Layer.empty 1 2) ≠ some (OccupancyPublisher.create scenarioConfig) := by
  refine ⟨by decide!, by decide!, by decide!, by decide!, by decide!⟩

/-- Claim C12, evaluated. The constructor of `TsdfOccupancyPublisher` stores the
configuration it is given, so its `call` collates exactly when that configuration says so.
The constructor of `GvdOccupancyPublisher` does not: the publisher keeps a
default-constructed configuration. With a default of `collate = false`, a publisher
constructed with `collate = true` projects the input layer directly and creates no collated
layer; with a default of `collate = true`, a publisher constructed with `collate = false`
creates and merges the collated layer. -/
theorem C12_gvd_constructor_drops_config :
    (∀ c, (TsdfOccupancyPublisher.create c).config = c) ∧
    (∀ d c, (GvdOccupancyPublisher.create d c).config = d) ∧
    (GvdOccupancyPublisher.create (gvdConfig false) (gvdConfig true)).call 1 "map" 0
        Isometry3.identity gvdLayer =
      some { config := gvdConfig false
             pub_ := ⟨scenarioConfig, ⟨[scenarioGridPublished]⟩⟩
             gvd_ := none } ∧
    (GvdOccupancyPublisher.create (gvdConfig true) (gvdConfig false)).call 1 "map" 0
        Isometry3.identity gvdLayer =
      some { config := gvdConfig true
             pub_ := ⟨scenarioConfig, ⟨[scenarioGridPublished]⟩⟩
             gvd_ := some gvdCollatedOnce } ∧
    (TsdfOccupancyPublisher.create ⟨"~", scenarioConfig, true⟩).call 1 "map" 0
        Isometry3.identity scenarioLayer =
      some { config := ⟨"~", scenarioConfig, true⟩
             pub_ := ⟨scenarioConfig, ⟨[scenarioGridPublished]⟩⟩
             tsdf_ := some scenarioCollatedOnce } := by
  refine ⟨fun _ => rfl, fun _ _ => rfl, by decide!, by decide!, by decide!⟩

/-- Claim C13. Merging an incoming layer without allocated blocks leaves the store exactly as
it was (same blocks in the same order, same flags, same voxels); in particular merging any
layer and then a layer without blocks gives the store of the first merge alone. -/
theorem C13_collate_empty_layer_is_identity [VoxelKind T] (layer_in store : Layer T) (w : ℚ)
    (hempty : layer_in.getAllAllocatedBlocks = []) :
    collate layer_in store w = some store ∧
    ∀ (first s0 s1 : Layer T), collate first s0 w = some s1 →
      collateAll w s0 [first, layer_in] = some s1 := by
  have h1 : ∀ s : Layer T, collate layer_in s w = some s := by
    intro s
    unfold collate
    rw [hempty]
    rfl
  refine ⟨h1 store, fun first s0 s1 h => ?_⟩
  rw [collateAll_cons, h, Option.some_bind, collateAll_cons, h1 s1]
  rfl

/-- Witness of C13: an empty store after merging `scenarioLayer` (one observed occupied
voxel) and then a layer without blocks is the store after the first merge. -/
theorem C13_collate_empty_layer_is_identity_witness :
    (Layer.empty 1 2 : Layer TsdfVoxel).getAllAllocatedBlocks = [] ∧
    collate scenarioLayer (Layer.empty 1 2) 1 = some scenarioCollatedOnce ∧
    collate (Layer.empty 1 2) scenarioCollatedOnce 1 = some scenarioCollatedOnce ∧
    collateAll 1 (Layer.empty 1 2) [scenarioLayer, Layer.empty 1 2] =
      some scenarioCollatedOnce :=
  ⟨rfl, by decide!,
    (C13_collate_empty_layer_is_identity (Layer.empty 1 2) scenarioCollatedOnce 1 rfl).1,
    (C13_collate_empty_layer_is_identity (Layer.empty 1 2) scenarioCollatedOnce 1 rfl).2
      scenarioLayer (Layer.empty 1 2) scenarioCollatedOnce (by decide!)⟩

/-- Claim C17. There are a layer and a configuration with two slices and no footprint
(`overwrittenLayer`, `twoSliceConfig`) such that after the first slice cell 0 holds 100 and
cell 1 holds 0, the unobserved voxels at the same rows and columns in the second slice
overwrite both with -2, and the finished grid reports both cells as -1. -/
theorem C17_unobserved_voxel_erases_earlier_mark :
    ∃ (config : OccupancyPublisher.Config) (layer : Layer TsdfVoxel) (bounds : Bounds)
      (g0 g1 g2 g : OccupancyGrid),
      config.num_slices = 2 ∧ config.add_robot_footprint = false ∧
      getLayerBounds layer = some bounds ∧
      initGrid layer bounds (baseHeight config Isometry3.identity) OccupancyGrid.fresh =
        some g0 ∧
      runSlices config layer Isometry3.identity bounds 1 g0 = some g1 ∧
      runSlices config layer Isometry3.identity bounds 2 g0 = some g2 ∧
      fillOccupancy config layer Isometry3.identity OccupancyGrid.fresh = some g ∧
      g1.data[0]? = some 100 ∧ g2.data[0]? = some (-2) ∧ g.data[0]? = some (-1) ∧
      g1.data[1]? = some 0 ∧ g2.data[1]? = some (-2) ∧ g.data[1]? = some (-1) :=
  ⟨twoSliceConfig, overwrittenLayer, scenarioBounds, scenarioGridWith [-1, -1, -1, -1],
    scenarioGridWith [100, 0, -2, -2], scenarioGridWith [-2, -2, -2, -2],
    scenarioGridWith [-1, -1, -1, -1],
    by decide!, by decide!, by decide!, by decide!, by decide!, by decide!, by decide!,
    by decide!, by decide!, by decide!, by decide!, by decide!, by decide!⟩

/-! ## Claims on the slice heights -/

theorem projectSlices_eq_runSlices [VoxelKind T] (config : OccupancyPublisher.Config)
    (layer : Layer T) (world_T_sensor : Isometry3) (bounds : Bounds) (n : Nat)
    (msg : OccupancyGrid) :
    projectSlices config layer world_T_sensor bounds (baseHeight config world_T_sensor)
        layer.voxel_size n msg =
      runSlices config layer world_T_sensor bounds n msg := by
  induction n with
  | zero => rfl
  | succ n ih =>
    unfold projectSlices
    rw [ih]
    unfold runSlices
    rw [List.range_succ, List.foldlM_append]
    cases (List.range n).foldlM (fun msg (i : Nat) =>
      fillOccupancySlice config layer world_T_sensor bounds
        (sliceHeight config layer world_T_sensor i) msg) msg with
    | none => rfl
    | some m =>
      simp only [Option.some_bind, Option.bind_eq_bind, List.foldlM_cons, List.foldlM_nil]
      unfold sliceHeight
      cases fillOccupancySlice config layer world_T_sensor bounds
        (baseHeight config world_T_sensor + (n : ℚ) * layer.voxel_size) m <;> rfl

theorem runSlices_info [VoxelKind T] (config : OccupancyPublisher.Config)
    (layer : Layer T) (world_T_sensor : Isometry3) (bounds : Bounds) (n : Nat)
    (m r : OccupancyGrid) (h : runSlices config layer world_T_sensor bounds n m = some r) :
    r.info = m.info := by
  rw [runSlices_eq_visits] at h
  exact visits_frame config layer world_T_sensor bounds _ m r h

theorem initGrid_origin (layer : Layer T) (bounds : Bounds) (height : ℚ)
    (msg m0 : OccupancyGrid) (h : initGrid layer bounds height msg = some m0) :
    m0.info.origin.position = ⟨bounds.x_min.x, bounds.x_min.y, height⟩ ∧
      m0.info.resolution = layer.voxel_size := by
  unfold initGrid at h
  cases hw : toUInt32 ⌈bounds.dims.x⌉ with
  | none => rw [hw] at h; simp at h
  | some width =>
    cases hh : toUInt32 ⌈bounds.dims.y⌉ with
    | none => rw [hw, hh] at h; simp at h
    | some h0 =>
      rw [hw, hh] at h
      simp only [Option.some_bind, Option.some.injEq] at h
      subst h
      exact ⟨rfl, rfl⟩

/-- Claim C16. The base height of a pass is `slice_height`, plus the z of the translation of
the sensor pose in relative-height mode; `fillOccupancy` builds the grid at that height and
then invokes the slice projector `num_slices` times on it, the `i`-th time (from 0) at
height `base + i * voxel_size`, before the cleanup; the finished grid has the base height as
the z of its origin; and with `num_slices = 0`, from a message without cells, every cell of
the finished grid is `-1`. -/
theorem C16_slice_heights_and_count [VoxelKind T] (config : OccupancyPublisher.Config)
    (layer : Layer T) (world_T_sensor : Isometry3) (msg : OccupancyGrid) :
    baseHeight { config with use_relative_height := false } world_T_sensor =
      config.slice_height ∧
    baseHeight { config with use_relative_height := true } world_T_sensor =
      config.slice_height + world_T_sensor.translation.z ∧
    fillOccupancy config layer world_T_sensor msg =
      ((getLayerBounds layer).bind fun bounds =>
        (initGrid layer bounds (baseHeight config world_T_sensor) msg).bind fun m =>
          (projectSlices config layer world_T_sensor bounds (baseHeight config world_T_sensor)
            layer.voxel_size config.num_slices m).map cleanup) ∧
    (∀ g, fillOccupancy config layer world_T_sensor msg = some g →
      g.info.origin.position.z = baseHeight config world_T_sensor) ∧
    (∀ g, config.num_slices = 0 → msg.data = [] →
      fillOccupancy config layer world_T_sensor msg = some g → ∀ c ∈ g.data, c = -1) := by
  refine ⟨rfl, rfl, ?_, ?_, ?_⟩
  · rw [fillOccupancy_eq]
    cases getLayerBounds layer with
    | none => rfl
    | some bounds =>
      simp only [Option.some_bind]
      cases initGrid layer bounds (baseHeight config world_T_sensor) msg with
      | none => rfl
      | some m =>
        simp only [Option.some_bind]
        rw [projectSlices_eq_runSlices]
  · intro g hg
    obtain ⟨bounds, m0, m1, -, hi, hr, rfl⟩ :=
      fillOccupancy_stages config layer world_T_sensor msg g hg
    have h1 := runSlices_info config layer world_T_sensor bounds _ m0 m1 hr
    have h2 := (initGrid_origin layer bounds _ msg m0 hi).1
    show m1.info.origin.position.z = _
    rw [h1, h2]
  · intro g hn hfresh hg
    obtain ⟨bounds, m0, m1, -, hi, hr, rfl⟩ :=
      fillOccupancy_stages config layer world_T_sensor msg g hg
    obtain ⟨width, h0, -, -, -, -, hd⟩ := initGrid_data layer bounds _ msg m0 hi
    rw [hn] at hr
    simp only [runSlices, List.range_zero, List.foldlM_nil, pure, Option.some.injEq] at hr
    subst hr
    intro c hc
    simp only [cleanup, List.mem_map] at hc
    obtain ⟨d, hdm, rfl⟩ := hc
    rw [hd, hfresh] at hdm
    simp only [resize, List.take_nil, List.nil_append, List.length_nil, Nat.sub_zero] at hdm
    rw [List.eq_of_mem_replicate hdm]
    rfl

/-- Witness of C16: no slices in relative-height mode with the sensor at altitude 1; the
grid of the scenario layer has its origin at height `0 + 1` and every cell is `-1`. -/
theorem C16_slice_heights_and_count_witness :
    noSliceConfig.num_slices = 0 ∧ OccupancyGrid.fresh.data = [] ∧
    fillOccupancy noSliceConfig scenarioLayer raisedPose OccupancyGrid.fresh =
      some raisedGrid ∧
    raisedGrid.info.origin.position.z = baseHeight noSliceConfig raisedPose ∧
    baseHeight noSliceConfig raisedPose = 1 ∧
    ∀ c ∈ raisedGrid.data, c = -1 :=
  ⟨rfl, rfl, by decide!,
    (C16_slice_heights_and_count noSliceConfig scenarioLayer raisedPose
      OccupancyGrid.fresh).2.2.2.1 raisedGrid (by decide!),
    by decide!,
    (C16_slice_heights_and_count noSliceConfig scenarioLayer raisedPose
      OccupancyGrid.fresh).2.2.2.2 raisedGrid rfl rfl (by decide!)⟩

/-! ## Claims on a full footprint -/

/-- A visit inside the footprint leaves `0` in its cell, and the cell still holds `0` after
further visits when each of them that maps to the cell is inside the footprint or is a
free candidate. -/
theorem cell_free_after_footprint_visit [VoxelKind T] (config : OccupancyPublisher.Config)
    (layer : Layer T) (world_T_sensor : Isometry3) (bounds : Bounds) (g m0 m1 : OccupancyGrid)
    (pre post : List (Block T × Index3)) (v : Block T × Index3) (k : Nat)
    (hinfo : m1.info = g.info)
    (hfold : (pre ++ v :: post).foldlM (passStep config layer world_T_sensor bounds) m0 =
      some m1)
    (hin : inFootprint config world_T_sensor.inverse v.1 v.2 = true)
    (hk : toSizeT (cellIndex layer bounds g v.1 v.2) = some k)
    (hpost : ∀ u ∈ post, toSizeT (cellIndex layer bounds g u.1 u.2) = some k →
      inFootprint config world_T_sensor.inverse u.1 u.2 = true ∨
      freeCandidate config world_T_sensor.inverse u.1 u.2 = true) :
    m1.data[k]? = some 0 := by
  obtain ⟨ma, mb, -, hv, hpostfold⟩ := fold_split _ pre post v m0 m1 hfold
  have hinfo1 : m1.info = mb.info :=
    visits_frame config layer world_T_sensor bounds post mb m1 hpostfold
  have hinfob : mb.info = ma.info :=
    (passStep_frame config layer world_T_sensor bounds ma mb v hv).1
  have hka : toSizeT (cellIndex layer bounds ma v.1 v.2) = some k := by
    rw [cellIndex_congr layer bounds ma g v.1 v.2 (hinfob.symm.trans (hinfo1.symm.trans hinfo))]
    exact hk
  have hbk : mb.data[k]? = some 0 := by
    obtain ⟨voxel, index, old, -, h2, h3, rfl⟩ :=
      visit_eq_withCell config layer _ bounds v.1 v.2 ma mb hv
    rw [hka] at h2
    have hji : k = index := Option.some.inj h2
    subst hji
    rw [hin, cellRule_footprint]
    simp only [OccupancyGrid.withCell]
    exact List.getElem?_set_self (List.getElem?_eq_some_iff.1 h3).1
  obtain ⟨-, c, hc, hc0⟩ := visits_cell_invariant config layer world_T_sensor bounds
    g k (fun c => c = 0) post
    (fun u hu voxel old hvox hidx hold => by
      rcases hpost u hu hidx with h | h
      · rw [h, cellRule_footprint]
      · obtain ⟨f1, f2, f3⟩ := freeCandidate_spec config _ u.1 u.2 voxel h hvox
        rw [f1, f2, f3, hold]
        rfl)
    mb m1 (hinfo1.symm.trans hinfo) ⟨0, hbk, rfl⟩ hpostfold
  rw [hc, hc0]

/-- Claim C15. With footprint masking enabled, when every voxel visited by every slice of a
pass lies inside the footprint box (after transformation into the sensor frame), every cell
touched by the pass, that is the cell of every visited voxel, holds `0` in the finished
grid, whatever the observation and distance values of the voxels. -/
theorem C15_full_footprint_gives_free_cells [VoxelKind T] (config : OccupancyPublisher.Config)
    (layer : Layer T) (world_T_sensor : Isometry3) (msg g : OccupancyGrid) (bounds : Bounds)
    (hb : getLayerBounds layer = some bounds)
    (hfill : fillOccupancy config layer world_T_sensor msg = some g)
    (hall : ∀ v ∈ slicesVisits config layer world_T_sensor 0 config.num_slices,
      inFootprint config world_T_sensor.inverse v.1 v.2 = true) :
    ∀ v ∈ slicesVisits config layer world_T_sensor 0 config.num_slices, ∀ k,
      toSizeT (cellIndex layer bounds g v.1 v.2) = some k → g.data[k]? = some 0 := by
  intro v hv k hk
  obtain ⟨bounds1, m0, m1, hb1, -, hr, rfl⟩ :=
    fillOccupancy_stages config layer world_T_sensor msg g hfill
  rw [hb] at hb1
  have hbb : bounds = bounds1 := Option.some.inj hb1
  subst hbb
  rw [runSlices_eq_visits] at hr
  obtain ⟨pre, post, hsplit⟩ := List.append_of_mem hv
  rw [hsplit] at hr
  have hpost : ∀ u ∈ post, toSizeT (cellIndex layer bounds (cleanup m1) u.1 u.2) = some k →
      inFootprint config world_T_sensor.inverse u.1 u.2 = true ∨
      freeCandidate config world_T_sensor.inverse u.1 u.2 = true := by
    intro u hu _
    left
    apply hall
    rw [hsplit]
    exact List.mem_append_right _ (List.mem_cons_of_mem _ hu)
  have h0 := cell_free_after_footprint_visit config layer world_T_sensor bounds (cleanup m1)
    m0 m1 pre post v k rfl hr (hall v hv) hk hpost
  rw [cleanup_cell, h0]
  rfl

/-- Witness of C15: the 2x2x2 block at the origin, voxel size 1, one slice at height 0,
identity sensor pose and a footprint box holding the whole block: all four cells are `0`. -/
theorem C15_full_footprint_gives_free_cells_witness :
    getLayerBounds scenarioLayer = some scenarioBounds ∧
    fillOccupancy fullFootprintConfig scenarioLayer Isometry3.identity OccupancyGrid.fresh =
      some (scenarioGridWith [0, 0, 0, 0]) ∧
    (∀ v ∈ slicesVisits fullFootprintConfig scenarioLayer Isometry3.identity 0
        fullFootprintConfig.num_slices,
      inFootprint fullFootprintConfig Isometry3.identity.inverse v.1 v.2 = true) ∧
    (∀ v ∈ slicesVisits fullFootprintConfig scenarioLayer Isometry3.identity 0
        fullFootprintConfig.num_slices, ∀ k,
      toSizeT (cellIndex scenarioLayer scenarioBounds (scenarioGridWith [0, 0, 0, 0])
        v.1 v.2) = some k → (scenarioGridWith [0, 0, 0, 0]).data[k]? = some 0) :=
  ⟨by decide!, by decide!, by decide!,
    C15_full_footprint_gives_free_cells fullFootprintConfig scenarioLayer Isometry3.identity
      OccupancyGrid.fresh (scenarioGridWith [0, 0, 0, 0]) scenarioBounds (by decide!)
      (by decide!) (by decide!)⟩

/-! ## Claims on the value of a cell -/

theorem lastDecisive_append (es : List (Bool × Bool)) (e : Bool × Bool) :
    lastDecisive (es ++ [e]) = if (!e.1 || e.2) = true then some e else lastDecisive es := by
  unfold lastDecisive
  rw [List.reverse_append, List.reverse_singleton, List.singleton_append, List.find?_cons]
  cases h : (!e.1 || e.2) <;> simp

/-- Folding the rules (b) to (d) over the voxels mapped to a cell, from the unknown code,
gives `cellBeforeCleanup`. -/
theorem fold_rules_eq (events : List (Bool × Bool)) :
    events.foldl (fun c e => cellRule false e.1 e.2 c) (-1) = cellBeforeCleanup events := by
  induction events using List.reverseRecOn with
  | nil => rfl
  | append_singleton es e ih =>
    rw [List.foldl_append, ih]
    simp only [List.foldl_cons, List.foldl_nil]
    unfold cellBeforeCleanup
    rw [lastDecisive_append]
    obtain ⟨o, b⟩ := e
    cases o with
    | false => simp [cellRule]
    | true =>
      cases b with
      | true => simp [cellRule]
      | false =>
        simp only [cellRule, Bool.not_true, Bool.or_false, Bool.false_eq_true, if_false]
        cases hl : lastDecisive es with
        | none =>
          cases es with
          | nil => simp
          | cons a t => simp
        | some d =>
          obtain ⟨o, b⟩ := d
          cases o <;> simp

theorem cleanup_code_outcome (events : List (Bool × Bool)) :
    (if cellBeforeCleanup events = -2 then -1 else cellBeforeCleanup events) =
      cellOutcome events := by
  unfold cellBeforeCleanup cellOutcome
  cases lastDecisive events with
  | none => cases events.isEmpty <;> simp
  | some d =>
    obtain ⟨o, b⟩ := d
    cases o <;> simp

theorem inFootprint_disabled (config : OccupancyPublisher.Config) (sensor_T_world : Isometry3)
    (block : Block T) (voxel_index : Index3) (h : config.add_robot_footprint = false) :
    inFootprint config sensor_T_world block voxel_index = false := by
  unfold inFootprint
  rw [h]
  rfl

/-- Without footprint masking, the value of a cell after a run of visits is the fold of the
rules over the voxels of the run that map to the cell. -/
theorem visits_cell_value [VoxelKind T] (config : OccupancyPublisher.Config)
    (layer : Layer T) (world_T_sensor : Isometry3) (bounds : Bounds) (g : OccupancyGrid)
    (k : Nat) (hfoot : config.add_robot_footprint = false) (l : List (Block T × Index3)) :
    ∀ m r old, m.info = g.info → m.data[k]? = some old →
      l.foldlM (passStep config layer world_T_sensor bounds) m = some r →
      r.data[k]? = some ((eventsAt config layer bounds g k l).foldl
        (fun c e => cellRule false e.1 e.2 c) old) := by
  induction l with
  | nil =>
    intro m r old _ hold h
    simp only [List.foldlM, pure, Option.some.injEq] at h
    subst h
    simpa [eventsAt] using hold
  | cons v rest ih =>
    intro m r old hinfo hold h
    rw [List.foldlM_cons] at h
    cases hv : passStep config layer world_T_sensor bounds m v with
    | none => rw [hv] at h; simp at h
    | some m1 =>
      rw [hv] at h
      simp only [Option.bind_eq_bind, Option.some_bind] at h
      obtain ⟨voxel, index, old1, h1, h2, h3, hm1⟩ :=
        visit_eq_withCell config layer _ bounds v.1 v.2 m m1 hv
      rw [cellIndex_congr layer bounds m g v.1 v.2 hinfo] at h2
      have hinfo1 : m1.info = g.info := by rw [hm1]; exact hinfo
      rw [inFootprint_disabled config _ v.1 v.2 hfoot] at hm1
      by_cases hik : index = k
      · subst hik
        rw [h3] at hold
        have ho : old1 = old := Option.some.inj hold
        subst ho
        have hcell : m1.data[index]? = some (cellRule false
            (VoxelKind.isObserved voxel config.min_observation_weight)
            (decide (VoxelKind.getDistance voxel < config.min_distance)) old1) := by
          rw [hm1]
          simp only [OccupancyGrid.withCell]
          exact List.getElem?_set_self (List.getElem?_eq_some_iff.1 h3).1
        rw [ih m1 r _ hinfo1 hcell h]
        unfold eventsAt
        rw [List.filterMap_cons]
        simp only [h2, if_true, h1, Option.map_some', List.foldl_cons]
      · have hcell : m1.data[k]? = some old := by
          rw [hm1]
          simp only [OccupancyGrid.withCell]
          rw [List.getElem?_set_ne hik]
          exact hold
        rw [ih m1 r old hinfo1 hcell h]
        unfold eventsAt
        rw [List.filterMap_cons]
        have hne : ¬ (toSizeT (cellIndex layer bounds g v.1 v.2) = some k) := by
          rw [h2]
          intro hc
          exact hik (Option.some.inj hc)
        simp only [hne, if_false]

/-- Claim C19. Within one pass of `fillOccupancy` without footprint masking, started from a
message without cells, the finished value of every cell is `cellOutcome` of the voxels
mapped to it in slice order: `100` if the last voxel that is unobserved or occupied is
occupied, `-1` if it is unobserved or no voxel touched the cell, `0` if voxels touched the
cell and none was unobserved or occupied. In particular a free candidate leaves a cell
that holds `-2` as it is. -/
theorem C19_cell_value_from_voxels_in_order [VoxelKind T] (config : OccupancyPublisher.Config)
    (layer : Layer T) (world_T_sensor : Isometry3) (msg g : OccupancyGrid) (bounds : Bounds)
    (hfoot : config.add_robot_footprint = false) (hfresh : msg.data = [])
    (hb : getLayerBounds layer = some bounds)
    (hfill : fillOccupancy config layer world_T_sensor msg = some g) :
    (∀ k, k < g.data.length →
      g.data[k]? = some (cellOutcome (eventsAt config layer bounds g k
        (slicesVisits config layer world_T_sensor 0 config.num_slices)))) ∧
    (∀ (m : OccupancyGrid) (block : Block T) (voxel_index : Index3) (k : Nat),
      freeCandidate config world_T_sensor.inverse block voxel_index = true →
      toSizeT (cellIndex layer bounds m block voxel_index) = some k →
      m.data[k]? = some (-2) →
      fillOccupancySlice.visit config layer world_T_sensor.inverse bounds block voxel_index m =
        some m) := by
  constructor
  · intro k hk
    obtain ⟨bounds1, m0, m1, hb1, hi, hr, rfl⟩ :=
      fillOccupancy_stages config layer world_T_sensor msg g hfill
    rw [hb] at hb1
    have hbb : bounds = bounds1 := Option.some.inj hb1
    subst hbb
    have hinfo : m1.info = m0.info := runSlices_info config layer world_T_sensor bounds _ m0 m1 hr
    rw [runSlices_eq_visits] at hr
    have hlen1 : m1.data.length = m0.data.length := by
      have := foldlM_option_preserves (fun x : OccupancyGrid => x.data.length = m0.data.length)
        (passStep config layer world_T_sensor bounds) _
        (fun b v r1 _ hbl hr1 =>
          (passStep_frame config layer world_T_sensor bounds b r1 v hr1).2.2.trans hbl)
        m0 m1 rfl hr
      exact this
    have hk0 : k < m0.data.length := by
      have : (cleanup m1).data.length = m1.data.length := by simp [cleanup]
      rw [this, hlen1] at hk
      exact hk
    obtain ⟨width, h0, -, -, -, -, hd⟩ := initGrid_data layer bounds _ msg m0 hi
    have hold : m0.data[k]? = some (-1) := by
      rw [List.getElem?_eq_getElem hk0]
      congr 1
      have hall : ∀ c ∈ m0.data, c = -1 := by
        intro c hc
        rw [hd, hfresh] at hc
        simp only [resize, List.take_nil, List.nil_append, List.length_nil, Nat.sub_zero] at hc
        exact List.eq_of_mem_replicate hc
      exact hall _ (List.getElem_mem hk0)
    have hval := visits_cell_value config layer world_T_sensor bounds (cleanup m1) k hfoot _
      m0 m1 (-1) hinfo.symm hold hr
    rw [cleanup_cell, hval, fold_rules_eq]
    simp only [Option.map_some']
    rw [cleanup_code_outcome]
  · intro m block voxel_index k hfree hk hcell
    cases hv : block.getVoxelByVoxelIndex voxel_index with
    | none =>
      unfold freeCandidate at hfree
      rw [hv] at hfree
      simp at hfree
    | some voxel =>
      obtain ⟨f1, f2, f3⟩ := freeCandidate_spec config _ block voxel_index voxel hfree hv
      rw [visit_of_inputs config layer _ bounds block voxel_index m voxel k (-2) hv hk hcell,
        f1, f2, f3, cellRule_free_candidate (-2) (by decide)]
      simp only [OccupancyGrid.withCell]
      rw [set_getElem?_self m.data k (-2) hcell]

/-- Witness of C19 on `overwrittenLayer` with two slices: cell 0 is touched by an occupied
voxel and then by an unobserved one, and is `-1`; cell 1 by a free candidate and then an
unobserved voxel, and is `-1`. -/
theorem C19_cell_value_from_voxels_in_order_witness :
    twoSliceConfig.add_robot_footprint = false ∧ OccupancyGrid.fresh.data = [] ∧
    fillOccupancy twoSliceConfig overwrittenLayer Isometry3.identity OccupancyGrid.fresh =
      some (scenarioGridWith [-1, -1, -1, -1]) ∧
    eventsAt twoSliceConfig overwrittenLayer scenarioBounds (scenarioGridWith [-1, -1, -1, -1])
      0 (slicesVisits twoSliceConfig overwrittenLayer Isometry3.identity 0
        twoSliceConfig.num_slices) = [(true, true), (false, false)] ∧
    (scenarioGridWith [-1, -1, -1, -1]).data[0]? =
      some (cellOutcome (eventsAt twoSliceConfig overwrittenLayer scenarioBounds
        (scenarioGridWith [-1, -1, -1, -1]) 0
        (slicesVisits twoSliceConfig overwrittenLayer Isometry3.identity 0
          twoSliceConfig.num_slices))) :=
  ⟨rfl, rfl, by decide!, by decide!,
    (C19_cell_value_from_voxels_in_order twoSliceConfig overwrittenLayer Isometry3.identity
      OccupancyGrid.fresh (scenarioGridWith [-1, -1, -1, -1]) scenarioBounds rfl rfl
      (by decide!) (by decide!)).1 0 (by decide)⟩

/-! ## Geometry of the cells -/

/-- Uniqueness of quotient and remainder. -/
theorem euclid_unique (a a1 b b1 n : Int) (h : a * n + b = a1 * n + b1)
    (hb : 0 ≤ b ∧ b < n) (hb1 : 0 ≤ b1 ∧ b1 < n) : a = a1 ∧ b = b1 := by
  have e1 : (a * n + b) % n = b := by
    rw [Int.add_comm, Int.add_mul_emod_self]
    exact Int.emod_eq_of_lt hb.1 hb.2
  have e2 : (a1 * n + b1) % n = b1 := by
    rw [Int.add_comm, Int.add_mul_emod_self]
    exact Int.emod_eq_of_lt hb1.1 hb1.2
  have hbb : b = b1 := by rw [← e1, ← e2, h]
  subst hbb
  have hn : n ≠ 0 := by omega
  have hmul : a * n = a1 * n := by omega
  exact ⟨mul_right_cancel₀ hn hmul, rfl⟩

/-- The row or column of a voxel centre, for a block at the position of its index. -/
theorem floor_axis_formula (i x : Int) (vps : Nat) (vs m : ℚ) (hvs : 0 < vs) :
    ⌊((i : ℚ) * (vs * (vps : ℚ)) + ((x : ℚ) + 1 / 2) * vs - m) / vs⌋ =
      i * (vps : Int) + x + ⌊(1 / 2 : ℚ) - m / vs⌋ := by
  have hne : vs ≠ 0 := ne_of_gt hvs
  have e : ((i : ℚ) * (vs * (vps : ℚ)) + ((x : ℚ) + 1 / 2) * vs - m) / vs =
      ((i * (vps : Int) + x : Int) : ℚ) + ((1 / 2 : ℚ) - m / vs) := by
    push_cast
    field_simp
    ring
  rw [e, Int.floor_int_add]

/-- The row or column of a voxel centre lies within the cell count of the bounds. -/
theorem floor_axis_range (o vs m M : ℚ) (x : Int) (vps : Nat) (hvs : 0 < vs)
    (hm : m ≤ o) (hM : o + (vps : ℚ) * vs ≤ M) (hx : 0 ≤ x ∧ x < (vps : Int)) :
    0 ≤ ⌊(o + ((x : ℚ) + 1 / 2) * vs - m) / vs⌋ ∧
      ⌊(o + ((x : ℚ) + 1 / 2) * vs - m) / vs⌋ < ⌈(M - m) / vs⌉ := by
  have hx0 : (0 : ℚ) ≤ (x : ℚ) := by exact_mod_cast hx.1
  have hx1 : (x : ℚ) + 1 ≤ (vps : ℚ) := by
    have : x + 1 ≤ (vps : Int) := by omega
    exact_mod_cast this
  constructor
  · rw [Int.floor_nonneg]
    apply div_nonneg _ (le_of_lt hvs)
    have : 0 ≤ ((x : ℚ) + 1 / 2) * vs := by positivity
    linarith
  · rw [Int.floor_lt]
    have h1 : (o + ((x : ℚ) + 1 / 2) * vs - m) / vs < (M - m) / vs := by
      apply div_lt_div_of_pos_right _ hvs
      have : ((x : ℚ) + 1 / 2) * vs < (vps : ℚ) * vs := by
        apply mul_lt_mul_of_pos_right _ hvs
        linarith
      linarith
    exact lt_of_lt_of_le h1 (Int.le_ceil _)

theorem lookup_mem_pair (l : Layer T) (idx : Index3) (b : Block T)
    (h : l.getBlockPtrByIndex idx = some b) : (idx, b) ∈ l.blocks := by
  unfold Layer.getBlockPtrByIndex at h
  cases hf : l.blocks.find? (fun e => decide (e.1 = idx)) with
  | none => rw [hf] at h; simp at h
  | some e =>
    rw [hf] at h
    have h1 := List.find?_some hf
    have h2 := List.mem_of_find?_eq_some hf
    simp only [decide_eq_true_eq] at h1
    have h3 : e.2 = b := Option.some.inj h
    have : e = (idx, b) := by
      rw [← h1, ← h3]
    rw [← this]
    exact h2

/-- The bounds of a layer enclose every block that the enumeration reads. -/
theorem bounds_enclose (layer : Layer T) (bounds : Bounds) (idx : Index3) (b : Block T)
    (hb : getLayerBounds layer = some bounds) (hl : layer.getBlockPtrByIndex idx = some b) :
    bounds.x_min.x ≤ b.origin.x ∧ bounds.x_min.y ≤ b.origin.y ∧
      b.origin.x + b.block_size ≤ bounds.x_max.x ∧
      b.origin.y + b.block_size ≤ bounds.x_max.y ∧
      bounds.dims = ⟨(bounds.x_max.x - bounds.x_min.x) / layer.voxel_size,
                     (bounds.x_max.y - bounds.x_min.y) / layer.voxel_size⟩ := by
  rw [getLayerBounds_eq] at hb
  have hbb := (Option.some.inj hb).symm
  have hmem : b ∈ layer.allocatedBlockList :=
    List.mem_filterMap.2 ⟨idx, getBlockPtrByIndex_mem layer idx b hl, hl⟩
  obtain ⟨c1, c2, c3, c4⟩ := extend_fold_components layer.allocatedBlockList Bounds.init
  subst hbb
  refine ⟨?_, ?_, ?_, ?_, rfl⟩
  · show (layer.allocatedBlockList.foldl Bounds.extend Bounds.init).x_min.x ≤ _
    rw [c1]
    exact (foldl_min_spec (fun blk : Block T => blk.origin.x) _ _).2.1 b hmem
  · show (layer.allocatedBlockList.foldl Bounds.extend Bounds.init).x_min.y ≤ _
    rw [c2]
    exact (foldl_min_spec (fun blk : Block T => blk.origin.y) _ _).2.1 b hmem
  · show _ ≤ (layer.allocatedBlockList.foldl Bounds.extend Bounds.init).x_max.x
    rw [c3]
    exact (foldl_max_spec (fun blk : Block T => blk.origin.x + blk.block_size) _ _).2.1 b hmem
  · show _ ≤ (layer.allocatedBlockList.foldl Bounds.extend Bounds.init).x_max.y
    rw [c4]
    exact (foldl_max_spec (fun blk : Block T => blk.origin.y + blk.block_size) _ _).2.1 b hmem

/-! ## Distinct voxels of a slice -/

theorem roundFloatNat_small (n : Nat) (h : n < 2 ^ 24) : roundFloatNat n = n := by
  have hq : floatSpacing n n 1 = 1 := by
    cases n with
    | zero => rfl
    | succ m =>
      unfold floatSpacing
      rw [if_pos (by omega)]
  unfold roundFloatNat
  simp only [hq, Nat.div_one, Nat.mul_one, Nat.mod_one, Nat.mul_zero, Nat.lt_one_iff,
    if_true]

/-- Integers below `2 ^ 24` in magnitude are `float` values: rounding leaves them. -/
theorem roundFloat_small (z : Int) (h0 : 0 ≤ z) (h : z < 2 ^ 24) : roundFloat z = z := by
  unfold roundFloat
  rw [if_pos h0, roundFloatNat_small z.toNat (by omega)]
  exact Int.toNat_of_nonneg h0

/-- On a grid of fewer than `2 ^ 24` cells the index arithmetic is exact. -/
theorem indexExact_of_small (width height : Nat) (h : width * height < 2 ^ 24) :
    IndexExact width height := by
  intro r hr c hc
  have h1 : r * width + c < width * height := by
    have : (r + 1) * width ≤ height * width := Nat.mul_le_mul_right _ hr
    have e1 : (r + 1) * width = r * width + width := by ring
    have e2 : height * width = width * height := Nat.mul_comm _ _
    omega
  have hwid : width < 2 ^ 24 := by
    have : width * 1 ≤ width * height := Nat.mul_le_mul_left _ (by omega)
    omega
  have hprod : r * width < 2 ^ 24 := by omega
  unfold floatIndex
  rw [roundFloat_small (width : Int) (by positivity) (by exact_mod_cast hwid),
    roundFloat_small ((r : Int) * (width : Int)) (by positivity) (by exact_mod_cast hprod),
    roundFloat_small ((r : Int) * (width : Int) + (c : Int)) (by positivity)
      (by exact_mod_cast (by omega : r * width + c < 2 ^ 24))]

theorem cellIndex_floatIndex (layer : Layer T) (bounds : Bounds) (msg : OccupancyGrid)
    (block : Block T) (voxel_index : Index3) :
    cellIndex layer bounds msg block voxel_index =
      floatIndex (cellRow layer bounds block voxel_index) msg.info.width
        (cellCol layer bounds block voxel_index) := rfl

/-- Under exact index arithmetic the cell index of a voxel whose row and column lie on the
grid is `r * width + c`. -/
theorem cellIndex_of_exact (layer : Layer T) (bounds : Bounds) (msg : OccupancyGrid)
    (block : Block T) (voxel_index : Index3) (height : Nat)
    (hexact : IndexExact msg.info.width height)
    (hr : 0 ≤ cellRow layer bounds block voxel_index ∧
      cellRow layer bounds block voxel_index < (height : Int))
    (hc : 0 ≤ cellCol layer bounds block voxel_index ∧
      cellCol layer bounds block voxel_index < (msg.info.width : Int)) :
    cellIndex layer bounds msg block voxel_index =
      cellRow layer bounds block voxel_index * (msg.info.width : Int) +
        cellCol layer bounds block voxel_index := by
  rw [cellIndex_floatIndex]
  have h := hexact (cellRow layer bounds block voxel_index).toNat (by omega)
    (cellCol layer bounds block voxel_index).toNat (by omega)
  rw [Int.toNat_of_nonneg hr.1, Int.toNat_of_nonneg hc.1] at h
  exact h

/-- The visited voxels of a slice: the voxels `(x, y, z)` of the blocks stored under the
enumerated indices of the selected height, with `z` fixed by the slice height. -/
theorem mem_sliceVisits (layer : Layer T) (height : ℚ) (v : Block T × Index3)
    (h : v ∈ sliceVisits layer height) :
    ∃ (idx : Index3) (x y : Nat), idx ∈ layer.getAllAllocatedBlocks ∧
      idx.z = (sliceBlockIndex layer height).z ∧
      layer.getBlockPtrByIndex idx = some v.1 ∧ x < v.1.voxels_per_side ∧
      y < v.1.voxels_per_side ∧
      v.2 = ⟨Int.ofNat x, Int.ofNat y, (sliceVoxelIndex layer height).z⟩ := by
  unfold sliceVisits at h
  simp only [] at h
  obtain ⟨idx, hidx, hv⟩ := List.mem_flatMap.1 h
  obtain ⟨hmem, hz⟩ := List.mem_filter.1 hidx
  simp only [decide_eq_true_eq] at hz
  cases hb : layer.getBlockByIndex idx with
  | none => rw [hb] at hv; simp at hv
  | some block =>
    rw [hb] at hv
    simp only [] at hv
    obtain ⟨x, hx, hv⟩ := List.mem_flatMap.1 hv
    obtain ⟨y, hy, hv⟩ := List.mem_map.1 hv
    subst hv
    exact ⟨idx, x, y, hmem, hz, hb, List.mem_range.1 hx, List.mem_range.1 hy, rfl⟩

/-- On a layer with the geometry of the library, row and column of a voxel are the global
voxel coordinates `idx * voxels_per_side + x` shifted by a constant of the bounds. -/
theorem cell_row_col_onGrid (layer : Layer T) (bounds : Bounds) (idx : Index3)
    (block : Block T) (x y z : Int) (hg : layer.OnGrid)
    (hl : layer.getBlockPtrByIndex idx = some block) :
    cellRow layer bounds block ⟨x, y, z⟩ =
        idx.y * (layer.voxels_per_side : Int) + y +
          ⌊(1 / 2 : ℚ) - bounds.x_min.y / layer.voxel_size⌋ ∧
      cellCol layer bounds block ⟨x, y, z⟩ =
        idx.x * (layer.voxels_per_side : Int) + x +
          ⌊(1 / 2 : ℚ) - bounds.x_min.x / layer.voxel_size⌋ := by
  obtain ⟨hvs, hall⟩ := hg
  obtain ⟨-, h2, h3⟩ := hall (idx, block) (lookup_mem_pair layer idx block hl)
  simp only [] at h2 h3
  unfold cellRow cellCol Block.computeCoordinatesFromVoxelIndex
  rw [h3, h2]
  simp only [Vec3.add, Vec3.head2, getOriginPointFromGridIndex, getCenterPointFromGridIndex,
    Layer.block_size]
  exact ⟨floor_axis_formula idx.y y layer.voxels_per_side layer.voxel_size bounds.x_min.y hvs,
    floor_axis_formula idx.x x layer.voxels_per_side layer.voxel_size bounds.x_min.x hvs⟩

/-- Row and column of a voxel of an enumerated block lie within the cell counts that the
bounds of the layer give. -/
theorem cell_row_col_in_range (layer : Layer T) (bounds : Bounds) (idx : Index3)
    (block : Block T) (x y : Nat) (z : Int) (hvs : 0 < layer.voxel_size)
    (hbv : block.voxel_size = layer.voxel_size)
    (hb : getLayerBounds layer = some bounds)
    (hl : layer.getBlockPtrByIndex idx = some block)
    (hx : x < block.voxels_per_side) (hy : y < block.voxels_per_side) :
    (0 ≤ cellRow layer bounds block ⟨Int.ofNat x, Int.ofNat y, z⟩ ∧
      cellRow layer bounds block ⟨Int.ofNat x, Int.ofNat y, z⟩ < ⌈bounds.dims.y⌉) ∧
    (0 ≤ cellCol layer bounds block ⟨Int.ofNat x, Int.ofNat y, z⟩ ∧
      cellCol layer bounds block ⟨Int.ofNat x, Int.ofNat y, z⟩ < ⌈bounds.dims.x⌉) := by
  obtain ⟨e1, e2, e3, e4, e5⟩ := bounds_enclose layer bounds idx block hb hl
  unfold cellRow cellCol Block.computeCoordinatesFromVoxelIndex
  rw [e5]
  simp only [Vec3.add, Vec3.head2, getCenterPointFromGridIndex]
  unfold Block.block_size at e3 e4
  rw [hbv] at e3 e4 ⊢
  have hx1 : (0 : Int) ≤ Int.ofNat x ∧ Int.ofNat x < (block.voxels_per_side : Int) :=
    ⟨Int.ofNat_nonneg x, Int.ofNat_lt.2 hx⟩
  have hy1 : (0 : Int) ≤ Int.ofNat y ∧ Int.ofNat y < (block.voxels_per_side : Int) :=
    ⟨Int.ofNat_nonneg y, Int.ofNat_lt.2 hy⟩
  exact ⟨floor_axis_range block.origin.y layer.voxel_size bounds.x_min.y bounds.x_max.y
      (Int.ofNat y) block.voxels_per_side hvs e2 e4 hy1,
    floor_axis_range block.origin.x layer.voxel_size bounds.x_min.x bounds.x_max.x
      (Int.ofNat x) block.voxels_per_side hvs e1 e3 hx1⟩

/-- On a layer with the geometry of the library and a grid with the width and height of the
bounds, under exact index arithmetic, two visited voxels of a slice with the same cell
index are the same voxel of the same block. -/
theorem slab_cells_injective (layer : Layer T) (bounds : Bounds) (msg : OccupancyGrid)
    (height : ℚ) (hg : layer.OnGrid) (hb : getLayerBounds layer = some bounds)
    (hw : (msg.info.width : Int) = ⌈bounds.dims.x⌉)
    (hh : (msg.info.height : Int) = ⌈bounds.dims.y⌉)
    (hexact : IndexExact msg.info.width msg.info.height) (v1 v2 : Block T × Index3)
    (h1 : v1 ∈ sliceVisits layer height) (h2 : v2 ∈ sliceVisits layer height)
    (he : cellIndex layer bounds msg v1.1 v1.2 = cellIndex layer bounds msg v2.1 v2.2) :
    v1 = v2 := by
  obtain ⟨i1, x1, y1, -, hz1, hl1, hx1, hy1, hv1⟩ := mem_sliceVisits layer height v1 h1
  obtain ⟨i2, x2, y2, -, hz2, hl2, hx2, hy2, hv2⟩ := mem_sliceVisits layer height v2 h2
  obtain ⟨b1, w1⟩ := v1
  obtain ⟨b2, w2⟩ := v2
  simp only [] at hl1 hl2 hx1 hx2 hy1 hy2 hv1 hv2 he
  subst hv1 hv2
  have g1 := hg.2 (i1, b1) (lookup_mem_pair layer i1 b1 hl1)
  have g2 := hg.2 (i2, b2) (lookup_mem_pair layer i2 b2 hl2)
  simp only [] at g1 g2
  obtain ⟨r1, c1⟩ := cell_row_col_in_range layer bounds i1 b1 x1 y1
    (sliceVoxelIndex layer height).z hg.1 g1.2.1 hb hl1 hx1 hy1
  obtain ⟨r2, c2⟩ := cell_row_col_in_range layer bounds i2 b2 x2 y2
    (sliceVoxelIndex layer height).z hg.1 g2.2.1 hb hl2 hx2 hy2
  rw [← hh] at r1 r2
  rw [← hw] at c1 c2
  rw [cellIndex_of_exact layer bounds msg b1 _ msg.info.height hexact r1 c1,
    cellIndex_of_exact layer bounds msg b2 _ msg.info.height hexact r2 c2] at he
  obtain ⟨er, ec⟩ := euclid_unique _ _ _ _ _ he c1 c2
  obtain ⟨f1r, f1c⟩ := cell_row_col_onGrid layer bounds i1 b1 (Int.ofNat x1) (Int.ofNat y1)
    (sliceVoxelIndex layer height).z hg hl1
  obtain ⟨f2r, f2c⟩ := cell_row_col_onGrid layer bounds i2 b2 (Int.ofNat x2) (Int.ofNat y2)
    (sliceVoxelIndex layer height).z hg hl2
  rw [f1r, f2r] at er
  rw [f1c, f2c] at ec
  rw [g1.1] at hx1 hy1
  rw [g2.1] at hx2 hy2
  have bx1 : (0 : Int) ≤ Int.ofNat x1 ∧ Int.ofNat x1 < (layer.voxels_per_side : Int) :=
    ⟨Int.ofNat_nonneg x1, Int.ofNat_lt.2 hx1⟩
  have bx2 : (0 : Int) ≤ Int.ofNat x2 ∧ Int.ofNat x2 < (layer.voxels_per_side : Int) :=
    ⟨Int.ofNat_nonneg x2, Int.ofNat_lt.2 hx2⟩
  have by1 : (0 : Int) ≤ Int.ofNat y1 ∧ Int.ofNat y1 < (layer.voxels_per_side : Int) :=
    ⟨Int.ofNat_nonneg y1, Int.ofNat_lt.2 hy1⟩
  have by2 : (0 : Int) ≤ Int.ofNat y2 ∧ Int.ofNat y2 < (layer.voxels_per_side : Int) :=
    ⟨Int.ofNat_nonneg y2, Int.ofNat_lt.2 hy2⟩
  obtain ⟨eiy, ey⟩ := euclid_unique i1.y i2.y (Int.ofNat y1) (Int.ofNat y2)
    (layer.voxels_per_side : Int) (by omega) by1 by2
  obtain ⟨eix, ex⟩ := euclid_unique i1.x i2.x (Int.ofNat x1) (Int.ofNat x2)
    (layer.voxels_per_side : Int) (by omega) bx1 bx2
  have hi : i1 = i2 := by
    cases i1
    cases i2
    simp only [] at eix eiy hz1 hz2
    simp only [Index3.mk.injEq]
    exact ⟨eix, eiy, hz1.trans hz2.symm⟩
  subst hi
  rw [hl1] at hl2
  have hbb : b1 = b2 := Option.some.inj hl2
  subst hbb
  rw [ex, ey]

/-! ## Claims on the range of the cell index -/

theorem toUInt32_cast (z : Int) (n : Nat) (h : toUInt32 z = some n) : (n : Int) = z := by
  unfold toUInt32 at h
  split_ifs at h with hz
  have := Option.some.inj h
  subst this
  exact Int.toNat_of_nonneg hz.1

theorem resize_length (data : List Int) (n : Nat) (value : Int) :
    (resize data n value).length = n := by
  unfold resize
  simp only [List.length_append, List.length_take, List.length_replicate]
  omega

/-- Under exact index arithmetic, when the product of width and height fits 32 bits, the
cell index of every voxel of an enumerated block is a position of the cell array that
`initGrid` builds. -/
theorem cell_index_in_array_of_fits (layer : Layer T) (bounds : Bounds) (idx : Index3)
    (block : Block T) (x y : Nat) (z : Int) (height : ℚ) (msg g : OccupancyGrid)
    (hvs : 0 < layer.voxel_size) (hbv : block.voxel_size = layer.voxel_size)
    (hb : getLayerBounds layer = some bounds)
    (hl : layer.getBlockPtrByIndex idx = some block)
    (hx : x < block.voxels_per_side) (hy : y < block.voxels_per_side)
    (hi : initGrid layer bounds height msg = some g)
    (hfit : g.info.width * g.info.height < 2 ^ 32)
    (hexact : IndexExact g.info.width g.info.height) :
    ∃ k, toSizeT (cellIndex layer bounds g block ⟨Int.ofNat x, Int.ofNat y, z⟩) = some k ∧
      k < g.data.length := by
  obtain ⟨width, h0, hw, hh, e1, e2, hd⟩ := initGrid_data layer bounds height msg g hi
  obtain ⟨⟨r0, r1⟩, ⟨c0, c1⟩⟩ :=
    cell_row_col_in_range layer bounds idx block x y z hvs hbv hb hl hx hy
  rw [← toUInt32_cast _ _ hh] at r1
  rw [← toUInt32_cast _ _ hw] at c1
  rw [cellIndex_of_exact layer bounds g block _ g.info.height hexact
    ⟨r0, by rw [e2]; exact r1⟩ ⟨c0, by rw [e1]; exact c1⟩, e1]
  have hlen : g.data.length = width * h0 := by
    rw [hd, resize_length]
    rw [e1, e2] at hfit
    exact Nat.mod_eq_of_lt hfit
  generalize cellRow layer bounds block ⟨Int.ofNat x, Int.ofNat y, z⟩ = r at r0 r1
  generalize cellCol layer bounds block ⟨Int.ofNat x, Int.ofNat y, z⟩ = c at c0 c1
  have hnn : 0 ≤ r * (width : Int) + c := by positivity
  have hlt : r * (width : Int) + c < (width : Int) * (h0 : Int) := by
    have h1 : (r + 1) * (width : Int) ≤ (h0 : Int) * (width : Int) :=
      Int.mul_le_mul_of_nonneg_right (by omega) (by omega)
    have h2 : (r + 1) * (width : Int) = r * (width : Int) + (width : Int) := by ring
    have h3 : (h0 : Int) * (width : Int) = (width : Int) * (h0 : Int) := by ring
    omega
  refine ⟨(r * (width : Int) + c).toNat, ?_, ?_⟩
  · unfold toSizeT
    rw [if_pos hnn]
  · rw [hlen]
    have : ((r * (width : Int) + c).toNat : Int) < ((width * h0 : Nat) : Int) := by
      rw [Int.toNat_of_nonneg hnn]
      push_cast
      exact hlt
    exact_mod_cast this

theorem visits_length [VoxelKind T] (config : OccupancyPublisher.Config) (layer : Layer T)
    (world_T_sensor : Isometry3) (bounds : Bounds) (l : List (Block T × Index3))
    (m r : OccupancyGrid)
    (h : l.foldlM (passStep config layer world_T_sensor bounds) m = some r) :
    r.data.length = m.data.length :=
  foldlM_option_preserves (fun x : OccupancyGrid => x.data.length = m.data.length)
    (passStep config layer world_T_sensor bounds) l
    (fun b v r1 _ hb hr1 =>
      (passStep_frame config layer world_T_sensor bounds b r1 v hr1).2.2.trans hb)
    m r rfl h

theorem slicesVisits_one (config : OccupancyPublisher.Config) (layer : Layer T)
    (world_T_sensor : Isometry3) :
    slicesVisits config layer world_T_sensor 0 1 =
      sliceVisits layer (baseHeight config world_T_sensor) := by
  unfold slicesVisits sliceHeight
  simp

theorem toSizeT_inj (a b : Int) (k : Nat) (ha : toSizeT a = some k) (hb : toSizeT b = some k) :
    a = b := by
  unfold toSizeT at ha hb
  split_ifs at ha hb with h1 h2
  have e1 := Option.some.inj ha
  have e2 := Option.some.inj hb
  omega

/-- Applying the rules (b) to (d) again with the same voxel changes nothing. -/
theorem cellRule_idem (o d : Bool) (old : Int) :
    cellRule false o d (cellRule false o d old) = cellRule false o d old := by
  unfold cellRule
  cases o <;> cases d <;> simp
  split_ifs <;> simp_all

theorem fold_same_event (e : Bool × Bool) (es : List (Bool × Bool))
    (hall : ∀ e1 ∈ es, e1 = e) (old : Int) :
    es.foldl (fun c e1 => cellRule false e1.1 e1.2 c) (cellRule false e.1 e.2 old) =
      cellRule false e.1 e.2 old := by
  induction es with
  | nil => rfl
  | cons a t ih =>
    rw [List.foldl_cons, hall a (List.mem_cons_self a t), cellRule_idem]
    exact ih fun e1 h1 => hall e1 (List.mem_cons_of_mem a h1)

/-- The initial grid of a pass from a message without cells holds `-1` everywhere. -/
theorem initGrid_cells (layer : Layer T) (bounds : Bounds) (height : ℚ)
    (msg m0 : OccupancyGrid) (hfresh : msg.data = [])
    (hi : initGrid layer bounds height msg = some m0) (k : Nat) (hk : k < m0.data.length) :
    m0.data[k]? = some (-1) := by
  obtain ⟨width, h0, -, -, -, -, hd⟩ := initGrid_data layer bounds height msg m0 hi
  rw [List.getElem?_eq_getElem hk]
  congr 1
  have hall : ∀ c ∈ m0.data, c = -1 := by
    intro c hc
    rw [hd, hfresh] at hc
    simp only [resize, List.take_nil, List.nil_append, List.length_nil, Nat.sub_zero] at hc
    exact List.eq_of_mem_replicate hc
  exact hall _ (List.getElem_mem hk)

theorem initGrid_width (layer : Layer T) (bounds : Bounds) (height : ℚ)
    (msg m0 : OccupancyGrid) (hi : initGrid layer bounds height msg = some m0) :
    (m0.info.width : Int) = ⌈bounds.dims.x⌉ := by
  obtain ⟨width, h0, hw, -, e1, -, -⟩ := initGrid_data layer bounds height msg m0 hi
  rw [e1]
  exact toUInt32_cast _ _ hw

theorem initGrid_height (layer : Layer T) (bounds : Bounds) (height : ℚ)
    (msg m0 : OccupancyGrid) (hi : initGrid layer bounds height msg = some m0) :
    (m0.info.height : Int) = ⌈bounds.dims.y⌉ := by
  obtain ⟨width, h0, -, hh, -, e2, -⟩ := initGrid_data layer bounds height msg m0 hi
  rw [e2]
  exact toUInt32_cast _ _ hh

/-- Under exact index arithmetic the cell index of a visited voxel of a slice is
`r * width + c`. -/
theorem slab_cellIndex_exact (layer : Layer T) (bounds : Bounds) (msg : OccupancyGrid)
    (height : ℚ) (hg : layer.OnGrid) (hb : getLayerBounds layer = some bounds)
    (hw : (msg.info.width : Int) = ⌈bounds.dims.x⌉)
    (hh : (msg.info.height : Int) = ⌈bounds.dims.y⌉)
    (hexact : IndexExact msg.info.width msg.info.height) (v : Block T × Index3)
    (hv : v ∈ sliceVisits layer height) :
    cellIndex layer bounds msg v.1 v.2 =
      cellRow layer bounds v.1 v.2 * (msg.info.width : Int) + cellCol layer bounds v.1 v.2 := by
  obtain ⟨i1, x1, y1, -, -, hl1, hx1, hy1, hv1⟩ := mem_sliceVisits layer height v hv
  have g1 := hg.2 (i1, v.1) (lookup_mem_pair layer i1 v.1 hl1)
  simp only [] at g1
  obtain ⟨r1, c1⟩ := cell_row_col_in_range layer bounds i1 v.1 x1 y1
    (sliceVoxelIndex layer height).z hg.1 g1.2.1 hb hl1 hx1 hy1
  rw [← hh] at r1
  rw [← hw] at c1
  rw [hv1]
  exact cellIndex_of_exact layer bounds msg v.1 _ msg.info.height hexact r1 c1


/-- Under exact index arithmetic: on a layer with the geometry of the library, with
`num_slices = 1` and footprint masking disabled, from a message without cells, the grid of
`fillOccupancy` holds at the cell `row * width + column` of each visited voxel of the
selected slab (row and column being the floors of the centre offsets divided by the voxel
size) the code `-1` if the voxel is unobserved, `100` if it is observed with a distance
below `min_distance` and `0` if it is observed with any other distance; every cell that is
the cell of no visited voxel holds `-1`. -/
theorem single_slice_cells_of_exact_index [VoxelKind T] (config : OccupancyPublisher.Config)
    (layer : Layer T) (world_T_sensor : Isometry3) (msg g : OccupancyGrid) (bounds : Bounds)
    (hg : layer.OnGrid) (hfoot : config.add_robot_footprint = false)
    (hn : config.num_slices = 1) (hfresh : msg.data = [])
    (hb : getLayerBounds layer = some bounds)
    (hfill : fillOccupancy config layer world_T_sensor msg = some g)
    (hexact : IndexExact g.info.width g.info.height) :
    (∀ v ∈ sliceVisits layer (baseHeight config world_T_sensor), ∃ voxel k,
      v.1.getVoxelByVoxelIndex v.2 = some voxel ∧
      toSizeT (cellRow layer bounds v.1 v.2 * (g.info.width : Int) +
        cellCol layer bounds v.1 v.2) = some k ∧
      g.data[k]? = some
        (if VoxelKind.isObserved voxel config.min_observation_weight = false then -1
         else if VoxelKind.getDistance voxel < config.min_distance then 100 else 0)) ∧
    (∀ k, k < g.data.length →
      (∀ v ∈ sliceVisits layer (baseHeight config world_T_sensor),
        toSizeT (cellRow layer bounds v.1 v.2 * (g.info.width : Int) +
          cellCol layer bounds v.1 v.2) ≠ some k) →
      g.data[k]? = some (-1)) := by
  obtain ⟨bounds1, m0, m1, hb1, hi, hr, rfl⟩ :=
    fillOccupancy_stages config layer world_T_sensor msg g hfill
  rw [hb] at hb1
  have hbb : bounds = bounds1 := Option.some.inj hb1
  subst hbb
  have hinfo : m1.info = m0.info := runSlices_info config layer world_T_sensor bounds _ m0 m1 hr
  have hcinfo : (cleanup m1).info = m0.info := hinfo
  rw [runSlices_eq_visits, hn, slicesVisits_one] at hr
  have hlen : m1.data.length = m0.data.length :=
    visits_length config layer world_T_sensor bounds _ m0 m1 hr
  have hw : ((cleanup m1).info.width : Int) = ⌈bounds.dims.x⌉ := by
    rw [hcinfo]
    exact initGrid_width layer bounds _ msg m0 hi
  have hh : ((cleanup m1).info.height : Int) = ⌈bounds.dims.y⌉ := by
    rw [hcinfo]
    exact initGrid_height layer bounds _ msg m0 hi
  constructor
  · intro v hv
    obtain ⟨pre, post, hsplit⟩ := List.append_of_mem hv
    have hr2 := hr
    rw [hsplit] at hr2
    obtain ⟨c1, c2, hpre, hstep, -⟩ := fold_split _ pre post v m0 m1 hr2
    obtain ⟨voxel, k, old1, hvox, hk, hold1, -⟩ :=
      visit_eq_withCell config layer _ bounds v.1 v.2 c1 c2 hstep
    have hc1 : c1.info = (cleanup m1).info :=
      (visits_frame config layer world_T_sensor bounds pre m0 c1 hpre).trans hcinfo.symm
    rw [cellIndex_congr layer bounds c1 (cleanup m1) v.1 v.2 hc1] at hk
    have hk0 : k < m0.data.length := by
      rw [← visits_length config layer world_T_sensor bounds pre m0 c1 hpre]
      exact (List.getElem?_eq_some_iff.1 hold1).1
    refine ⟨voxel, k, hvox, ?_, ?_⟩
    · rw [← slab_cellIndex_exact layer bounds (cleanup m1) _ hg hb hw hh hexact v hv]
      exact hk
    have hval := visits_cell_value config layer world_T_sensor bounds (cleanup m1) k hfoot _
      m0 m1 (-1) hcinfo.symm (initGrid_cells layer bounds _ msg m0 hfresh hi k hk0) hr
    have hall : ∀ e1 ∈ eventsAt config layer bounds (cleanup m1) k
        (sliceVisits layer (baseHeight config world_T_sensor)),
        e1 = (VoxelKind.isObserved voxel config.min_observation_weight,
          decide (VoxelKind.getDistance voxel < config.min_distance)) := by
      intro e1 he1
      unfold eventsAt at he1
      obtain ⟨v1, hv1, hf⟩ := List.mem_filterMap.1 he1
      split_ifs at hf with hk1
      have hsame : v1 = v := slab_cells_injective layer bounds (cleanup m1) _ hg hb hw hh
        hexact v1 v
        hv1 hv (toSizeT_inj _ _ k hk1 hk)
      subst hsame
      rw [hvox] at hf
      exact (Option.some.inj hf).symm
    have hmem : (VoxelKind.isObserved voxel config.min_observation_weight,
        decide (VoxelKind.getDistance voxel < config.min_distance)) ∈
        eventsAt config layer bounds (cleanup m1) k
          (sliceVisits layer (baseHeight config world_T_sensor)) := by
      unfold eventsAt
      refine List.mem_filterMap.2 ⟨v, hv, ?_⟩
      rw [if_pos hk, hvox]
      rfl
    obtain ⟨a, t, hat⟩ := List.exists_cons_of_ne_nil (List.ne_nil_of_mem hmem)
    rw [hat] at hall hval
    rw [List.foldl_cons, hall a (List.mem_cons_self a t),
      fold_same_event _ t (fun e1 h1 => hall e1 (List.mem_cons_of_mem a h1))] at hval
    rw [cleanup_cell, hval]
    simp only [Option.map_some', cellRule]
    cases VoxelKind.isObserved voxel config.min_observation_weight with
    | false => simp
    | true =>
      by_cases hd : VoxelKind.getDistance voxel < config.min_distance
      · simp [hd]
      · simp [hd]
  · intro k hk hnone
    have hk0 : k < m0.data.length := by
      have : (cleanup m1).data.length = m1.data.length := by simp [cleanup]
      rw [this, hlen] at hk
      exact hk
    have hval := visits_cell_value config layer world_T_sensor bounds (cleanup m1) k hfoot _
      m0 m1 (-1) hcinfo.symm (initGrid_cells layer bounds _ msg m0 hfresh hi k hk0) hr
    have hnil : eventsAt config layer bounds (cleanup m1) k
        (sliceVisits layer (baseHeight config world_T_sensor)) = [] := by
      unfold eventsAt
      rw [List.filterMap_eq_nil_iff]
      intro v hv
      have hno := hnone v hv
      rw [← slab_cellIndex_exact layer bounds (cleanup m1) _ hg hb hw hh hexact v hv] at hno
      rw [if_neg hno]
    rw [hnil] at hval
    rw [cleanup_cell, hval]
    rfl

/-! ## Commuting visits -/

theorem bind_const_none {α β : Type} (x : Option α) :
    x.bind (fun _ => (none : Option β)) = none := by
  cases x <;> rfl

/-- A fold of a fallible step gives the same result on a permutation of the list when any
two steps of the list commute on the states of an invariant of the step. -/
theorem foldlM_perm {α γ : Type} (f : γ → α → Option γ) (P : γ → Prop)
    (hP : ∀ c a r, P c → f c a = some r → P r) {l1 l2 : List α} (p : l1.Perm l2) :
    (∀ x ∈ l1, ∀ y ∈ l1, ∀ c, P c → (f c x).bind (fun r => f r y) = (f c y).bind (fun r => f r x)) →
    ∀ c, P c → l1.foldlM f c = l2.foldlM f c := by
  induction p with
  | nil => intro _ c _; rfl
  | cons x _ ih =>
    intro comm c hc
    rw [List.foldlM_cons, List.foldlM_cons]
    cases h : f c x with
    | none => rfl
    | some r =>
      simp only [Option.bind_eq_bind, Option.some_bind]
      exact ih (fun a ha b hb => comm a (List.mem_cons_of_mem _ ha) b (List.mem_cons_of_mem _ hb))
        r (hP c x r hc h)
  | swap x y l =>
    intro comm c hc
    simp only [List.foldlM_cons, Option.bind_eq_bind]
    rw [← Option.bind_assoc, ← Option.bind_assoc]
    rw [comm y (List.mem_cons_self _ _) x (List.mem_cons_of_mem _ (List.mem_cons_self _ _)) c hc]
  | trans p1 _ ih1 ih2 =>
    intro comm c hc
    rw [ih1 comm c hc]
    exact ih2 (fun a ha b hb => comm a (p1.mem_iff.2 ha) b (p1.mem_iff.2 hb)) c hc

theorem foldlM_congr_inv {α γ : Type} (f g : γ → α → Option γ) (P : γ → Prop)
    (hP : ∀ c a r, P c → g c a = some r → P r) (hfg : ∀ c a, P c → f c a = g c a)
    (l : List α) : ∀ c, P c → l.foldlM f c = l.foldlM g c := by
  induction l with
  | nil => intro c _; rfl
  | cons a t ih =>
    intro c hc
    rw [List.foldlM_cons, List.foldlM_cons, hfg c a hc]
    cases h : g c a with
    | none => rfl
    | some r =>
      simp only [Option.bind_eq_bind, Option.some_bind]
      exact ih r (hP c a r hc h)

/-- The loop body in one expression: it reads the voxel, converts the cell index, reads
the cell and writes the value of the rules; each of the three reads can fail. -/
theorem passStep_eq_bind [VoxelKind T] (config : OccupancyPublisher.Config) (layer : Layer T)
    (world_T_sensor : Isometry3) (bounds : Bounds) (m : OccupancyGrid)
    (v : Block T × Index3) :
    passStep config layer world_T_sensor bounds m v =
      (v.1.getVoxelByVoxelIndex v.2).bind fun voxel =>
        (toSizeT (cellIndex layer bounds m v.1 v.2)).bind fun index =>
          (m.data[index]?).map fun old =>
            m.withCell index
              (cellRule (inFootprint config world_T_sensor.inverse v.1 v.2)
                (VoxelKind.isObserved voxel config.min_observation_weight)
                (decide (VoxelKind.getDistance voxel < config.min_distance)) old) := by
  cases hp : passStep config layer world_T_sensor bounds m v with
  | some r =>
    obtain ⟨voxel, index, old, h1, h2, h3, h4⟩ :=
      visit_eq_withCell config layer _ bounds v.1 v.2 m r hp
    simp only [h1, h2, h3, h4, Option.some_bind, Option.map_some']
  | none =>
    cases h1 : v.1.getVoxelByVoxelIndex v.2 with
    | none => rfl
    | some voxel =>
      cases h2 : toSizeT (cellIndex layer bounds m v.1 v.2) with
      | none => rfl
      | some index =>
        cases h3 : m.data[index]? with
        | none => simp only [Option.some_bind, h3, Option.map_none']
        | some old =>
          have := visit_of_inputs config layer world_T_sensor.inverse bounds v.1 v.2 m voxel
            index old h1 h2 h3
          unfold passStep at hp
          rw [hp] at this
          simp at this

/-- The loop bodies of two voxels with different cell indices commute. -/
theorem passStep_comm [VoxelKind T] (config : OccupancyPublisher.Config) (layer : Layer T)
    (world_T_sensor : Isometry3) (bounds : Bounds) (m : OccupancyGrid)
    (v1 v2 : Block T × Index3)
    (hne : cellIndex layer bounds m v1.1 v1.2 ≠ cellIndex layer bounds m v2.1 v2.2) :
    (passStep config layer world_T_sensor bounds m v1).bind
        (fun r => passStep config layer world_T_sensor bounds r v2) =
      (passStep config layer world_T_sensor bounds m v2).bind
        (fun r => passStep config layer world_T_sensor bounds r v1) := by
  have hw : ∀ (k : Nat) (c : Int) (b : Block T) (i : Index3),
      cellIndex layer bounds (m.withCell k c) b i = cellIndex layer bounds m b i :=
    fun _ _ _ _ => rfl
  have hwd : ∀ (k : Nat) (c : Int), (m.withCell k c).data = m.data.set k c := fun _ _ => rfl
  simp only [passStep_eq_bind]
  cases h1 : v1.1.getVoxelByVoxelIndex v1.2 with
  | none => simp only [Option.none_bind, bind_const_none]
  | some voxel1 =>
    cases h2 : v2.1.getVoxelByVoxelIndex v2.2 with
    | none => simp only [Option.none_bind, bind_const_none]
    | some voxel2 =>
      simp only [Option.some_bind]
      cases i1 : toSizeT (cellIndex layer bounds m v1.1 v1.2) with
      | none =>
        simp only [Option.none_bind]
        cases toSizeT (cellIndex layer bounds m v2.1 v2.2) with
        | none => rfl
        | some k2 =>
          simp only [Option.some_bind]
          cases m.data[k2]? with
          | none => rfl
          | some old2 => simp only [Option.map_some', Option.some_bind, hw, i1, Option.none_bind]
      | some k1 =>
        cases i2 : toSizeT (cellIndex layer bounds m v2.1 v2.2) with
        | none =>
          simp only [Option.none_bind, Option.some_bind]
          cases m.data[k1]? with
          | none => rfl
          | some old1 => simp only [Option.map_some', Option.some_bind, hw, i2, Option.none_bind]
        | some k2 =>
          have hk : k1 ≠ k2 := by
            intro hk
            subst hk
            exact hne (toSizeT_inj _ _ k1 i1 i2)
          simp only [Option.some_bind]
          cases d1 : m.data[k1]? with
          | none =>
            simp only [Option.map_none', Option.none_bind]
            cases d2 : m.data[k2]? with
            | none => rfl
            | some old2 =>
              simp only [Option.map_some', Option.some_bind, hw, i1, hwd,
                List.getElem?_set_ne (Ne.symm hk), d1, Option.map_none']
          | some old1 =>
            cases d2 : m.data[k2]? with
            | none =>
              simp only [Option.map_some', Option.some_bind, hw, i2, hwd,
                List.getElem?_set_ne hk, d2, Option.map_none', Option.none_bind]
            | some old2 =>
              simp only [Option.map_some', Option.some_bind, hw, i1, i2, hwd,
                List.getElem?_set_ne hk, List.getElem?_set_ne (Ne.symm hk), d1, d2]
              simp only [OccupancyGrid.withCell]
              rw [List.set_comm _ _ _ hk]

/-! ## Claims on a single slice -/

/-- A run of visits has a result when every voxel can be read and every cell index lies in
the cell array. -/
theorem visits_total [VoxelKind T] (config : OccupancyPublisher.Config) (layer : Layer T)
    (world_T_sensor : Isometry3) (bounds : Bounds) (g : OccupancyGrid) (n : Nat)
    (l : List (Block T × Index3)) (hfit : VisitsFit layer bounds g n l) :
    ∀ m : OccupancyGrid, m.info = g.info → m.data.length = n →
      ∃ r, l.foldlM (passStep config layer world_T_sensor bounds) m = some r := by
  induction l with
  | nil => intro m _ _; exact ⟨m, rfl⟩
  | cons v rest ih =>
    intro m hinfo hlen
    obtain ⟨hread, hidx⟩ := hfit v (List.mem_cons_self _ _)
    obtain ⟨voxel, hvox⟩ := Option.isSome_iff_exists.1 hread
    rw [← cellIndex_congr layer bounds m g v.1 v.2 hinfo] at hidx
    cases hk : toSizeT (cellIndex layer bounds m v.1 v.2) with
    | none => rw [hk] at hidx; simp at hidx
    | some k =>
      rw [hk] at hidx
      simp only [Option.any_some, decide_eq_true_eq] at hidx
      have hcell : m.data[k]? = some (m.data.get ⟨k, by omega⟩) :=
        List.getElem?_eq_getElem (by omega)
      have hstep := passStep_eq_bind config layer world_T_sensor bounds m v
      rw [hvox, hk] at hstep
      simp only [Option.some_bind, hcell, Option.map_some'] at hstep
      rw [List.foldlM_cons, hstep]
      simp only [Option.bind_eq_bind, Option.some_bind]
      exact ih (fun u hu => hfit u (List.mem_cons_of_mem _ hu)) _ hinfo
        (by simp [OccupancyGrid.withCell, hlen])

/-- Claim C14, evaluated on `largeLayer` (one slice at height 0, no footprint, fresh
message), whose grid has 4100 by 4100 cells. The voxel `(1, 0, 0)` of `largeBlock` is
visited, observed and below the distance threshold, and its row is 4096 and its column
4099, so its cell is `4096 * 4100 + 4099 = 16797699`. The `float` computation of the index
rounds this odd number above `2 ^ 24` to 16797700, a cell that is the cell of no visited
voxel. `fillOccupancy` has a result, and in it cell 16797699 holds `-1` instead of `100`
and cell 16797700 holds `100` instead of `-1`. -/
theorem C14_float_index_writes_other_cell :
    largeLayer.OnGrid ∧ scenarioConfig.num_slices = 1 ∧
    scenarioConfig.add_robot_footprint = false ∧
    getLayerBounds largeLayer = some largeBounds ∧
    (largeBlock, (⟨1, 0, 0⟩ : Index3)) ∈
      sliceVisits largeLayer (baseHeight scenarioConfig Isometry3.identity) ∧
    largeBlock.getVoxelByVoxelIndex ⟨1, 0, 0⟩ = some occupiedVoxel ∧
    VoxelKind.isObserved occupiedVoxel scenarioConfig.min_observation_weight = true ∧
    VoxelKind.getDistance occupiedVoxel < scenarioConfig.min_distance ∧
    cellRow largeLayer largeBounds largeBlock ⟨1, 0, 0⟩ = 4096 ∧
    cellCol largeLayer largeBounds largeBlock ⟨1, 0, 0⟩ = 4099 ∧
    (∀ v ∈ sliceVisits largeLayer (baseHeight scenarioConfig Isometry3.identity),
      toSizeT (cellRow largeLayer largeBounds v.1 v.2 * 4100 +
        cellCol largeLayer largeBounds v.1 v.2) ≠ some 16797700) ∧
    ∃ g, fillOccupancy scenarioConfig largeLayer Isometry3.identity OccupancyGrid.fresh =
        some g ∧
      g.info.width = 4100 ∧ g.info.height = 4100 ∧ g.data.length = 16810000 ∧
      toSizeT (4096 * (g.info.width : Int) + 4099) = some 16797699 ∧
      toSizeT (cellIndex largeLayer largeBounds g largeBlock ⟨1, 0, 0⟩) = some 16797700 ∧
      g.data[16797699]? = some (-1) ∧ g.data[16797700]? = some 100 := by
  have hb : getLayerBounds largeLayer = some largeBounds := by decide!
  refine ⟨by decide!, rfl, rfl, hb, by decide!, by decide!, by decide!, by decide!, by decide!,
    by decide!, by decide!, ?_⟩
  obtain ⟨m0, hi, e1, e2, e3, e4, e5, e6, e7, e8⟩ :=
    initGrid_of_fits largeLayer largeBounds (baseHeight scenarioConfig Isometry3.identity)
      OccupancyGrid.fresh rfl (by decide!) (by decide!) (by decide!)
  have hw : ⌈largeBounds.dims.x⌉.toNat = 4100 := by decide!
  have hh : ⌈largeBounds.dims.y⌉.toNat = 4100 := by decide!
  rw [hw] at e4 e8
  rw [hh] at e5 e8
  have hinfo0 : m0.info = (largeGrid []).info := by
    obtain ⟨hdr, ⟨t, res, w, h, ⟨pos, ori⟩⟩, data⟩ := m0
    simp only [] at e2 e3 e4 e5 e6 e7
    subst e2 e3 e4 e5 e6 e7
    have key : (⟨OccupancyGrid.fresh.info.map_load_time, largeLayer.voxel_size, 4100, 4100,
        ⟨⟨largeBounds.x_min.x, largeBounds.x_min.y,
            baseHeight scenarioConfig Isometry3.identity⟩,
          { OccupancyGrid.fresh.info.origin.orientation with w := 1 }⟩⟩ : MapMetaData) =
        (largeGrid []).info := by decide!
    exact key
  have hlen0 : m0.data.length = 16810000 := by
    rw [e8, List.length_replicate]
  have hcell0 : ∀ k, k < 16810000 → m0.data[k]? = some (-1) := by
    intro k hk
    rw [e8, List.getElem?_replicate, if_pos (by omega)]
  have hfit : VisitsFit largeLayer largeBounds (largeGrid []) 16810000
      (sliceVisits largeLayer (baseHeight scenarioConfig Isometry3.identity)) := by decide!
  obtain ⟨m1, hr⟩ := visits_total scenarioConfig largeLayer Isometry3.identity largeBounds
    (largeGrid []) 16810000 _ hfit m0 hinfo0 hlen0
  have hfill : fillOccupancy scenarioConfig largeLayer Isometry3.identity OccupancyGrid.fresh =
      some (cleanup m1) := by
    have hn : scenarioConfig.num_slices = 1 := rfl
    rw [fillOccupancy_eq, hb, Option.some_bind, hi, Option.some_bind, runSlices_eq_visits, hn,
      slicesVisits_one, hr]
    rfl
  have hinfo1 : (cleanup m1).info = (largeGrid []).info :=
    (visits_frame scenarioConfig largeLayer Isometry3.identity largeBounds _ m0 m1 hr).trans
      hinfo0
  have hlen1 : (cleanup m1).data.length = 16810000 := by
    have h1 : (cleanup m1).data.length = m1.data.length := by simp [cleanup]
    rw [h1, visits_length scenarioConfig largeLayer Isometry3.identity largeBounds _ m0 m1 hr,
      hlen0]
  have hv1 := visits_cell_value scenarioConfig largeLayer Isometry3.identity largeBounds
    (largeGrid []) 16797699 rfl _ m0 m1 (-1) hinfo0 (hcell0 _ (by omega)) hr
  have hv2 := visits_cell_value scenarioConfig largeLayer Isometry3.identity largeBounds
    (largeGrid []) 16797700 rfl _ m0 m1 (-1) hinfo0 (hcell0 _ (by omega)) hr
  have ev1 : eventsAt scenarioConfig largeLayer largeBounds (largeGrid []) 16797699
      (sliceVisits largeLayer (baseHeight scenarioConfig Isometry3.identity)) = [] := by
    decide!
  have ev2 : eventsAt scenarioConfig largeLayer largeBounds (largeGrid []) 16797700
      (sliceVisits largeLayer (baseHeight scenarioConfig Isometry3.identity)) =
        [(true, true)] := by
    decide!
  rw [ev1] at hv1
  rw [ev2] at hv2
  refine ⟨cleanup m1, hfill, ?_, ?_, hlen1, ?_, ?_, ?_, ?_⟩
  · rw [hinfo1]
    rfl
  · rw [hinfo1]
    rfl
  · rw [hinfo1]
    decide
  · rw [cellIndex_congr largeLayer largeBounds (cleanup m1) (largeGrid []) _ _ hinfo1]
    decide!
  · rw [cleanup_cell, hv1]
    rfl
  · rw [cleanup_cell, hv2]
    rfl

/-! ## The order of the blocks -/

/-- With distinct keys, the first entry under a key is the same in every order. -/
theorem find_key_perm {l1 l2 : List (Index3 × Block T)} (p : l1.Perm l2) :
    (l1.map Prod.fst).Nodup → ∀ idx : Index3,
      l1.find? (fun kv => decide (kv.1 = idx)) = l2.find? (fun kv => decide (kv.1 = idx)) := by
  induction p with
  | nil => intro _ _; rfl
  | cons x _ ih =>
    intro hnd idx
    rw [List.map_cons, List.nodup_cons] at hnd
    rw [List.find?_cons, List.find?_cons, ih hnd.2 idx]
  | swap x y l =>
    intro hnd idx
    rw [List.map_cons, List.map_cons, List.nodup_cons] at hnd
    have hxy : y.1 ≠ x.1 := fun h => hnd.1 (by rw [h]; exact List.mem_cons_self _ _)
    simp only [List.find?_cons]
    by_cases hy : y.1 = idx
    · have hx : ¬ x.1 = idx := fun hx => hxy (hy.trans hx.symm)
      simp [hy, hx]
    · simp [hy]
  | trans p1 _ ih1 ih2 =>
    intro hnd idx
    rw [ih1 hnd idx]
    exact ih2 ((p1.map Prod.fst).nodup_iff.1 hnd) idx

theorem lookup_reordered (layer : Layer T) (blocks : List (Index3 × Block T))
    (hnd : layer.getAllAllocatedBlocks.Nodup) (hp : blocks.Perm layer.blocks) (idx : Index3) :
    (layer.reordered blocks).getBlockPtrByIndex idx = layer.getBlockPtrByIndex idx := by
  unfold Layer.getBlockPtrByIndex Layer.reordered
  simp only []
  have hnd2 : (blocks.map Prod.fst).Nodup := (hp.map Prod.fst).nodup_iff.2 hnd
  rw [find_key_perm hp hnd2 idx]

/-- The visited voxels of a slice of the reordered layer are those of the layer, in another
order. -/
theorem sliceVisits_reordered (layer : Layer T) (blocks : List (Index3 × Block T))
    (hnd : layer.getAllAllocatedBlocks.Nodup) (hp : blocks.Perm layer.blocks) (height : ℚ) :
    (sliceVisits (layer.reordered blocks) height).Perm (sliceVisits layer height) := by
  have hl : (layer.reordered blocks).getBlockByIndex = layer.getBlockByIndex := by
    funext idx
    exact lookup_reordered layer blocks hnd hp idx
  unfold sliceVisits
  simp only [hl]
  apply List.Perm.flatMap_right
  apply List.Perm.filter
  exact hp.map Prod.fst

theorem extend_comm (z : Bounds) (x y : Block T) :
    (z.extend x).extend y = (z.extend y).extend x := by
  unfold Bounds.extend
  simp only [Bounds.mk.injEq, Vec2.mk.injEq]
  refine ⟨⟨min_right_comm _ _ _, min_right_comm _ _ _⟩, ⟨?_, ?_⟩, trivial⟩
  · rw [max_assoc, max_comm (x.origin.x + x.block_size), ← max_assoc]
  · rw [max_assoc, max_comm (x.origin.y + x.block_size), ← max_assoc]

/-- The bounds of a layer do not depend on the order of its blocks. -/
theorem getLayerBounds_reordered (layer : Layer T) (blocks : List (Index3 × Block T))
    (hnd : layer.getAllAllocatedBlocks.Nodup) (hp : blocks.Perm layer.blocks) :
    getLayerBounds (layer.reordered blocks) = getLayerBounds layer := by
  have hl : (layer.reordered blocks).getBlockByIndex = layer.getBlockByIndex := by
    funext idx
    exact lookup_reordered layer blocks hnd hp idx
  have hperm : (layer.reordered blocks).allocatedBlockList.Perm layer.allocatedBlockList := by
    unfold Layer.allocatedBlockList
    rw [hl]
    exact (hp.map Prod.fst).filterMap _
  have hfold : (layer.reordered blocks).allocatedBlockList.foldl Bounds.extend Bounds.init =
      layer.allocatedBlockList.foldl Bounds.extend Bounds.init :=
    hperm.foldl_eq' (fun x _ y _ z => extend_comm z x y) Bounds.init
  rw [getLayerBounds_eq, getLayerBounds_eq, hfold]
  rfl

theorem slice_info [VoxelKind T] (config : OccupancyPublisher.Config) (layer : Layer T)
    (world_T_sensor : Isometry3) (bounds : Bounds) (height : ℚ) (m r : OccupancyGrid)
    (h : fillOccupancySlice config layer world_T_sensor bounds height m = some r) :
    r.info = m.info := by
  rw [fillOccupancySlice_eq_visits] at h
  exact visits_frame config layer world_T_sensor bounds _ m r h

theorem initGrid_dims_eq (layer : Layer T) (bounds : Bounds) (h1 h2 : ℚ)
    (msg1 msg2 m1 m2 : OccupancyGrid) (hi1 : initGrid layer bounds h1 msg1 = some m1)
    (hi2 : initGrid layer bounds h2 msg2 = some m2) :
    m1.info.width = m2.info.width ∧ m1.info.height = m2.info.height := by
  obtain ⟨w1, g1, hw1, hh1, e1, f1, -⟩ := initGrid_data layer bounds h1 msg1 m1 hi1
  obtain ⟨w2, g2, hw2, hh2, e2, f2, -⟩ := initGrid_data layer bounds h2 msg2 m2 hi2
  rw [hw1] at hw2
  rw [hh1] at hh2
  rw [e1, e2, f1, f2]
  exact ⟨Option.some.inj hw2, Option.some.inj hh2⟩

/-- Under exact index arithmetic, on a grid with the width and height of the bounds, one
slice of the reordered layer gives the result of the slice of the layer. -/
theorem slice_reordered [VoxelKind T] (config : OccupancyPublisher.Config) (layer : Layer T)
    (blocks : List (Index3 × Block T)) (world_T_sensor : Isometry3) (bounds : Bounds)
    (height : ℚ) (msg : OccupancyGrid) (hg : layer.OnGrid)
    (hnd : layer.getAllAllocatedBlocks.Nodup) (hp : blocks.Perm layer.blocks)
    (hb : getLayerBounds layer = some bounds)
    (hw : (msg.info.width : Int) = ⌈bounds.dims.x⌉)
    (hh : (msg.info.height : Int) = ⌈bounds.dims.y⌉)
    (hexact : IndexExact msg.info.width msg.info.height) :
    fillOccupancySlice config (layer.reordered blocks) world_T_sensor bounds height msg =
      fillOccupancySlice config layer world_T_sensor bounds height msg := by
  rw [fillOccupancySlice_eq_visits, fillOccupancySlice_eq_visits]
  have hperm := sliceVisits_reordered layer blocks hnd hp height
  exact foldlM_perm (passStep config layer world_T_sensor bounds)
    (fun c => c.info = msg.info)
    (fun c a r hc hr => (passStep_frame config layer world_T_sensor bounds c r a hr).1.trans hc)
    hperm
    (fun x hx y hy c hc => by
      by_cases hxy : x = y
      · rw [hxy]
      · apply passStep_comm
        intro he
        have hwc : (c.info.width : Int) = ⌈bounds.dims.x⌉ := by rw [hc]; exact hw
        have hhc : (c.info.height : Int) = ⌈bounds.dims.y⌉ := by rw [hc]; exact hh
        have hec : IndexExact c.info.width c.info.height := by rw [hc]; exact hexact
        exact hxy (slab_cells_injective layer bounds c height hg hb hwc hhc hec x y
          (hperm.mem_iff.1 hx) (hperm.mem_iff.1 hy) he))
    msg rfl

/-- Under exact index arithmetic on the grid that `initGrid` builds for the bounds of the
layer, `fillOccupancy` gives the same result on the reordered layer. -/
theorem fillOccupancy_reordered [VoxelKind T] (config : OccupancyPublisher.Config)
    (layer : Layer T) (blocks : List (Index3 × Block T)) (world_T_sensor : Isometry3)
    (bounds : Bounds) (h0 : ℚ) (msg0 m0 msg : OccupancyGrid) (hg : layer.OnGrid)
    (hnd : layer.getAllAllocatedBlocks.Nodup) (hp : blocks.Perm layer.blocks)
    (hb : getLayerBounds layer = some bounds)
    (hi0 : initGrid layer bounds h0 msg0 = some m0)
    (hexact : IndexExact m0.info.width m0.info.height) :
    fillOccupancy config (layer.reordered blocks) world_T_sensor msg =
      fillOccupancy config layer world_T_sensor msg := by
  rw [fillOccupancy_eq, fillOccupancy_eq, getLayerBounds_reordered layer blocks hnd hp, hb]
  simp only [Option.some_bind]
  have hinit : initGrid (layer.reordered blocks) bounds (baseHeight config world_T_sensor)
      msg = initGrid layer bounds (baseHeight config world_T_sensor) msg := rfl
  rw [hinit]
  cases hi : initGrid layer bounds (baseHeight config world_T_sensor) msg with
  | none => rfl
  | some m1 =>
    simp only [Option.some_bind]
    congr 1
    obtain ⟨ew, eh⟩ := initGrid_dims_eq layer bounds _ h0 msg msg0 m1 m0 hi hi0
    unfold runSlices
    exact foldlM_congr_inv _ _ (fun c => c.info = m1.info)
      (fun c i r hc hr =>
        (slice_info config layer world_T_sensor bounds _ c r hr).trans hc)
      (fun c i hc => slice_reordered config layer blocks world_T_sensor bounds _ c hg hnd hp
        hb (by rw [hc]; exact initGrid_width layer bounds _ msg m1 hi)
        (by rw [hc]; exact initGrid_height layer bounds _ msg m1 hi)
        (by rw [hc, ew, eh]; exact hexact))
      _ m1 rfl

/-! ## Claims on the order of the blocks -/

/-- Claim C20. On a layer with distinct allocated block indices and the geometry that the
library gives its blocks, with the bounds of `getLayerBounds`, on every grid that carries
the map information set by `initGrid` for these bounds (whatever its cells), under exact
index arithmetic: two visited voxels of a slice with the same cell index are the same
voxel, so the grid that `fillOccupancySlice` produces is the same for every order of the
blocks, and so is the result of `fillOccupancy` from every message. -/
theorem C20_block_order_is_irrelevant [VoxelKind T] (config : OccupancyPublisher.Config)
    (layer : Layer T) (blocks : List (Index3 × Block T)) (world_T_sensor : Isometry3)
    (bounds : Bounds) (height h0 : ℚ) (msg0 m0 msg : OccupancyGrid) (hg : layer.OnGrid)
    (hnd : layer.getAllAllocatedBlocks.Nodup) (hp : blocks.Perm layer.blocks)
    (hb : getLayerBounds layer = some bounds)
    (hi : initGrid layer bounds h0 msg0 = some m0) (hm : msg.info = m0.info)
    (hexact : IndexExact m0.info.width m0.info.height) :
    (∀ v1 ∈ sliceVisits layer height, ∀ v2 ∈ sliceVisits layer height,
      cellIndex layer bounds msg v1.1 v1.2 = cellIndex layer bounds msg v2.1 v2.2 →
      v1 = v2) ∧
    fillOccupancySlice config (layer.reordered blocks) world_T_sensor bounds height msg =
      fillOccupancySlice config layer world_T_sensor bounds height msg ∧
    ∀ msg1, fillOccupancy config (layer.reordered blocks) world_T_sensor msg1 =
      fillOccupancy config layer world_T_sensor msg1 := by
  have hw : (msg.info.width : Int) = ⌈bounds.dims.x⌉ := by
    rw [hm]
    exact initGrid_width layer bounds h0 msg0 m0 hi
  have hh : (msg.info.height : Int) = ⌈bounds.dims.y⌉ := by
    rw [hm]
    exact initGrid_height layer bounds h0 msg0 m0 hi
  have he : IndexExact msg.info.width msg.info.height := by
    rw [hm]
    exact hexact
  exact ⟨fun v1 h1 v2 h2 heq =>
      slab_cells_injective layer bounds msg height hg hb hw hh he v1 v2 h1 h2 heq,
    slice_reordered config layer blocks world_T_sensor bounds height msg hg hnd hp hb hw hh he,
    fun msg1 => fillOccupancy_reordered config layer blocks world_T_sensor bounds h0 msg0 m0
      msg1 hg hnd hp hb hi hexact⟩

/-- Witness of C20 on `diagonalLayer` (two one-voxel blocks) and the grid that `initGrid`
builds for its bounds, 2 cells wide and high: both orders of the two blocks give the same
slice, with `100` in cell 1 and `-2` in cell 2, and the same finished grid. -/
theorem C20_block_order_is_irrelevant_witness :
    diagonalLayer.OnGrid ∧ diagonalLayer.getAllAllocatedBlocks.Nodup ∧
    diagonalBlocksSwapped.Perm diagonalLayer.blocks ∧
    getLayerBounds diagonalLayer = some scenarioBounds ∧
    initGrid diagonalLayer scenarioBounds 0 OccupancyGrid.fresh =
      some (scenarioGridWith [-1, -1, -1, -1]) ∧
    IndexExact (scenarioGridWith [-1, -1, -1, -1]).info.width
      (scenarioGridWith [-1, -1, -1, -1]).info.height ∧
    fillOccupancySlice scenarioConfig diagonalLayer Isometry3.identity scenarioBounds 0
      (scenarioGridWith [-1, -1, -1, -1]) = some (scenarioGridWith [-1, 100, -2, -1]) ∧
    fillOccupancySlice scenarioConfig (diagonalLayer.reordered diagonalBlocksSwapped)
      Isometry3.identity scenarioBounds 0 (scenarioGridWith [-1, -1, -1, -1]) =
      fillOccupancySlice scenarioConfig diagonalLayer Isometry3.identity scenarioBounds 0
        (scenarioGridWith [-1, -1, -1, -1]) ∧
    fillOccupancy scenarioConfig (diagonalLayer.reordered diagonalBlocksSwapped)
      Isometry3.identity OccupancyGrid.fresh =
      fillOccupancy scenarioConfig diagonalLayer Isometry3.identity OccupancyGrid.fresh ∧
    fillOccupancy scenarioConfig diagonalLayer Isometry3.identity OccupancyGrid.fresh =
      some (scenarioGridWith [-1, 100, -1, -1]) :=
  ⟨by decide!, by decide!, List.Perm.swap _ _ _, by decide!, by decide!, by decide!,
    by decide!,
    (C20_block_order_is_irrelevant scenarioConfig diagonalLayer diagonalBlocksSwapped
      Isometry3.identity scenarioBounds 0 0 OccupancyGrid.fresh
      (scenarioGridWith [-1, -1, -1, -1]) (scenarioGridWith [-1, -1, -1, -1]) (by decide!)
      (by decide!) (List.Perm.swap _ _ _) (by decide!) (by decide!) rfl (by decide!)).2.1,
    (C20_block_order_is_irrelevant scenarioConfig diagonalLayer diagonalBlocksSwapped
      Isometry3.identity scenarioBounds 0 0 OccupancyGrid.fresh
      (scenarioGridWith [-1, -1, -1, -1]) (scenarioGridWith [-1, -1, -1, -1]) (by decide!)
      (by decide!) (List.Perm.swap _ _ _) (by decide!) (by decide!) rfl (by decide!)).2.2
      OccupancyGrid.fresh,
    by decide!⟩

/-! ## Claims on repeated merges -/

theorem fold_step_of_mem {α γ : Type} (f : γ → α → Option γ) (l : List α) (a : α) (c r : γ)
    (h : l.foldlM f c = some r) (ha : a ∈ l) : ∃ c1 c2, f c1 a = some c2 := by
  obtain ⟨pre, post, hsplit⟩ := List.append_of_mem ha
  rw [hsplit] at h
  obtain ⟨c1, c2, -, hstep, -⟩ := fold_split f pre post a c r h
  exact ⟨c1, c2, hstep⟩

/-- A copying loop that has a result read every voxel of its index list. -/
theorem copy_loop_reads [VoxelKind T] (block : Block T) (w : ℚ) (l : List Nat)
    (nb0 nb : Block T) (h : l.foldlM (collate.copy block w) nb0 = some nb) (i : Nat)
    (hi : i ∈ l) : ∃ v, block.getVoxelByLinearIndex i = some v := by
  obtain ⟨c1, c2, hstep⟩ := fold_step_of_mem _ l i nb0 nb h hi
  unfold collate.copy at hstep
  cases hr : block.getVoxelByLinearIndex i with
  | none => rw [hr] at hstep; simp at hstep
  | some v => exact ⟨v, rfl⟩

/-- The copying loop has a result when every read succeeds and every write fits the block
that is written. -/
theorem copy_loop_some [VoxelKind T] (block : Block T) (w : ℚ) (l : List Nat) :
    ∀ nb0 : Block T, (∀ i ∈ l, ∃ v, block.getVoxelByLinearIndex i = some v) →
      (∀ i ∈ l, ∀ v, block.sample w i = some v →
        i < nb0.num_voxels ∧ i < nb0.voxels.length) →
      ∃ nb, l.foldlM (collate.copy block w) nb0 = some nb := by
  induction l with
  | nil => intro nb0 _ _; exact ⟨nb0, rfl⟩
  | cons i rest ih =>
    intro nb0 hread hfit
    obtain ⟨v, hv⟩ := hread i (List.mem_cons_self _ _)
    rw [List.foldlM_cons]
    unfold collate.copy
    rw [hv]
    simp only [Option.bind_eq_bind, Option.some_bind]
    cases hobs : VoxelKind.isObserved v w with
    | false =>
      simp only [Bool.false_eq_true, if_false, Option.some_bind]
      exact ih nb0 (fun j hj => hread j (List.mem_cons_of_mem _ hj))
        (fun j hj => hfit j (List.mem_cons_of_mem _ hj))
    | true =>
      have hs : block.sample w i = some v := (sample_eq_some_iff block w i v).2 ⟨hv, hobs⟩
      have hin := hfit i (List.mem_cons_self _ _) v hs
      unfold Block.setVoxelByLinearIndex
      simp only [if_true, if_pos hin, Option.some_bind]
      apply ih
      · exact fun j hj => hread j (List.mem_cons_of_mem _ hj)
      · intro j hj u hu
        have := hfit j (List.mem_cons_of_mem _ hj) u hu
        simpa [Block.num_voxels] using this

theorem writesFit_of_mergeBlock [VoxelKind T] (w : ℚ) (block b prior : Block T)
    (h : WritesFit w block prior) : WritesFit w block (mergeBlock w b prior) := by
  intro i v hs
  have := h i v hs
  simpa [mergeBlock, Block.num_voxels] using this

/-- Storing under an index the block that is already found there changes nothing. -/
theorem storeIn_found (idx : Index3) (b : Block T) (l : List (Index3 × Block T))
    (h : (l.find? fun kv => decide (kv.1 = idx)).map Prod.snd = some b) :
    Layer.storeIn idx b l = l := by
  induction l with
  | nil => rfl
  | cons kv rest ih =>
    unfold Layer.storeIn
    rw [List.find?_cons] at h
    by_cases hk : kv.1 = idx
    · rw [if_pos hk]
      simp only [hk, decide_True, Option.map_some', Option.some.injEq] at h
      rw [← h]
    · rw [if_neg hk]
      simp only [hk, decide_False] at h
      rw [ih h]

/-- What a step of `collate` that has a result tells about the source block: the scan has a
result, and when the block is not skipped every voxel of it can be read. -/
theorem collate_block_reads [VoxelKind T] (layer_in : Layer T) (w : ℚ) (cur r : Layer T)
    (idx : Index3) (block : Block T) (h : collate.block layer_in w cur idx = some r)
    (hb : layer_in.getBlockPtrByIndex idx = some block) :
    collate.scan block w (List.range block.num_voxels) = some (block.unobserved w) ∧
    (block.unobserved w = false →
      ∀ i ∈ List.range block.num_voxels, ∃ v, block.getVoxelByLinearIndex i = some v) := by
  unfold collate.block at h
  rw [hb] at h
  simp only [Option.some_bind] at h
  cases hs : collate.scan block w (List.range block.num_voxels) with
  | none => rw [hs] at h; simp at h
  | some u =>
    have hu := scan_range block w u hs
    subst hu
    refine ⟨rfl, fun hun i hi => ?_⟩
    rw [hs, Option.some_bind, hun] at h
    simp only [Bool.false_eq_true, if_false] at h
    cases hc : (List.range block.num_voxels).foldlM (collate.copy block w)
        { (cur.allocateBlockPtrByIndex idx).2 with
          has_data := block.has_data, updated := block.updated } with
    | none => rw [hc] at h; simp at h
    | some nb => exact copy_loop_reads block w _ _ nb hc i hi

/-- A step of `collate` leaves a store as it is when the store already holds, under the
index, the merge of the source block into itself. -/
theorem collate_block_fixed [VoxelKind T] (layer_in : Layer T) (w : ℚ) (s : Layer T)
    (idx : Index3) (block b : Block T)
    (hb : layer_in.getBlockPtrByIndex idx = some block)
    (hscan : collate.scan block w (List.range block.num_voxels) = some (block.unobserved w))
    (hread : block.unobserved w = false →
      ∀ i ∈ List.range block.num_voxels, ∃ v, block.getVoxelByLinearIndex i = some v)
    (hs : block.unobserved w = false → s.getBlockPtrByIndex idx = some b ∧
      mergeBlock w block b = b ∧ WritesFit w block b) :
    collate.block layer_in w s idx = some s := by
  unfold collate.block
  rw [hb]
  simp only [Option.some_bind]
  rw [hscan, Option.some_bind]
  cases hun : block.unobserved w with
  | true => rfl
  | false =>
    obtain ⟨hl, hm, hfit⟩ := hs hun
    simp only [Bool.false_eq_true, if_false]
    have halloc : s.allocateBlockPtrByIndex idx = (s, b) := by
      unfold Layer.allocateBlockPtrByIndex
      rw [hl]
    rw [halloc]
    simp only []
    obtain ⟨nb, hnb⟩ := copy_loop_some block w (List.range block.num_voxels)
      { b with has_data := block.has_data, updated := block.updated } (hread hun)
      (fun i _ v hv => hfit i v hv)
    rw [hnb]
    have hnb2 := (copy_loop block w b nb hnb).1
    rw [hm] at hnb2
    subst hnb2
    simp only [Option.map_some', Option.some.injEq]
    unfold Layer.storeBlock
    unfold Layer.getBlockPtrByIndex at hl
    rw [storeIn_found idx nb s.blocks hl]

/-- Claim C21. Merging the same incoming layer a second time leaves the store as the first
merge left it: whenever `collate layer_in store w` gives a store `s1`, `collate layer_in s1 w`
gives `s1` again (same blocks in the same order, same flags, same voxels); hence two merges
in a row give what one merge gives, also when the merge has no defined result; and on
well-formed layers with the same number of voxels per side the merges do have a result. -/
theorem C21_collate_is_idempotent [VoxelKind T] (layer_in store : Layer T) (w : ℚ) :
    (∀ s1, collate layer_in store w = some s1 → collate layer_in s1 w = some s1) ∧
    collateAll w store [layer_in, layer_in] = collateAll w store [layer_in] ∧
    (layer_in.WellFormed → store.WellFormed →
      layer_in.voxels_per_side = store.voxels_per_side →
      ∃ s1, collate layer_in store w = some s1 ∧ collate layer_in s1 w = some s1) := by
  have key : ∀ s1, collate layer_in store w = some s1 → collate layer_in s1 w = some s1 := by
    intro s1 h
    obtain ⟨-, hlook, hfit⟩ := collate_lookup layer_in store s1 w h
    have hstep : ∀ idx ∈ layer_in.getAllAllocatedBlocks,
        collate.block layer_in w s1 idx = some s1 := by
      intro idx hidx
      obtain ⟨block, hb⟩ := getBlockPtrByIndex_of_mem layer_in idx hidx
      obtain ⟨c1, c2, hc⟩ := fold_step_of_mem _ _ idx store s1 h hidx
      obtain ⟨hscan, hread⟩ := collate_block_reads layer_in w c1 c2 idx block hc hb
      refine collate_block_fixed layer_in w s1 idx block
        (mergeBlock w block (store.priorBlock idx)) hb hscan hread (fun hun => ⟨?_, ?_, ?_⟩)
      · rw [hlook idx]
        unfold collatedBlock
        rw [hb]
        simp only [hun, Bool.false_eq_true, if_false]
      · exact mergeBlock_idem w block _
      · exact writesFit_of_mergeBlock w block block _ (hfit idx block hb hun)
    unfold collate
    have hloop : ∀ ks : List Index3, (∀ idx ∈ ks, collate.block layer_in w s1 idx = some s1) →
        ks.foldlM (collate.block layer_in w) s1 = some s1 := by
      intro ks
      induction ks with
      | nil => intro _; rfl
      | cons k rest ih =>
        intro hk
        rw [List.foldlM_cons, hk k (List.mem_cons_self _ _)]
        exact ih fun idx hidx => hk idx (List.mem_cons_of_mem _ hidx)
    exact hloop _ hstep
  refine ⟨key, ?_, ?_⟩
  · rw [collateAll_cons, collateAll_cons]
    cases h : collate layer_in store w with
    | none => rfl
    | some s1 =>
      rw [Option.some_bind, Option.some_bind, collateAll_cons, key s1 h]
      rfl
  · intro hin hst hvps
    obtain ⟨s1, h1, -, -⟩ := collate_total layer_in store w hin hst hvps
    exact ⟨s1, h1, key s1 h1⟩

/-- Witness of C21: `scenarioStore` after merging `scenarioLayer` is `scenarioStoreMerged`,
and merging `scenarioLayer` again gives `scenarioStoreMerged` again. -/
theorem C21_collate_is_idempotent_witness :
    collate scenarioLayer scenarioStore 1 = some scenarioStoreMerged ∧
    collate scenarioLayer scenarioStoreMerged 1 = some scenarioStoreMerged :=
  ⟨by decide!,
    (C21_collate_is_idempotent scenarioLayer scenarioStore 1).1 scenarioStoreMerged
      (by decide!)⟩

end Lemmas

end Hydra
